import Mathlib

/-!
# Question-bank service: a shallow embedding of the request handlers

The development follows the repository's layout: the Mongoose models
(`models/*.js`), the collection operations the controllers call, the
middleware (`middleware/auth.js`, `middleware/role.js`), the handlers of
`controllers/questionController.js` and `controllers/courseController.js`,
`utils/csvHelpers.js`, the profile route of `routes/authRoutes.js`, and the
routes and middleware chains declared in `routes/questionRoutes.js`.

Conventions of the embedding:

* a collection is a list of documents in insertion order;
* an `ObjectId` is the 96-bit value as a natural number; request strings are
  cast with `castObjectId` (24 hexadecimal digits), and a failed cast is the
  `CastError` that the handler's `catch` turns into a 500;
* a value of `req.query` is a string, or an array of strings when the
  parameter is repeated in the URL (`QueryValue`); `page` and `limit` are
  carried as the integers their numerals denote, and the arithmetic the
  handler does with them is the arithmetic of doubles (`roundInt`);
* `undefined` is `none`;
* a parameter written with bracket keys (`a[b]=c`, an object) is outside the
  embedding;
* the identity service, the database's regular-expression engine and its text
  index are external and are parameters (`Env`).
-/

set_option autoImplicit false

namespace AgriQB

/-! ## Data model (`models/User.js`, `models/Course.js`, `models/Question.js`) -/

abbrev ObjectId := Nat

structure User where
  _id : ObjectId
  firebaseUid : String
  name : String
  blood_group : Option String
  phone_number : Option String
  email : String
  university_reg_no : Option String
  role : String
  createdAt : Nat
  updatedAt : Nat
deriving DecidableEq, Repr

structure Course where
  _id : ObjectId
  name : String
  code : String
  description : Option String
  tags : List String
  createdAt : Nat
  updatedAt : Nat
deriving DecidableEq, Repr

structure Question where
  _id : ObjectId
  title : String
  body : String
  course_id : ObjectId
  year : Int
  exam_type : String
  question_type : String
  difficulty : String
  images : List String
  attachments : List String
  tags : List String
  uploadedBy : ObjectId
  approved : Bool
  createdAt : Nat
  updatedAt : Nat
deriving DecidableEq, Repr

/-- The three collections of the database. -/
structure Store where
  users : List User
  courses : List Course
  questions : List Question
deriving DecidableEq, Repr

/-- Enum of `exam_type` in the Question schema. -/
def examTypes : List String := ["midterm", "final", "viva", "assignment", "quiz"]

/-- Enum of `question_type` in the Question schema. -/
def questionTypes : List String := ["MCQ", "short", "long", "problem"]

/-- Enum of `difficulty` in the Question schema. -/
def difficulties : List String := ["easy", "medium", "hard"]

/-! ## Responses -/

/-- Result of `.populate('course_id', 'name code')`. -/
structure CourseRef where
  _id : ObjectId
  name : String
  code : String
deriving DecidableEq, Repr

/-- Result of `.populate('uploadedBy', 'name email')`. -/
structure UserRef where
  _id : ObjectId
  name : String
  email : String
deriving DecidableEq, Repr

/-- A question document after both `populate` calls; a reference whose target
document does not exist is populated with `null` (`none`). -/
structure PopulatedQuestion where
  doc : Question
  course : Option CourseRef
  uploader : Option UserRef
deriving DecidableEq, Repr

/-- The `pagination` object of a listing; `pages = none` is the JSON `null`
that `NaN` and `Infinity` serialise to. -/
structure Pagination where
  total : Nat
  page : Int
  limit : Int
  pages : Option Int
deriving DecidableEq, Repr

/-- One object of the array `formatCSV` hands to `Papa.unparse`. -/
structure CsvRow where
  id : ObjectId
  title : String
  body : String
  course_name : String
  course_code : String
  year : Int
  exam_type : String
  question_type : String
  difficulty : String
  tags : String
  uploaded_by : String
  approved : Bool
  created_at : Nat
deriving DecidableEq, Repr

/-- A user document under `.select('-firebaseUid')`. -/
structure ProfileView where
  _id : ObjectId
  name : String
  blood_group : Option String
  phone_number : Option String
  email : String
  university_reg_no : Option String
  role : String
  createdAt : Nat
  updatedAt : Nat
deriving DecidableEq, Repr

inductive Payload where
  | message (text : String)
  | question (q : PopulatedQuestion)
  | listing (questions : List PopulatedQuestion) (pagination : Pagination)
  | csv (rows : List CsvRow)
  | json (questions : List PopulatedQuestion)
  | course (c : Course)
  | profile (u : Option ProfileView)
deriving DecidableEq, Repr

structure Response where
  status : Nat
  body : Payload
deriving DecidableEq, Repr

/-! ## ObjectId casting -/

def hexDigit? (c : Char) : Option Nat :=
  if 48 ≤ c.toNat ∧ c.toNat ≤ 57 then some (c.toNat - 48)
  else if 97 ≤ c.toNat ∧ c.toNat ≤ 102 then some (c.toNat - 87)
  else if 65 ≤ c.toNat ∧ c.toNat ≤ 70 then some (c.toNat - 55)
  else none

def hexValue : List Char → Option Nat
  | cs => cs.foldl (fun acc c => acc.bind fun a => (hexDigit? c).map fun d => 16 * a + d) (some 0)

/-- Mongoose's cast of a request string to an ObjectId: a string of 24
hexadecimal digits; anything else raises `CastError` (`none`). -/
def castObjectId (s : String) : Option ObjectId :=
  if s.length = 24 then hexValue s.toList else none

/-! ## Collection operations -/

/-- `Question.findById`. -/
def findQuestionById (s : Store) (id : ObjectId) : Option Question :=
  s.questions.find? fun q => q._id = id

/-- `Course.findById`. -/
def findCourseById (s : Store) (id : ObjectId) : Option Course :=
  s.courses.find? fun c => c._id = id

/-- `User.findById`. -/
def findUserById (s : Store) (id : ObjectId) : Option User :=
  s.users.find? fun u => u._id = id

/-- The two `populate` calls every question handler chains. -/
def populate (s : Store) (q : Question) : PopulatedQuestion :=
  { doc := q
    course := (findCourseById s q.course_id).map fun c => ⟨c._id, c.name, c.code⟩
    uploader := (findUserById s q.uploadedBy).map fun u => ⟨u._id, u.name, u.email⟩ }

/-- Replace the first document with the given id. -/
def replaceQuestion (id : ObjectId) (q' : Question) : List Question → List Question
  | [] => []
  | q :: rest => if q._id = id then q' :: rest else q :: replaceQuestion id q' rest

/-- `Question.findByIdAndDelete`: remove the first document with the given id. -/
def removeQuestion (id : ObjectId) : List Question → List Question
  | [] => []
  | q :: rest => if q._id = id then rest else q :: removeQuestion id rest

/-! ## Strings

JavaScript's `split` on a one-character separator and `trim`, on character
lists. -/

/-- Worker of `splitOn`: `acc` holds the current segment, reversed. -/
def splitAux (sep : Char) : List Char → List Char → List (List Char)
  | acc, [] => [acc.reverse]
  | acc, c :: cs =>
    if c = sep then acc.reverse :: splitAux sep [] cs else splitAux sep (c :: acc) cs

/-- `str.split(sep)` for a one-character separator. -/
def splitOn (sep : Char) (cs : List Char) : List (List Char) := splitAux sep [] cs

/-- White space and line terminators, the characters `String.prototype.trim`
strips. -/
def isJsSpace (c : Char) : Bool :=
  c.toNat ∈ [0x09, 0x0A, 0x0B, 0x0C, 0x0D, 0x20, 0xA0, 0x1680, 0x2028, 0x2029, 0x202F,
    0x205F, 0x3000, 0xFEFF] || (0x2000 ≤ c.toNat && c.toNat ≤ 0x200A)

/-- `str.trim()`. -/
def jsTrim (cs : List Char) : List Char :=
  ((cs.dropWhile isJsSpace).reverse.dropWhile isJsSpace).reverse

/-- Truthiness of an optional string: present and not empty. -/
def truthy (s : Option String) : Bool := s.any fun v => v ≠ ""

/-- A value of `req.query`: a parameter given once is a string, a parameter
repeated in the URL is an array of strings. -/
inductive QueryValue where
  | str (s : String)
  | list (items : List String)
deriving DecidableEq, Repr

instance : Coe String QueryValue := ⟨QueryValue.str⟩

/-- Truthiness of an optional query value, the test of `if (course)` and its
siblings: a string that is not empty, or any array. -/
def present : Option QueryValue → Bool
  | some (.str s) => decide (s ≠ "")
  | some (.list _) => true
  | none => false

/-- `String(value)`: an array is its items joined by commas. -/
def QueryValue.toString : QueryValue → String
  | .str s => s
  | .list items => ",".intercalate items

/-- The strings a validator of express-validator runs on: the value, or each
item of an array. -/
def QueryValue.items : QueryValue → List String
  | .str s => [s]
  | .list items => items

/-! ## JavaScript numbers

The handlers compute with doubles. The numbers they meet are whole, so a
number value is an integer that is a double, an infinity, or `NaN`; a whole
number of more than 53 significant bits is rounded to the nearest double, ties
to the even mantissa. -/

/-- Worker of `bitLength`. -/
def bitLengthAux : Nat → Nat → Nat
  | 0, _ => 0
  | fuel + 1, n => if n = 0 then 0 else bitLengthAux fuel (n / 2) + 1

/-- The number of binary digits of `n`. -/
def bitLength (n : Nat) : Nat := bitLengthAux n n

/-- The quotient `a / b` rounded to the nearest whole number, a tie to the
even one. -/
def roundHalfEven (a b : Nat) : Nat :=
  if 2 * (a % b) < b then a / b
  else if b < 2 * (a % b) then a / b + 1
  else if a / b % 2 = 0 then a / b else a / b + 1

/-- The double nearest to a natural number; `none` when that is `Infinity`
(the result does not fit 1024 bits). -/
def roundNat (n : Nat) : Option Nat :=
  if n ≤ 2 ^ 53 then some n
  else
    let e := bitLength n - 53
    let v := roundHalfEven n (2 ^ e) * 2 ^ e
    if bitLength v ≤ 1024 then some v else none

/-- A number value as the handlers meet it. -/
inductive JsNum where
  | int (n : Int)
  | inf (negative : Bool)
  | nan
deriving DecidableEq, Repr

/-- The number value of a whole number: what `Number` and `parseInt` give for
its numeral, and what an arithmetic operation gives for its exact result. -/
def roundInt (n : Int) : JsNum :=
  match roundNat n.natAbs with
  | some v => .int (if n < 0 then -(v : Int) else v)
  | none => .inf (decide (n < 0))

/-- The product of two number values. -/
def JsNum.mul : JsNum → JsNum → JsNum
  | .int a, .int b => roundInt (a * b)
  | .int a, .inf negative => if a = 0 then .nan else .inf (negative != decide (a < 0))
  | .inf negative, .int b => if b = 0 then .nan else .inf (negative != decide (b < 0))
  | .inf n1, .inf n2 => .inf (n1 != n2)
  | _, _ => .nan

/-- The double nearest to the quotient `a / b` of two positive whole numbers,
as a pair `(m, d)` that stands for `m / 2^d` (for `m * 2^(-d)` when `d` is
negative): `d` is chosen so that `a * 2^d / b` lies between `2^52` and `2^53`,
and `m` is that quotient rounded. A quotient of two whole doubles is never so
large that it rounds to `Infinity`, and one too small for 53 bits has the same
ceiling and floor, 1 and 0, as the value given here. -/
def roundQuot (a b : Nat) : Nat × Int :=
  let d0 : Int := 53 + (bitLength b : Int) - (bitLength a : Int)
  let d : Int := if 2 ^ 53 * (b * 2 ^ (-d0).toNat) ≤ a * 2 ^ d0.toNat then d0 - 1 else d0
  (roundHalfEven (a * 2 ^ d.toNat) (b * 2 ^ (-d).toNat), d)

/-- `Math.ceil` of the value `roundQuot` stands for. -/
def ceilOf (x : Nat × Int) : Nat :=
  (x.1 * 2 ^ (-x.2).toNat + 2 ^ x.2.toNat - 1) / 2 ^ x.2.toNat

/-- `Math.floor` of the value `roundQuot` stands for. -/
def floorOf (x : Nat × Int) : Nat := x.1 * 2 ^ (-x.2).toNat / 2 ^ x.2.toNat

/-- The values of the longest prefix made of digits of the radix. -/
def leadingDigits (radix : Nat) : List Char → List Nat
  | [] => []
  | c :: cs =>
    match hexDigit? c with
    | some v => if v < radix then v :: leadingDigits radix cs else []
    | none => []

/-- `parseInt(string)` without a radix: leading white space is skipped, a
sign is read, `0x` or `0X` selects radix 16, and the longest prefix of digits
is the value; `NaN` when there is no digit. -/
def jsParseInt (s : String) : JsNum :=
  let t := s.toList.dropWhile isJsSpace
  let negative := decide (t.head? = some '-')
  let t := if t.head? = some '-' ∨ t.head? = some '+' then t.tail else t
  let hex := decide (['0', 'x'].isPrefixOf t = true ∨ ['0', 'X'].isPrefixOf t = true)
  let radix : Nat := if hex then 16 else 10
  let digits := leadingDigits radix (if hex then t.drop 2 else t)
  if digits = [] then .nan
  else
    let value : Int := digits.foldl (fun acc v => acc * radix + v) 0
    roundInt (if negative then -value else value)

/-! ## Regular expressions

`Course.find` is called with `$regex` and option `i`; the database evaluates
the pattern with its regular-expression engine, which is outside the
repository. The handlers take the engine as a parameter (`Env.regex`), and
every theorem on a handler is stated for an arbitrary engine.

To evaluate the handlers on sample requests an engine is needed:
`fragmentRegex` below is a backtracking matcher that implements the part of
the PCRE syntax made of literals, escaped punctuation, `.`, `^`, `$`, groups,
alternation and the quantifiers `*`, `+`, `?`, and folds the letters `A` to
`Z`. It is evaluated on patterns of that part only. It gives no matcher to a
malformed pattern, and none to a pattern with syntax it does not implement
(classes, counted repetition, a backslash followed by a letter or digit,
`(?`). -/

inductive Regex where
  | eps
  | lit (c : Char)
  | dot
  | bol
  | eol
  | seq (a b : Regex)
  | alt (a b : Regex)
  | star (a : Regex)
deriving DecidableEq, Repr

/-- A position of the subject: whether it is the start of the subject, and
what remains to be read. -/
abbrev Pos := Bool × List Char

/-- Closure of a one-iteration step under repetition; an iteration that
consumes nothing is not repeated, so `n` iterations suffice on a subject of
length `n`. -/
def starRems (step : Pos → List Pos) : Nat → Pos → List Pos
  | 0, p => [p]
  | n + 1, p =>
    p :: ((step p).filter fun p' => p'.2.length < p.2.length).flatMap (starRems step n)

/-- All positions at which a match of `r` starting at the given position can
end. Letters are compared without case (option `i`): the letters `A` to `Z`
are folded, any other character is compared as it is. -/
def Regex.rems : Regex → Pos → List Pos
  | .eps, p => [p]
  | .lit d, (_, s) =>
    match s with
    | c :: t => if c.toLower = d.toLower then [(false, t)] else []
    | [] => []
  | .dot, (_, s) =>
    match s with
    | c :: t => if c = '\n' then [] else [(false, t)]
    | [] => []
  | .bol, p => if p.1 then [p] else []
  | .eol, p => if p.2 = [] ∨ p.2 = ['\n'] then [p] else []
  | .seq a b, p => (a.rems p).flatMap b.rems
  | .alt a b, p => a.rems p ++ b.rems p
  | .star a, p => starRems a.rems p.2.length p

/-- Unanchored search from the given position onwards. -/
def Regex.searchFrom (r : Regex) : Bool → List Char → Bool
  | st, [] => !(r.rems (st, [])).isEmpty
  | st, c :: t => !(r.rems (st, c :: t)).isEmpty || r.searchFrom false t

/-- Whether the pattern matches somewhere in the subject. -/
def Regex.search (r : Regex) (subject : List Char) : Bool := r.searchFrom true subject

/-- Characters with a meaning of their own in a pattern. -/
def metaChars : List Char :=
  ['\\', '^', '$', '.', '|', '?', '*', '+', '(', ')', '[', '\x7b']

/-- One nesting level of the parser: the finished branches of the
alternation, and the sequence being built (`cur` is in reverse order). -/
structure Frame where
  alts : List Regex
  cur : List Regex
deriving DecidableEq, Repr

def seqOf : List Regex → Regex
  | [] => .eps
  | [r] => r
  | r :: rs => .seq r (seqOf rs)

def altOf : List Regex → Regex
  | [] => .eps
  | [r] => r
  | r :: rs => .alt r (altOf rs)

/-- Close a nesting level: the alternation of its branches. -/
def Frame.close (f : Frame) : Regex := altOf (f.alts ++ [seqOf f.cur.reverse])

/-- What the parser has just read: `item quant` is the ordinary state, where
`quant` tells whether the last item of the sequence may take a quantifier. -/
inductive Mode where
  | item (quant : Bool)
  | escape
  | opened
  | quantified
deriving DecidableEq, Repr

structure ParseState where
  frame : Frame
  stack : List Frame
  mode : Mode
deriving DecidableEq, Repr

/-- Read one character in the ordinary state. -/
def parseItem (f : Frame) (stack : List Frame) (quant : Bool) (c : Char) : Option ParseState :=
  if c = '\\' then some ⟨f, stack, .escape⟩
  else if c = '(' then some ⟨⟨[], []⟩, f :: stack, .opened⟩
  else if c = ')' then
    match stack with
    | g :: stack' => some ⟨{ g with cur := f.close :: g.cur }, stack', .item true⟩
    | [] => none
  else if c = '|' then some ⟨⟨f.alts ++ [seqOf f.cur.reverse], []⟩, stack, .item false⟩
  else if c = '*' ∨ c = '+' ∨ c = '?' then
    match f.cur, quant with
    | r :: rest, true =>
      let r' := if c = '*' then Regex.star r
        else if c = '+' then Regex.seq r (Regex.star r)
        else Regex.alt r Regex.eps
      some ⟨{ f with cur := r' :: rest }, stack, .quantified⟩
    | _, _ => none
  else if c = '[' ∨ c = '\x7b' then none
  else if c = '.' then some ⟨{ f with cur := .dot :: f.cur }, stack, .item true⟩
  else if c = '^' then some ⟨{ f with cur := .bol :: f.cur }, stack, .item false⟩
  else if c = '$' then some ⟨{ f with cur := .eol :: f.cur }, stack, .item false⟩
  else some ⟨{ f with cur := .lit c :: f.cur }, stack, .item true⟩

/-- Read one character. After a backslash only punctuation is in the
fragment; `(?` is not; a `?` after a quantifier makes it lazy, which does not
change whether a match exists, and a `+` after a quantifier (possessive) is
not in the fragment. -/
def parseStep (st : ParseState) (c : Char) : Option ParseState :=
  match st.mode with
  | .item quant => parseItem st.frame st.stack quant c
  | .escape =>
    if c.isAlphanum then none
    else some ⟨{ st.frame with cur := .lit c :: st.frame.cur }, st.stack, .item true⟩
  | .opened => if c = '?' then none else parseItem st.frame st.stack false c
  | .quantified =>
    if c = '?' then some ⟨st.frame, st.stack, .item false⟩
    else if c = '+' then none
    else parseItem st.frame st.stack false c

/-- Run the parser over the pattern; at the end no group may be open and no
backslash pending. -/
def parseAux : List Char → ParseState → Option Regex
  | [], st =>
    match st.stack, st.mode with
    | _ :: _, _ => none
    | [], .escape => none
    | [], _ => some st.frame.close
  | c :: cs, st =>
    match parseStep st c with
    | none => none
    | some st' => parseAux cs st'

/-- Parse a pattern of the fragment. -/
def parseRegex (pattern : List Char) : Option Regex :=
  parseAux pattern ⟨⟨[], []⟩, [], .item false⟩

/-- The sample engine: compile with option `i`, then search. -/
def fragmentRegex (pattern : String) : Option (String → Bool) :=
  (parseRegex pattern.toList).map fun r subject => r.search subject.toList

/-! ## `getQuestionById` (questionController.js, lines 160-187) -/

def getQuestionById (s : Store) (user : Option User) (idParam : String) : Response :=
  match castObjectId idParam with
  | none => ⟨500, .message "Failed to fetch question"⟩
  | some id =>
    match (findQuestionById s id).map (populate s) with
    | none => ⟨404, .message "Question not found"⟩
    | some question =>
      match user with
      | some u =>
        if u.role ≠ "admin" ∧ question.doc.approved = false then
          -- `question.uploadedBy._id` is read only when the two tests before it hold
          match question.uploader with
          | none => ⟨500, .message "Failed to fetch question"⟩
          | some up =>
            if up._id ≠ u._id then ⟨403, .message "Access denied"⟩
            else ⟨200, .question question⟩
        else ⟨200, .question question⟩
      | none =>
        if question.doc.approved = false then ⟨403, .message "Access denied"⟩
        else ⟨200, .question question⟩

/-! ## `updateQuestion` (lines 194-256) and `deleteQuestion` (lines 263-286) -/

/-- The ten fields `updateQuestion` destructures from `req.body`. -/
structure QuestionUpdate where
  title : Option String
  body : Option String
  course_id : Option String
  year : Option Int
  exam_type : Option String
  question_type : Option String
  difficulty : Option String
  images : Option (List String)
  attachments : Option (List String)
  tags : Option (List String)
deriving DecidableEq, Repr

/-- Update validators run by `runValidators: true` on the paths being set:
`required` on the two strings (an empty string fails it) and the three
enums. -/
def updateValid (b : QuestionUpdate) : Bool :=
  (b.title.all fun t => t ≠ "") &&
  (b.body.all fun t => t ≠ "") &&
  (b.exam_type.all fun t => t ∈ examTypes) &&
  (b.question_type.all fun t => t ∈ questionTypes) &&
  (b.difficulty.all fun t => t ∈ difficulties)

/-- The `$set` that `findByIdAndUpdate` performs: keys whose value is
`undefined` are dropped from the update, the others overwrite the stored
value, and the `timestamps` option refreshes `updatedAt`. -/
def applyUpdate (q : Question) (b : QuestionUpdate) (courseId : Option ObjectId) (now : Nat) :
    Question :=
  { q with
    title := b.title.getD q.title
    body := b.body.getD q.body
    course_id := courseId.getD q.course_id
    year := b.year.getD q.year
    exam_type := b.exam_type.getD q.exam_type
    question_type := b.question_type.getD q.question_type
    difficulty := b.difficulty.getD q.difficulty
    images := b.images.getD q.images
    attachments := b.attachments.getD q.attachments
    tags := b.tags.getD q.tags
    updatedAt := now }

/-- The part of `updateQuestion` after the two access checks (lines 211-251). -/
def performUpdate (s : Store) (now : Nat) (id : ObjectId) (question : Question)
    (b : QuestionUpdate) : Store × Response :=
  let write (courseId : Option ObjectId) : Store × Response :=
    if updateValid b then
      let q' := applyUpdate question b courseId now
      let s' := { s with questions := replaceQuestion id q' s.questions }
      (s', ⟨200, .question (populate s' q')⟩)
    else (s, ⟨500, .message "Failed to update question"⟩)
  match b.course_id with
  | none => write none
  | some c =>
    if c = "" then
      -- `if (course_id)` is false and the empty string then fails the ObjectId cast
      (s, ⟨500, .message "Failed to update question"⟩)
    else
      match castObjectId c with
      | none => (s, ⟨500, .message "Failed to update question"⟩)
      | some cid =>
        match findCourseById s cid with
        | none => (s, ⟨400, .message "Invalid course ID"⟩)
        | some _ => write (some cid)

def updateQuestion (s : Store) (now : Nat) (user : User) (idParam : String)
    (b : QuestionUpdate) : Store × Response :=
  match castObjectId idParam with
  | none => (s, ⟨500, .message "Failed to update question"⟩)
  | some id =>
    match findQuestionById s id with
    | none => (s, ⟨404, .message "Question not found"⟩)
    | some question =>
      if user.role ≠ "admin" ∧ question.uploadedBy ≠ user._id then
        (s, ⟨403, .message "Access denied"⟩)
      else if question.approved = true ∧ user.role ≠ "admin" then
        (s, ⟨403, .message "Cannot update approved question"⟩)
      else performUpdate s now id question b

def deleteQuestion (s : Store) (user : User) (idParam : String) : Store × Response :=
  match castObjectId idParam with
  | none => (s, ⟨500, .message "Failed to delete question"⟩)
  | some id =>
    match findQuestionById s id with
    | none => (s, ⟨404, .message "Question not found"⟩)
    | some question =>
      if user.role ≠ "admin" ∧ question.uploadedBy ≠ user._id then
        (s, ⟨403, .message "Access denied"⟩)
      else if question.approved = true ∧ user.role ≠ "admin" then
        (s, ⟨403, .message "Cannot delete approved question"⟩)
      else
        ({ s with questions := removeQuestion id s.questions },
          ⟨200, .message "Question deleted successfully"⟩)


/-! ## Environment of a request -/

/-- The claims of a verified identity token. -/
structure DecodedToken where
  uid : String
  email : Option String
  name : Option String
deriving DecidableEq, Repr

/-- What a handler takes from outside the repository: the identity service
(`verifyToken`, `none` when it rejects the token), the database's regular
expression engine (`none` when it rejects the pattern) and text index
(`textScore search title body`, a document matching a search when its score
is positive), the clock, and the id the driver gives a new document. -/
structure Env where
  verifyToken : String → Option DecodedToken
  regex : String → Option (String → Bool)
  textScore : String → String → String → Nat
  now : Nat
  currentYear : Int
  newId : ObjectId

/-! ## `getQuestions` (questionController.js, lines 72-153) -/

/-- The parameters `getQuestions` destructures from `req.query`. -/
structure ListParams where
  course : Option QueryValue
  year : Option QueryValue
  exam_type : Option QueryValue
  question_type : Option QueryValue
  tags : Option QueryValue
  q : Option QueryValue
  page : Option Int
  limit : Option Int
deriving DecidableEq, Repr

/-- The `query` object handed to `Question.find` and `countDocuments`: each
key that is present is one conjunct of the predicate. -/
structure QuestionFilter where
  approved : Option Bool
  course_id : Option (List ObjectId)
  year : Option JsNum
  exam_type : Option QueryValue
  question_type : Option QueryValue
  tags : Option (List String)
  text : Option String
deriving DecidableEq, Repr

/-- A query value as the condition on a string path: equality with a string;
an array given for a scalar path is cast by Mongoose to `$in`. -/
def QueryValue.selects (v : QueryValue) (field : String) : Bool :=
  match v with
  | .str s => field = s
  | .list items => field ∈ items

/-- A number as the condition on the path `year`: equality; no stored year is
an infinity. -/
def JsNum.selects (n : JsNum) (field : Int) : Bool :=
  match n with
  | .int k => field = k
  | _ => false

/-- Whether a document satisfies the predicate: equality on scalar keys,
`$in` on `course_id`, `$in` on the array field `tags` (some element of the
array is in the list), `$text` through the text index. -/
def QuestionFilter.matches (env : Env) (f : QuestionFilter) (q : Question) : Bool :=
  (f.approved.all fun v => q.approved = v) &&
  (f.course_id.all fun ids => q.course_id ∈ ids) &&
  (f.year.all fun y => y.selects q.year) &&
  (f.exam_type.all fun t => t.selects q.exam_type) &&
  (f.question_type.all fun t => t.selects q.question_type) &&
  (f.tags.all fun ts => q.tags.any fun t => t ∈ ts) &&
  (f.text.all fun search => 0 < env.textScore search q.title q.body)

/-- The course lookup of lines 95-101 (and 345-351): the ids of the courses
whose name or code the pattern matches; `none` when the database rejects the
pattern. -/
def resolveCourseIds (env : Env) (s : Store) (course : String) : Option (List ObjectId) :=
  (env.regex course).map fun m =>
    (s.courses.filter fun c => m c.name || m c.code).map fun c => c._id

/-- The `tagArray` of line 122. -/
def tagArray (tags : String) : List String :=
  (splitOn ',' tags.toList).map fun seg => String.mk (jsTrim seg)

/-- Lines 94-103 (and 344-353): `if (course)` and the course lookup. A
repeated parameter hands `$regex` an array, which the cast of the lookup
rejects; `none` is the exception thrown. -/
def courseFilter (env : Env) (s : Store) (course : Option QueryValue) (query : QuestionFilter) :
    Option QuestionFilter :=
  if present course then
    match course with
    | some (.str pattern) =>
      (resolveCourseIds env s pattern).map fun ids => { query with course_id := some ids }
    | _ => none
  else some query

/-- Lines 106-108 (and 356-358): `if (year) query.year = parseInt(year)`. A
`NaN` fails the cast of the path `year` when the query runs. -/
def yearFilter (year : Option QueryValue) (query : QuestionFilter) : Option QuestionFilter :=
  if present year then
    match jsParseInt ((year.map QueryValue.toString).getD "") with
    | .nan => none
    | n => some { query with year := some n }
  else some query

/-- Lines 121-124: `if (tags)`, then `tags.split(',')`; an array has no
`split`, and calling it throws. -/
def tagsFilter (tags : Option QueryValue) (query : QuestionFilter) : Option QuestionFilter :=
  if present tags then
    match tags with
    | some (.str t) => some { query with tags := some (tagArray t) }
    | _ => none
  else some query

/-- Lines 127-129: `if (q) query.$text = { $search: q }`; an array fails the
cast of `$search` to a string when the query runs. -/
def textFilter (q : Option QueryValue) (query : QuestionFilter) : Option QuestionFilter :=
  if present q then
    match q with
    | some (.str search) => some { query with text := some search }
    | _ => none
  else some query

/-- Lines 86-129: the predicate built from the actor and the parameters;
`none` when building it, or running a query with it, throws. -/
def listQuery (env : Env) (s : Store) (user : Option User) (p : ListParams) :
    Option QuestionFilter :=
  let q0 : QuestionFilter := ⟨some true, none, none, none, none, none, none⟩
  let q1 := if user.any (fun u => u.role = "admin") then { q0 with approved := none } else q0
  (courseFilter env s p.course q1).bind fun q2 =>
  (yearFilter p.year q2).bind fun q3 =>
    let q4 := if present p.exam_type then { q3 with exam_type := p.exam_type } else q3
    let q5 := if present p.question_type then { q4 with question_type := p.question_type } else q4
    (tagsFilter p.tags q5).bind fun q6 => textFilter p.q q6

/-- Order of `.sort(createdAt: -1)`: newest first, documents of equal
`createdAt` in collection order. -/
def sortByCreatedAtDesc (l : List Question) : List Question :=
  l.insertionSort fun a b => b.createdAt ≤ a.createdAt

/-- All documents matching the predicate, in the order of the sort. -/
def matching (env : Env) (s : Store) (f : QuestionFilter) : List Question :=
  sortByCreatedAtDesc (s.questions.filter (f.matches env))

/-- `Question.find(query).skip(skip).limit(limit).sort(createdAt: -1)`: the
database sorts, then skips, then limits, whatever the order of the calls. The
database rejects a skip that is negative, `NaN` or an infinity, and a skip or
limit that does not fit a signed 64-bit integer; a limit of 0 is no limit, and
a negative limit is read as its absolute value. -/
def findPage (env : Env) (s : Store) (f : QuestionFilter) (skip : JsNum) (limit : Int) :
    Option (List Question) :=
  match skip with
  | .int k =>
    if k < 0 ∨ 2 ^ 63 ≤ k ∨ 2 ^ 63 ≤ limit.natAbs then none
    else
      let rest := (matching env s f).drop k.toNat
      some (if limit = 0 then rest else rest.take limit.natAbs)
  | _ => none

/-- `Question.countDocuments(query)`. -/
def countDocuments (env : Env) (s : Store) (f : QuestionFilter) : Nat :=
  (s.questions.filter (f.matches env)).length

/-- `Math.ceil(total / limit)` as it is serialised, for a `limit` that is a
whole double: the quotient is rounded to a double before the ceiling is
taken; `null` when `limit` is 0 (`NaN` or `Infinity`). -/
def jsCeilDiv (total : Nat) (limit : Int) : Option Int :=
  match roundNat total with
  | none => none
  | some t =>
    if limit = 0 then none
    else if t = 0 then some 0
    else if 0 < limit then some (ceilOf (roundQuot t limit.natAbs))
    else some (-(floorOf (roundQuot t limit.natAbs) : Int))

/-- `getQuestions`. `page` and `limit` are numerals (defaults 1 and 10), and
`parseInt(page)`, `parseInt(limit)`, `(page - 1) * limit` and
`total / limit` are computed on doubles. A numeral too large for a finite
double makes `skip` or the limit an infinity or `NaN`, which `find` rejects. -/
def getQuestions (env : Env) (s : Store) (user : Option User) (p : ListParams) : Response :=
  match listQuery env s user p with
  | none => ⟨500, .message "Failed to fetch questions"⟩
  | some query =>
    match roundInt (p.page.getD 1), roundInt (p.limit.getD 10) with
    | .int page, .int limit =>
      let skip := (roundInt (page - 1)).mul (.int limit)
      match findPage env s query skip limit with
      | none => ⟨500, .message "Failed to fetch questions"⟩
      | some questions =>
        let total := countDocuments env s query
        ⟨200, .listing (questions.map (populate s)) ⟨total, page, limit, jsCeilDiv total limit⟩⟩
    | _, _ => ⟨500, .message "Failed to fetch questions"⟩

/-! ## `exportQuestions`: the predicate (lines 339-358) -/

/-- The parameters `exportQuestions` destructures from `req.query`. -/
structure ExportParams where
  course : Option QueryValue
  year : Option QueryValue
  format : Option QueryValue
deriving DecidableEq, Repr

/-- Lines 341-358: the predicate of the export; `none` when building it, or
running the query with it, throws. -/
def exportQuery (env : Env) (s : Store) (p : ExportParams) : Option QuestionFilter :=
  let q0 : QuestionFilter := ⟨none, none, none, none, none, none, none⟩
  (courseFilter env s p.course q0).bind fun q1 => yearFilter p.year q1

/-! ## Middleware (`middleware/auth.js`, `middleware/role.js`, express-validator) -/

/-- The request as it travels down a middleware chain: what the client sent,
and what middleware attached (`req.user`, the validation errors that the
express-validator chains record on the request). -/
structure Req where
  authorization : Option String
  query : ListParams
  user : Option User
  validationErrors : List String
deriving DecidableEq, Repr

/-- A middleware either calls `next()` or answers. -/
inductive Outcome where
  | next (s : Store) (req : Req)
  | done (s : Store) (res : Response)
deriving DecidableEq, Repr

abbrev Middleware := Env → Store → Req → Outcome

/-- `user.save()` of a new user: the `required` validators of the schema
(an empty string fails `required`) and the unique indexes. -/
def canSaveUser (s : Store) (u : User) : Bool :=
  u.name ≠ "" && u.email ≠ "" && u.firebaseUid ≠ "" &&
  s.users.all fun v => v.firebaseUid ≠ u.firebaseUid && v.email ≠ u.email

/-- The `authenticate` middleware (auth.js, lines 14-44). -/
def authenticate : Middleware := fun env s req =>
  match req.authorization with
  | none => .done s ⟨401, .message "Authorization token required"⟩
  | some authHeader =>
    if authHeader = "" ∨ ¬ "Bearer ".toList.isPrefixOf authHeader.toList then
      .done s ⟨401, .message "Authorization token required"⟩
    else
      let token := ((splitOn ' ' authHeader.toList).get? 1).map String.mk
      match token.bind env.verifyToken with
      | none => .done s ⟨401, .message "Invalid or expired token"⟩
      | some decodedToken =>
        match s.users.find? fun u => u.firebaseUid = decodedToken.uid with
        | some user => .next s { req with user := some user }
        | none =>
          let user : User :=
            { _id := env.newId
              firebaseUid := decodedToken.uid
              name := decodedToken.name.getD ""
              blood_group := none
              phone_number := none
              email := decodedToken.email.getD ""
              university_reg_no := none
              role := "user"
              createdAt := env.now
              updatedAt := env.now }
          if canSaveUser s user then
            .next { s with users := s.users ++ [user] } { req with user := some user }
          else .done s ⟨401, .message "Invalid or expired token"⟩

/-- The `adminOnly` middleware (role.js, lines 10-15); reading `role` of an
absent `req.user` throws, which the application's error handler (index.js,
lines 69-72) answers. -/
def adminOnly : Middleware := fun _ s req =>
  match req.user with
  | none => .done s ⟨500, .message "Something went wrong!"⟩
  | some user =>
    if user.role ≠ "admin" then
      .done s ⟨403, .message "Access denied. Admin privileges required."⟩
    else .next s req

/-- An express-validator chain used as middleware: it runs its check,
records the message on the request when the check fails, and calls `next()`. -/
def check (rule : Env → ListParams → Option String) : Middleware := fun env s req =>
  match rule env req.query with
  | none => .next s req
  | some msg => .next s { req with validationErrors := req.validationErrors ++ [msg] }

/-- Run the middleware of a chain in order, up to the first that answers. -/
def runMiddleware (env : Env) : List Middleware → Store → Req → Outcome
  | [], s, req => .next s req
  | m :: ms, s, req =>
    match m env s req with
    | .next s' req' => runMiddleware env ms s' req'
    | .done s' res => .done s' res

/-- A route: its middleware, then its handler. -/
def runRoute (env : Env) (chain : List Middleware) (handler : Env → Store → Req → Store × Response)
    (s : Store) (req : Req) : Store × Response :=
  match runMiddleware env chain s req with
  | .next s' req' => handler env s' req'
  | .done s' res => (s', res)

/-! ## `router.get('/')` (questionRoutes.js, lines 51-64) -/

/-- The check of `isString()`: an array is not a string. -/
def isStringValue (message : String) (v : Option QueryValue) : Option String :=
  match v with
  | some (.list _) => some message
  | _ => none

/-- The check of `isInt` with bounds on one string: an optional sign, then
one or more decimal digits, and a value within the bounds. -/
def isIntString (lo hi : Int) (t : String) : Bool :=
  let cs := t.toList
  let negative := decide (cs.head? = some '-')
  let ds := if cs.head? = some '-' ∨ cs.head? = some '+' then cs.tail else cs
  let value : Int := (leadingDigits 10 ds).foldl (fun acc v => acc * 10 + v) 0
  decide (ds ≠ [] ∧ (leadingDigits 10 ds).length = ds.length ∧
    lo ≤ (if negative then -value else value) ∧ (if negative then -value else value) ≤ hi)

/-- The eight validation chains of the route, in order: `optional()` skips an
absent parameter; a check on strings is run on each item of an array. -/
def listValidators : List (Env → ListParams → Option String) :=
  [ fun _ p => isStringValue "Course must be a string" p.course,
    fun env p => p.year.bind fun y =>
      if y.items.all (isIntString 1900 env.currentYear) then none
      else some "Valid year is required",
    fun _ p => p.exam_type.bind fun t =>
      if t.items.all (fun x => x ∈ examTypes) then none else some "Invalid exam type",
    fun _ p => p.question_type.bind fun t =>
      if t.items.all (fun x => x ∈ questionTypes) then none else some "Invalid question type",
    fun _ p => isStringValue "Tags must be a string (comma separated)" p.tags,
    fun _ p => isStringValue "Search query must be a string" p.q,
    fun _ p => p.page.bind fun n =>
      if 1 ≤ n then none else some "Page must be a positive integer",
    fun _ p => p.limit.bind fun n =>
      if 1 ≤ n ∧ n ≤ 100 then none else some "Limit must be between 1 and 100" ]

/-- The middleware chain declared for `GET /`. -/
def listChain : List Middleware := listValidators.map check

/-- The route `GET /`: the validation chains, then `getQuestions`. -/
def listRoute (env : Env) (s : Store) (req : Req) : Store × Response :=
  runRoute env listChain (fun env s req => (s, getQuestions env s req.user req.query)) s req

/-! ## `createQuestion` (questionController.js, lines 18-65) -/

/-- The body of a question request: the ten keys the handlers destructure,
and two more keys a client may send along. -/
structure QuestionBody where
  fields : QuestionUpdate
  uploadedBy : Option String
  approved : Option Bool
deriving DecidableEq, Repr

/-- Validation run by `question.save()`: the `required` paths (an empty
string fails `required`) and the three enums. -/
def createValid (b : QuestionUpdate) : Bool :=
  (b.title.any fun t => t ≠ "") &&
  (b.body.any fun t => t ≠ "") &&
  b.year.isSome &&
  (b.exam_type.any fun t => t ∈ examTypes) &&
  (b.question_type.any fun t => t ∈ questionTypes) &&
  (b.difficulty.any fun t => t ∈ difficulties)

/-- The document of lines 39-52. -/
def newQuestion (env : Env) (user : User) (b : QuestionUpdate) (courseId : ObjectId) : Question :=
  { _id := env.newId
    title := b.title.getD ""
    body := b.body.getD ""
    course_id := courseId
    year := b.year.getD 0
    exam_type := b.exam_type.getD ""
    question_type := b.question_type.getD ""
    difficulty := b.difficulty.getD ""
    images := b.images.getD []
    attachments := b.attachments.getD []
    tags := b.tags.getD []
    uploadedBy := user._id
    approved := false
    createdAt := env.now
    updatedAt := env.now }

/-- `createQuestion`, behind `authenticate`. `Course.findById(undefined)` finds
nothing; a `course_id` that is not an ObjectId makes the lookup throw;
`save()` throws on a validation error and on an `_id` already in use. -/
def createQuestion (env : Env) (s : Store) (user : User) (body : QuestionBody) :
    Store × Response :=
  let b := body.fields
  match b.course_id with
  | none => (s, ⟨400, .message "Invalid course ID"⟩)
  | some c =>
    match castObjectId c with
    | none => (s, ⟨500, .message "Failed to create question"⟩)
    | some cid =>
      match findCourseById s cid with
      | none => (s, ⟨400, .message "Invalid course ID"⟩)
      | some _ =>
        if createValid b ∧ findQuestionById s env.newId = none then
          let q := newQuestion env user b cid
          let s' := { s with questions := s.questions ++ [q] }
          (s', ⟨201, .question (populate s' q)⟩)
        else (s, ⟨500, .message "Failed to create question"⟩)

/-- `updateQuestion` on a request body: the handler reads the ten keys of
lines 211-222 and nothing else. -/
def updateQuestionBody (s : Store) (now : Nat) (user : User) (idParam : String)
    (body : QuestionBody) : Store × Response :=
  updateQuestion s now user idParam body.fields

/-! ## `approveQuestion` (lines 293-312) and the two placeholders -/

def approveQuestion (s : Store) (now : Nat) (idParam : String) : Store × Response :=
  match castObjectId idParam with
  | none => (s, ⟨500, .message "Failed to approve question"⟩)
  | some id =>
    match findQuestionById s id with
    | none => (s, ⟨404, .message "Question not found"⟩)
    | some q =>
      let q' := { q with approved := true, updatedAt := now }
      let s' := { s with questions := replaceQuestion id q' s.questions }
      (s', ⟨200, .question (populate s' q')⟩)

/-- `bulkImportQuestions` (lines 319-330). -/
def bulkImportQuestions : Response := ⟨501, .message "Bulk import not implemented yet"⟩

/-- `getDuplicateQuestions` (lines 386-396). -/
def getDuplicateQuestions : Response :=
  ⟨501, .message "Duplicate detection not implemented yet"⟩

/-! ## `formatCSV` (utils/csvHelpers.js, lines 28-47) and `exportQuestions` -/

/-- One step of the `map` of `formatCSV`: reading `name` or `code` of a
populated reference that is `null` throws. -/
def flattenQuestion (q : PopulatedQuestion) : Option CsvRow :=
  match q.course, q.uploader with
  | some course, some uploader =>
    some
      { id := q.doc._id
        title := q.doc.title
        body := q.doc.body
        course_name := course.name
        course_code := course.code
        year := q.doc.year
        exam_type := q.doc.exam_type
        question_type := q.doc.question_type
        difficulty := q.doc.difficulty
        tags := String.intercalate ";" q.doc.tags
        uploaded_by := uploader.name
        approved := q.doc.approved
        created_at := q.doc.createdAt }
  | _, _ => none

/-- The rows `formatCSV` hands to `Papa.unparse`; `none` when flattening a
question throws. -/
def formatCSV : List PopulatedQuestion → Option (List CsvRow)
  | [] => some []
  | q :: rest =>
    match flattenQuestion q with
    | none => none
    | some row => (formatCSV rest).map fun rows => row :: rows

/-- `exportQuestions` (lines 337-379), behind `authenticate` and `adminOnly`. -/
def exportQuestions (env : Env) (s : Store) (p : ExportParams) : Response :=
  match exportQuery env s p with
  | none => ⟨500, .message "Failed to export questions"⟩
  | some query =>
    let questions := (s.questions.filter (query.matches env)).map (populate s)
    if p.format.getD "csv" = "csv" then
      match formatCSV questions with
      | none => ⟨500, .message "Failed to export questions"⟩
      | some rows => ⟨200, .csv rows⟩
    else ⟨200, .json questions⟩

/-! ## Course handlers (controllers/courseController.js) -/

/-- The keys `createCourse` and `updateCourse` destructure from `req.body`. -/
structure CourseBody where
  name : Option String
  code : Option String
  description : Option String
  tags : Option (List String)
deriving DecidableEq, Repr

/-- Replace the first course with the given id. -/
def replaceCourse (id : ObjectId) (c' : Course) : List Course → List Course
  | [] => []
  | c :: rest => if c._id = id then c' :: rest else c :: replaceCourse id c' rest

/-- `Course.findByIdAndDelete`: remove the first course with the given id. -/
def removeCourse (id : ObjectId) : List Course → List Course
  | [] => []
  | c :: rest => if c._id = id then rest else c :: removeCourse id rest

/-- `createCourse` (lines 15-38), behind `authenticate` and `adminOnly`. The
lookup of line 19 compares the given code with the stored ones; `save()`
throws when `name` or `code` fails `required` and on an `_id` already in
use. -/
def createCourse (env : Env) (s : Store) (b : CourseBody) : Store × Response :=
  match b.code.bind fun code => s.courses.find? fun c => c.code = code with
  | some _ => (s, ⟨400, .message "Course code already exists"⟩)
  | none =>
    if (b.name.any fun t => t ≠ "") ∧ (b.code.any fun t => t ≠ "") ∧
        findCourseById s env.newId = none then
      let course : Course :=
        { _id := env.newId
          name := b.name.getD ""
          code := b.code.getD ""
          description := b.description
          tags := b.tags.getD []
          createdAt := env.now
          updatedAt := env.now }
      ({ s with courses := s.courses ++ [course] }, ⟨201, .course course⟩)
    else (s, ⟨500, .message "Failed to create course"⟩)

/-- The `$set` of `updateCourse`: keys whose value is `undefined` are dropped,
and `updatedAt` is refreshed. -/
def applyCourseUpdate (c : Course) (b : CourseBody) (now : Nat) : Course :=
  { c with
    name := b.name.getD c.name
    code := b.code.getD c.code
    description := match b.description with
      | some d => some d
      | none => c.description
    tags := b.tags.getD c.tags
    updatedAt := now }

/-- `updateCourse` (lines 106-136), behind `authenticate` and `adminOnly`.
Both database calls cast `req.params.id`; `runValidators` rejects an empty
`name` or `code`. -/
def updateCourse (env : Env) (s : Store) (idParam : String) (b : CourseBody) :
    Store × Response :=
  match castObjectId idParam with
  | none => (s, ⟨500, .message "Failed to update course"⟩)
  | some id =>
    let existingCourse : Option Course :=
      if truthy b.code then s.courses.find? fun c => c.code = b.code.getD "" ∧ c._id ≠ id
      else none
    match existingCourse with
    | some _ => (s, ⟨400, .message "Course code already exists"⟩)
    | none =>
      if (b.name.all fun t => t ≠ "") ∧ (b.code.all fun t => t ≠ "") then
        match findCourseById s id with
        | none => (s, ⟨404, .message "Course not found"⟩)
        | some c =>
          let c' := applyCourseUpdate c b env.now
          ({ s with courses := replaceCourse id c' s.courses }, ⟨200, .course c'⟩)
      else (s, ⟨500, .message "Failed to update course"⟩)

/-- `deleteCourse` (lines 143-154), behind `authenticate` and `adminOnly`:
the course is removed whatever references it. -/
def deleteCourse (s : Store) (idParam : String) : Store × Response :=
  match castObjectId idParam with
  | none => (s, ⟨500, .message "Failed to delete course"⟩)
  | some id =>
    match findCourseById s id with
    | none => (s, ⟨404, .message "Course not found"⟩)
    | some _ =>
      ({ s with courses := removeCourse id s.courses },
        ⟨200, .message "Course deleted successfully"⟩)

/-- A call of one of the two handlers that write course codes. -/
inductive CourseCall where
  | create (env : Env) (b : CourseBody)
  | update (env : Env) (idParam : String) (b : CourseBody)

/-- The store after a call. -/
def CourseCall.run (s : Store) : CourseCall → Store
  | .create env b => (createCourse env s b).1
  | .update env idParam b => (updateCourse env s idParam b).1

/-- Course codes are pairwise different. -/
def UniqueCodes (s : Store) : Prop := (s.courses.map fun c => c.code).Nodup

instance (s : Store) : Decidable (UniqueCodes s) := by
  unfold UniqueCodes
  infer_instance

/-- What the schema and the indexes of the course collection guarantee of the
stored courses: ids pairwise different, codes pairwise different, and no
empty name or code. -/
def CourseInvariant (s : Store) : Prop :=
  (s.courses.map fun c => c._id).Nodup ∧ UniqueCodes s ∧
  ∀ c ∈ s.courses, c.name ≠ "" ∧ c.code ≠ ""

instance (s : Store) : Decidable (CourseInvariant s) := by
  unfold CourseInvariant
  infer_instance

/-! ## `PUT /auth/me` (routes/authRoutes.js, lines 26-41) -/

/-- The body of a profile update: the four keys the handler destructures, and
two more keys a client may send along. -/
structure ProfileBody where
  name : Option String
  blood_group : Option String
  phone_number : Option String
  university_reg_no : Option String
  role : Option String
  firebaseUid : Option String
deriving DecidableEq, Repr

/-- The `$set` of the profile update. -/
def applyProfile (u : User) (b : ProfileBody) (now : Nat) : User :=
  { u with
    name := b.name.getD u.name
    blood_group := match b.blood_group with
      | some v => some v
      | none => u.blood_group
    phone_number := match b.phone_number with
      | some v => some v
      | none => u.phone_number
    university_reg_no := match b.university_reg_no with
      | some v => some v
      | none => u.university_reg_no
    updatedAt := now }

/-- Replace the first user with the given id. -/
def replaceUser (id : ObjectId) (u' : User) : List User → List User
  | [] => []
  | u :: rest => if u._id = id then u' :: rest else u :: replaceUser id u' rest

def profileView (u : User) : ProfileView :=
  ⟨u._id, u.name, u.blood_group, u.phone_number, u.email, u.university_reg_no, u.role,
    u.createdAt, u.updatedAt⟩

/-- The handler of `PUT /me`, given the `req.user` that `authenticate` set;
`runValidators` rejects an empty `name`. -/
def updateProfile (env : Env) (s : Store) (user : User) (b : ProfileBody) : Store × Response :=
  if b.name.all fun t => t ≠ "" then
    match findUserById s user._id with
    | none => (s, ⟨200, .profile none⟩)
    | some u =>
      let u' := applyProfile u b env.now
      ({ s with users := replaceUser user._id u' s.users }, ⟨200, .profile (some (profileView u'))⟩)
  else (s, ⟨500, .message "Failed to update user profile"⟩)

/-- The route `PUT /me`: `authenticate`, then the handler. -/
def putMeRoute (env : Env) (s : Store) (req : Req) (b : ProfileBody) : Store × Response :=
  match authenticate env s req with
  | .done s' res => (s', res)
  | .next s' req' =>
    match req'.user with
    | none => (s', ⟨500, .message "Failed to update user profile"⟩)
    | some user => updateProfile env s' user b

/-- What identifies a user record and what it may do: its id, its role and
its external identity. -/
def identityOf (u : User) : ObjectId × String × String := (u._id, u.role, u.firebaseUid)

/-! ## The question router (routes/questionRoutes.js) -/

/-- A segment of a route path: a literal, or a parameter such as `:id`. -/
inductive Seg where
  | lit (name : String)
  | param
deriving DecidableEq, Repr

/-- A request to the question router: method, the path segments below the
mount point, and the parts of the request the middleware and handlers read. -/
structure HttpRequest where
  method : String
  path : List String
  req : Req
  exportParams : ExportParams
  body : QuestionBody
deriving DecidableEq, Repr

inductive HandlerName where
  | createQuestion
  | bulkImportQuestions
  | getQuestions
  | getQuestionById
  | updateQuestion
  | deleteQuestion
  | approveQuestion
  | exportQuestions
  | getDuplicateQuestions
deriving DecidableEq, Repr

/-- Whether a route path matches the request path; on a match, the value
bound to `:id` (a parameter matches any one non-empty segment). -/
def matchPath : List Seg → List String → Option (Option String)
  | [], [] => some none
  | .lit name :: ps, x :: xs => if name = x then matchPath ps xs else none
  | .param :: ps, x :: xs => if x = "" then none else (matchPath ps xs).map fun _ => some x
  | _, _ => none

/-- The validation chains of `POST /` (lines 31-37), as messages. -/
def createValidators (b : QuestionUpdate) : List (Env → ListParams → Option String) :=
  [ fun _ _ => if b.title.any (fun t => t ≠ "") then none else some "Title is required",
    fun _ _ => if b.body.any (fun t => t ≠ "") then none else some "Question body is required",
    fun _ _ => if (b.course_id.bind castObjectId).isSome then none
      else some "Valid course ID is required",
    fun env _ => if b.year.any (fun y => 1900 ≤ y ∧ y ≤ env.currentYear) then none
      else some "Valid year is required",
    fun _ _ => if b.exam_type.any (fun t => t ∈ examTypes) then none
      else some "Invalid exam type",
    fun _ _ => if b.question_type.any (fun t => t ∈ questionTypes) then none
      else some "Invalid question type",
    fun _ _ => if b.difficulty.any (fun t => t ∈ difficulties) then none
      else some "Invalid difficulty level" ]

/-- The validation chains of `PUT /:id` (lines 74-75). -/
def updateValidators (b : QuestionUpdate) : List (Env → ListParams → Option String) :=
  [ fun _ _ => if b.title.all (fun t => t ≠ "") then none else some "Title cannot be empty",
    fun _ _ => if b.body.all (fun t => t ≠ "") then none
      else some "Question body cannot be empty" ]

/-- The validation chains of `GET /export` (lines 92-94). -/
def exportValidators (p : ExportParams) : List (Env → ListParams → Option String) :=
  [ fun _ _ => isStringValue "Course must be a string" p.course,
    fun env _ => p.year.bind fun y =>
      if y.items.all (isIntString 1900 env.currentYear) then none
      else some "Valid year is required",
    fun _ _ => p.format.bind fun t =>
      if t.items.all (fun x => x = "csv" ∨ x = "json") then none
      else some "Format must be csv or json" ]

/-- A declared route. -/
structure Route where
  method : String
  path : List Seg
  chain : List Middleware
  handler : HandlerName

/-- The routes of the router, in the order of their declaration (lines
27-100). -/
def questionRouter (r : HttpRequest) : List Route :=
  [ ⟨"POST", [], authenticate :: (createValidators r.body.fields).map check, .createQuestion⟩,
    ⟨"POST", [.lit "bulk-import"], [authenticate, adminOnly], .bulkImportQuestions⟩,
    ⟨"GET", [], listChain, .getQuestions⟩,
    ⟨"GET", [.param], [], .getQuestionById⟩,
    ⟨"PUT", [.param], authenticate :: (updateValidators r.body.fields).map check,
      .updateQuestion⟩,
    ⟨"DELETE", [.param], [authenticate], .deleteQuestion⟩,
    ⟨"POST", [.param, .lit "approve"], [authenticate, adminOnly], .approveQuestion⟩,
    ⟨"GET", [.lit "export"],
      authenticate :: adminOnly :: (exportValidators r.exportParams).map check,
      .exportQuestions⟩,
    ⟨"GET", [.lit "duplicates"], [authenticate, adminOnly], .getDuplicateQuestions⟩ ]

/-- The first declared route whose method and path match, with the value of
`:id`. -/
def findRoute (r : HttpRequest) : List Route → Option (Route × Option String)
  | [] => none
  | route :: rest =>
    if route.method = r.method then
      match matchPath route.path r.path with
      | some param => some (route, param)
      | none => findRoute r rest
    else findRoute r rest

/-- Call a handler with what the middleware left on the request. A handler
behind `authenticate` reads `req.user`, and a handler of a `:id` route reads
`req.params.id`; reading either when absent throws into the handler's
`catch`. -/
def callHandler (h : HandlerName) (r : HttpRequest) (param : Option String) (env : Env)
    (s : Store) (req : Req) : Store × Response :=
  match h with
  | .createQuestion =>
    match req.user with
    | some user => createQuestion env s user r.body
    | none => (s, ⟨500, .message "Failed to create question"⟩)
  | .bulkImportQuestions => (s, bulkImportQuestions)
  | .getQuestions => (s, getQuestions env s req.user req.query)
  | .getQuestionById => (s, getQuestionById s req.user (param.getD ""))
  | .updateQuestion =>
    match req.user with
    | some user => updateQuestionBody s env.now user (param.getD "") r.body
    | none => (s, ⟨500, .message "Failed to update question"⟩)
  | .deleteQuestion =>
    match req.user with
    | some user => deleteQuestion s user (param.getD "")
    | none => (s, ⟨500, .message "Failed to delete question"⟩)
  | .approveQuestion => approveQuestion s env.now (param.getD "")
  | .exportQuestions => (s, exportQuestions env s r.exportParams)
  | .getDuplicateQuestions => (s, getDuplicateQuestions)

/-- The router: the first matching route handles the request; `none` when no
route matches. -/
def dispatch (env : Env) (s : Store) (r : HttpRequest) : Option (Store × Response) :=
  (findRoute r (questionRouter r)).map fun m =>
    runRoute env m.1.chain (callHandler m.1.handler r m.2) s r.req

/-- The name of the handler that a request reaches, if its middleware lets it
through. -/
def routedHandler (r : HttpRequest) : Option HandlerName :=
  (findRoute r (questionRouter r)).map fun m => m.1.handler

/-! ## Calls that write questions -/

/-- A call of one of the four handlers that write questions, with the actor
that `authenticate` resolved. -/
inductive QuestionCall where
  | create (env : Env) (user : User) (body : QuestionBody)
  | update (now : Nat) (user : User) (idParam : String) (body : QuestionBody)
  | approve (now : Nat) (idParam : String)
  | delete (user : User) (idParam : String)

/-- The store after a call. -/
def QuestionCall.run (s : Store) : QuestionCall → Store
  | .create env user body => (createQuestion env s user body).1
  | .update now user idParam body => (updateQuestionBody s now user idParam body).1
  | .approve now idParam => (approveQuestion s now idParam).1
  | .delete user idParam => (deleteQuestion s user idParam).1

/-- The calls of `updateQuestion` and `approveQuestion`. -/
def QuestionCall.isUpdateOrApprove : QuestionCall → Bool
  | .update _ _ _ _ => true
  | .approve _ _ => true
  | _ => false

/-- Question ids are pairwise different (the `_id` index of the collection). -/
def UniqueQuestionIds (s : Store) : Prop := (s.questions.map fun q => q._id).Nodup

instance (s : Store) : Decidable (UniqueQuestionIds s) := by
  unfold UniqueQuestionIds
  infer_instance

/-! ## Referential integrity -/

/-- Every stored question references an existing user record. The handlers
never delete a user, and a question is only ever stored with the id of the
authenticated user. -/
def UploadersExist (s : Store) : Prop :=
  ∀ q ∈ s.questions, (findUserById s q.uploadedBy).isSome = true

instance (s : Store) : Decidable (UploadersExist s) := by
  unfold UploadersExist
  infer_instance

/-! ## Orders on a result list -/

/-- The order `createdAt` descending. -/
def NewestFirst (a b : Question) : Prop := b.createdAt ≤ a.createdAt

/-- The order the specification gives a text search: relevance rank
descending, ties broken by `createdAt` descending. -/
def SpecRelevanceOrder (env : Env) (search : String) (a b : Question) : Prop :=
  env.textScore search b.title b.body < env.textScore search a.title a.body ∨
  (env.textScore search b.title b.body = env.textScore search a.title a.body ∧
    b.createdAt ≤ a.createdAt)

instance (env : Env) (search : String) : DecidableRel (SpecRelevanceOrder env search) := by
  intro a b
  unfold SpecRelevanceOrder
  infer_instance

instance : DecidableRel NewestFirst := by
  intro a b
  unfold NewestFirst
  infer_instance

/-! ## Course matching as the specification words it -/

/-- Case-insensitive literal substring: `needle` occurs in `hay` once both
are folded, where `fold` sends a character to the representative of the
characters that differ from it only in case. -/
def ContainsCaseless (fold : Char → Char) (needle hay : String) : Prop :=
  needle.toList.map fold <:+: hay.toList.map fold

instance (fold : Char → Char) (needle hay : String) :
    Decidable (ContainsCaseless fold needle hay) := by
  unfold ContainsCaseless
  infer_instance

/-- The ids of the courses whose name or code contains the string as a
case-insensitive literal substring. -/
def specCourseIds (fold : Char → Char) (s : Store) (course : String) : List ObjectId :=
  (s.courses.filter fun c =>
    decide (ContainsCaseless fold course c.name ∨ ContainsCaseless fold course c.code)).map
    fun c => c._id

/-- The engine reads the pattern as literal text: it accepts it, and it
matches exactly the subjects that contain it, letters compared up to case
(the folding `fold` of the engine under option `i`). Regular-expression
engines do so with a pattern that has no metacharacter. -/
def ReadsLiterally (env : Env) (fold : Char → Char) (pattern : String) : Prop :=
  ∃ m, env.regex pattern = some m ∧
    ∀ subject, m subject = true ↔ ContainsCaseless fold pattern subject

/-! ## Sample data -/

def alice : User :=
  { _id := 1, firebaseUid := "uid-alice", name := "Alice", blood_group := none,
    phone_number := none, email := "alice@example.org", university_reg_no := none,
    role := "user", createdAt := 10, updatedAt := 10 }

def bob : User :=
  { _id := 2, firebaseUid := "uid-bob", name := "Bob", blood_group := none,
    phone_number := none, email := "bob@example.org", university_reg_no := none,
    role := "user", createdAt := 11, updatedAt := 11 }

def root : User :=
  { _id := 3, firebaseUid := "uid-root", name := "Admin User", blood_group := none,
    phone_number := none, email := "root@example.org", university_reg_no := none,
    role := "admin", createdAt := 1, updatedAt := 1 }

def soilScience : Course :=
  { _id := 16, name := "Soil Science", code := "SS101", description := none, tags := [],
    createdAt := 5, updatedAt := 5 }

def agronomy : Course :=
  { _id := 17, name := "Agronomy", code := "AG2.1", description := none, tags := [],
    createdAt := 6, updatedAt := 6 }

/-- An approved question of Alice's (id `0x65`). -/
def soilTexture : Question :=
  { _id := 101, title := "soil texture", body := "Define soil texture and soil structure of a soil",
    course_id := 16, year := 2022, exam_type := "final", question_type := "short",
    difficulty := "easy", images := [], attachments := [], tags := ["b", "c"],
    uploadedBy := 1, approved := true, createdAt := 20, updatedAt := 25 }

/-- A pending question of Alice's (id `0x66`). -/
def cropRotation : Question :=
  { _id := 102, title := "crop rotation", body := "Explain crop rotation on clay soil",
    course_id := 17, year := 2023, exam_type := "midterm", question_type := "long",
    difficulty := "medium", images := [], attachments := [], tags := ["c"],
    uploadedBy := 1, approved := false, createdAt := 30, updatedAt := 30 }

/-- An approved question of Bob's (id `0x67`). -/
def irrigation : Question :=
  { _id := 103, title := "irrigation", body := "List irrigation methods for sandy soil",
    course_id := 17, year := 2023, exam_type := "quiz", question_type := "MCQ",
    difficulty := "hard", images := [], attachments := [], tags := ["x"],
    uploadedBy := 2, approved := true, createdAt := 40, updatedAt := 45 }

def sampleStore : Store :=
  { users := [alice, bob, root]
    courses := [soilScience, agronomy]
    questions := [soilTexture, cropRotation, irrigation] }

/-- A term-frequency text index: the number of words of the title and body
that are, up to case, a word of the search string. -/
def termFrequency (search title body : String) : Nat :=
  let lower := fun (w : List Char) => w.map Char.toLower
  let terms := ((splitOn ' ' search.toList).filter fun w => w ≠ []).map lower
  ((splitOn ' ' (title.toList ++ ' ' :: body.toList)).filter fun w => lower w ∈ terms).length

def sampleVerify (token : String) : Option DecodedToken :=
  if token = "token-root" then some ⟨"uid-root", some "root@example.org", some "Admin User"⟩
  else if token = "token-alice" then some ⟨"uid-alice", some "alice@example.org", some "Alice"⟩
  else none

def sampleEnv : Env :=
  { verifyToken := sampleVerify, regex := fragmentRegex, textScore := termFrequency,
    now := 100, currentYear := 2025, newId := 4 }

/-- No parameter given. -/
def noParams : ListParams := ⟨none, none, none, none, none, none, none, none⟩

/-- The parameters of `?course=zoology&year=2023&tags=b&limit=5`. -/
def zoologyParams : ListParams :=
  ⟨some "zoology", some "2023", none, none, some "b", none, none, some 5⟩

/-- An empty request body. -/
def emptyUpdate : QuestionUpdate := ⟨none, none, none, none, none, none, none, none, none, none⟩

/-- The admin's request `GET /questions` with a valid bearer token. -/
def adminListRequest : Req := ⟨some "Bearer token-root", noParams, none, []⟩

/-- The anonymous request `GET /questions?exam_type=bogus`. -/
def bogusExamTypeRequest : Req :=
  ⟨none, { noParams with exam_type := some "bogus" }, none, []⟩

/-- The anonymous request `GET /questions?limit=1000`. -/
def hugeLimitRequest : Req := ⟨none, { noParams with limit := some 1000 }, none, []⟩

/-- The anonymous request `GET /questions?page=0`. -/
def pageZeroRequest : Req := ⟨none, { noParams with page := some 0 }, none, []⟩

/-- A complete body for a new question in the course Soil Science (id
`0x10`), which also carries an owner and an approval. -/
def soilPhBody : QuestionBody :=
  { fields :=
      { title := some "soil pH", body := some "How is soil pH measured",
        course_id := some "000000000000000000000010", year := some 2024,
        exam_type := some "quiz", question_type := some "short", difficulty := some "easy",
        images := none, attachments := none, tags := some ["ph"] }
    uploadedBy := some "000000000000000000000003"
    approved := some true }

/-- The body of `soilPhBody` with `xyz` as the course id. -/
def malformedCourseBody : QuestionBody :=
  ⟨{ soilPhBody.fields with course_id := some "xyz" }, none, none⟩

/-- Alice's request `POST /questions` with that body. -/
def malformedCourseRequest : HttpRequest :=
  ⟨"POST", [], ⟨some "Bearer token-alice", noParams, none, []⟩, ⟨none, none, none⟩,
    malformedCourseBody⟩

/-- A body that only moves the question to a course that does not exist. -/
def unknownCourseBody : QuestionBody :=
  ⟨{ emptyUpdate with course_id := some "0000000000000000000000ff" }, none, none⟩

/-- A body that sets a title, tags, an owner and an approval. -/
def retitleBody : QuestionBody :=
  ⟨{ emptyUpdate with title := some "rotation of crops", tags := some ["c", "d"] },
    some "000000000000000000000002", some true⟩

/-- An empty update that carries `approved: false` and another owner. -/
def unapproveBody : QuestionBody := ⟨emptyUpdate, some "000000000000000000000002", some false⟩

/-- The admin's request `GET /questions/duplicates`. -/
def duplicatesRequest : HttpRequest :=
  ⟨"GET", ["duplicates"], adminListRequest, ⟨none, none, none⟩, ⟨emptyUpdate, none, none⟩⟩

/-- The admin's request `GET /questions/export?format=csv`. -/
def exportRequest : HttpRequest :=
  ⟨"GET", ["export"], adminListRequest, ⟨none, none, some "csv"⟩, ⟨emptyUpdate, none, none⟩⟩

/-- The admin's request `POST /questions/bulk-import`. -/
def bulkImportRequest : HttpRequest :=
  ⟨"POST", ["bulk-import"], adminListRequest, ⟨none, none, none⟩, ⟨emptyUpdate, none, none⟩⟩

/-- The sample store after the admin has deleted the course Agronomy (id
`0x11`), which two questions reference. -/
def orphanStore : Store := (deleteCourse sampleStore "000000000000000000000011").1

/-- A body for a course whose code is the code of Soil Science. -/
def duplicateCodeBody : CourseBody := ⟨some "Soil Physics", some "SS101", none, none⟩

/-- A body that renames Soil Science and sends its own code again. -/
def renameBody : CourseBody := ⟨some "Soil Science I", some "SS101", none, none⟩

/-- An identity service that knows two identities without a record: Dana,
whose token carries a name, and Erin, whose token carries none. -/
def newcomerEnv : Env :=
  { sampleEnv with
    verifyToken := fun token =>
      if token = "token-dana" then some ⟨"uid-dana", some "dana@example.org", some "Dana"⟩
      else if token = "token-erin" then some ⟨"uid-erin", some "erin@example.org", none⟩
      else none }

/-- The record `authenticate` creates for Dana. -/
def dana : User :=
  { _id := 4, firebaseUid := "uid-dana", name := "Dana", blood_group := none,
    phone_number := none, email := "dana@example.org", university_reg_no := none,
    role := "user", createdAt := 100, updatedAt := 100 }

/-! # Theorems -/

/-! ## Lookups -/

theorem findQuestionById_id {s : Store} {id : ObjectId} {q : Question}
    (h : findQuestionById s id = some q) : q._id = id := by
  simpa using List.find?_some h

theorem findUserById_id {s : Store} {id : ObjectId} {u : User}
    (h : findUserById s id = some u) : u._id = id := by
  simpa using List.find?_some h

theorem findQuestionById_mem {s : Store} {id : ObjectId} {q : Question}
    (h : findQuestionById s id = some q) : q ∈ s.questions :=
  List.mem_of_find?_eq_some h

theorem mem_replaceQuestion {id : ObjectId} {q' x : Question} {l : List Question}
    (h : x ∈ replaceQuestion id q' l) : x = q' ∨ x ∈ l := by
  induction l with
  | nil => simp [replaceQuestion] at h
  | cons a l ih =>
    simp only [replaceQuestion] at h
    split at h
    · rcases List.mem_cons.1 h with h | h
      · exact Or.inl h
      · exact Or.inr (List.mem_cons_of_mem _ h)
    · rcases List.mem_cons.1 h with h | h
      · exact Or.inr (h ▸ List.mem_cons_self _ _)
      · exact (ih h).imp (fun e => e) (List.mem_cons_of_mem _)

theorem mem_removeQuestion {id : ObjectId} {x : Question} {l : List Question}
    (h : x ∈ removeQuestion id l) : x ∈ l := by
  induction l with
  | nil => simp [removeQuestion] at h
  | cons a l ih =>
    simp only [removeQuestion] at h
    split at h
    · exact List.mem_cons_of_mem _ h
    · rcases List.mem_cons.1 h with h | h
      · exact h ▸ List.mem_cons_self _ _
      · exact List.mem_cons_of_mem _ (ih h)

/-- `updateQuestion` keeps every question's uploader on record. -/
theorem updateQuestion_uploadersExist (s : Store) (now : Nat) (user : User) (idParam : String)
    (b : QuestionUpdate) (hs : UploadersExist s) :
    UploadersExist (updateQuestion s now user idParam b).1 := by
  unfold updateQuestion
  split
  · exact hs
  · split
    · exact hs
    · rename_i id _ question hq
      split
      · exact hs
      · split
        · exact hs
        · unfold performUpdate
          dsimp only
          repeat' split
          all_goals first
            | exact hs
            | (intro x hx
               rcases mem_replaceQuestion hx with rfl | hx
               · exact hs question (findQuestionById_mem hq)
               · exact hs x hx)

/-- `deleteQuestion` keeps every question's uploader on record. -/
theorem deleteQuestion_uploadersExist (s : Store) (user : User) (idParam : String)
    (hs : UploadersExist s) : UploadersExist (deleteQuestion s user idParam).1 := by
  unfold deleteQuestion
  repeat' split
  all_goals first
    | exact hs
    | (intro x hx
       exact hs x (mem_removeQuestion hx))

/-- `authenticate` keeps every question's uploader on record. -/
theorem authenticate_uploadersExist (env : Env) (s s' : Store) (req req' : Req)
    (hs : UploadersExist s) (h : authenticate env s req = .next s' req') :
    UploadersExist s' := by
  unfold authenticate at h
  dsimp only at h
  split at h
  · cases h
  · split at h
    · cases h
    · split at h
      · cases h
      · split at h
        · cases h
          exact hs
        · split at h
          · cases h
            intro x hx
            have := hs x hx
            simp only [findUserById, List.find?_append] at this ⊢
            obtain ⟨u, hu⟩ := Option.isSome_iff_exists.1 this
            simp [hu]
          · cases h

/-! ## Access checks of `updateQuestion` and `deleteQuestion` -/

theorem performUpdate_status (s : Store) (now : Nat) (id : ObjectId) (q : Question)
    (b : QuestionUpdate) : (performUpdate s now id q b).2.status ≠ 403 := by
  unfold performUpdate
  dsimp only
  repeat' split
  all_goals simp

/-- C1. For an existing question and an authenticated actor, `updateQuestion`
and `deleteQuestion` alike answer 403 leaving the store unchanged exactly when
the actor is not an admin and either is not the uploader or the question is
approved; so a non-admin owner is denied on an approved question, and an
admin is never denied. -/
theorem update_delete_denied_iff (s : Store) (now : Nat) (user : User) (idParam : String)
    (id : ObjectId) (q : Question) (b : QuestionUpdate)
    (hid : castObjectId idParam = some id) (hq : findQuestionById s id = some q) :
    (((updateQuestion s now user idParam b).2.status = 403 ∧
        (updateQuestion s now user idParam b).1 = s) ↔
      (user.role ≠ "admin" ∧ (user._id ≠ q.uploadedBy ∨ q.approved = true))) ∧
    (((deleteQuestion s user idParam).2.status = 403 ∧ (deleteQuestion s user idParam).1 = s) ↔
      (user.role ≠ "admin" ∧ (user._id ≠ q.uploadedBy ∨ q.approved = true))) ∧
    (user.role ≠ "admin" → user._id = q.uploadedBy → q.approved = true →
      (updateQuestion s now user idParam b).2.status = 403 ∧
      (deleteQuestion s user idParam).2.status = 403) ∧
    (user.role = "admin" →
      (updateQuestion s now user idParam b).2.status ≠ 403 ∧
      (deleteQuestion s user idParam).2.status ≠ 403) := by
  have hU : ((updateQuestion s now user idParam b).2.status = 403 ∧
        (updateQuestion s now user idParam b).1 = s) ↔
      (user.role ≠ "admin" ∧ (user._id ≠ q.uploadedBy ∨ q.approved = true)) := by
    simp only [updateQuestion, hid, hq]
    by_cases h1 : user.role ≠ "admin" ∧ q.uploadedBy ≠ user._id
    · rw [if_pos h1]
      exact ⟨fun _ => ⟨h1.1, Or.inl (Ne.symm h1.2)⟩, fun _ => ⟨rfl, rfl⟩⟩
    · rw [if_neg h1]
      by_cases h2 : q.approved = true ∧ user.role ≠ "admin"
      · rw [if_pos h2]
        exact ⟨fun _ => ⟨h2.2, Or.inr h2.1⟩, fun _ => ⟨rfl, rfl⟩⟩
      · rw [if_neg h2]
        constructor
        · intro h
          exact absurd h.1 (performUpdate_status s now id q b)
        · rintro ⟨hr, ho | ha⟩
          · exact absurd ⟨hr, Ne.symm ho⟩ h1
          · exact absurd ⟨ha, hr⟩ h2
  have hD : ((deleteQuestion s user idParam).2.status = 403 ∧
        (deleteQuestion s user idParam).1 = s) ↔
      (user.role ≠ "admin" ∧ (user._id ≠ q.uploadedBy ∨ q.approved = true)) := by
    simp only [deleteQuestion, hid, hq]
    by_cases h1 : user.role ≠ "admin" ∧ q.uploadedBy ≠ user._id
    · rw [if_pos h1]
      exact ⟨fun _ => ⟨h1.1, Or.inl (Ne.symm h1.2)⟩, fun _ => ⟨rfl, rfl⟩⟩
    · rw [if_neg h1]
      by_cases h2 : q.approved = true ∧ user.role ≠ "admin"
      · rw [if_pos h2]
        exact ⟨fun _ => ⟨h2.2, Or.inr h2.1⟩, fun _ => ⟨rfl, rfl⟩⟩
      · rw [if_neg h2]
        constructor
        · intro h
          exact absurd h.1 (by simp)
        · rintro ⟨hr, ho | ha⟩
          · exact absurd ⟨hr, Ne.symm ho⟩ h1
          · exact absurd ⟨ha, hr⟩ h2
  refine ⟨hU, hD, ?_, ?_⟩
  · intro hr _ ha
    exact ⟨(hU.2 ⟨hr, Or.inr ha⟩).1, (hD.2 ⟨hr, Or.inr ha⟩).1⟩
  · intro hr
    constructor
    · simp only [updateQuestion, hid, hq]
      rw [if_neg (by simp [hr]), if_neg (by simp [hr])]
      exact performUpdate_status s now id q b
    · simp only [deleteQuestion, hid, hq]
      rw [if_neg (by simp [hr]), if_neg (by simp [hr])]
      simp

theorem update_delete_denied_iff_witness :
    (updateQuestion sampleStore 100 alice "000000000000000000000065" emptyUpdate).2.status = 403 ∧
    (deleteQuestion sampleStore alice "000000000000000000000065").2.status = 403 :=
  (update_delete_denied_iff sampleStore 100 alice "000000000000000000000065" 101 soilTexture
    emptyUpdate (by decide) (by decide)).2.2.1 (by decide) (by decide) (by decide)

/-! ## `getQuestionById` -/

theorem populate_uploader {s : Store} {q : Question} {up : UserRef}
    (h : (populate s q).uploader = some up) : up._id = q.uploadedBy := by
  simp only [populate, Option.map_eq_some'] at h
  obtain ⟨u, hu, rfl⟩ := h
  exact findUserById_id hu

/-- C2, at a concrete request: `abc` is the id of no question, and the answer
is not 404 but the 500 of the handler's `catch`, for an anonymous actor and
for an admin alike: the cast of the id throws before any lookup. -/
theorem getQuestionById_malformed_id_is_500 :
    castObjectId "abc" = none ∧
    getQuestionById sampleStore none "abc" = ⟨500, .message "Failed to fetch question"⟩ ∧
    getQuestionById sampleStore (some root) "abc" =
      ⟨500, .message "Failed to fetch question"⟩ ∧
    (getQuestionById sampleStore none "abc").status ≠ 404 := by
  decide

/-- C2, amended. `getQuestionById`, for the actor the handler sees, in a store
where the uploader of every question has a record: an id that is not a string
of 24 hexadecimal digits answers 500; a well-formed id of no question answers
404; an existing question is returned with 200 exactly when it is approved,
or the actor is an admin, or the actor is its uploader; otherwise the answer
is 403. -/
theorem getQuestionById_read_policy (s : Store) (actor : Option User) (idParam : String)
    (hs : UploadersExist s) :
    (castObjectId idParam = none →
      getQuestionById s actor idParam = ⟨500, .message "Failed to fetch question"⟩) ∧
    (∀ id, castObjectId idParam = some id →
      (findQuestionById s id = none →
        getQuestionById s actor idParam = ⟨404, .message "Question not found"⟩) ∧
      (∀ q, findQuestionById s id = some q →
        ((q.approved = true ∨
            ∃ u, actor = some u ∧ (u.role = "admin" ∨ u._id = q.uploadedBy)) →
          getQuestionById s actor idParam = ⟨200, .question (populate s q)⟩) ∧
        (¬ (q.approved = true ∨
            ∃ u, actor = some u ∧ (u.role = "admin" ∨ u._id = q.uploadedBy)) →
          (getQuestionById s actor idParam).status = 403))) := by
  refine ⟨fun h => by simp [getQuestionById, h], fun id hid =>
    ⟨fun h => by simp [getQuestionById, hid, h], fun q hq => ?_⟩⟩
  have hup : ∃ up, (populate s q).uploader = some up := by
    have := hs q (findQuestionById_mem hq)
    obtain ⟨u, hu⟩ := Option.isSome_iff_exists.1 this
    exact ⟨⟨u._id, u.name, u.email⟩, by simp [populate, hu]⟩
  obtain ⟨up, hup⟩ := hup
  have hupid := populate_uploader hup
  have hdoc : (populate s q).doc = q := rfl
  cases actor with
  | none =>
    simp only [getQuestionById, hid, hq, Option.map_some', hdoc]
    constructor
    · rintro (ha | ⟨u, hu, _⟩)
      · simp [ha]
      · cases hu
    · intro hn
      have : q.approved = false := by
        cases hqa : q.approved
        · rfl
        · exact absurd (Or.inl hqa) hn
      simp [this]
  | some u =>
    simp only [getQuestionById, hid, hq, Option.map_some', hdoc, hup]
    constructor
    · rintro (ha | ⟨u', hu', hr | ho⟩)
      · simp [ha]
      · cases hu'
        simp [hr]
      · cases hu'
        by_cases hc : u.role ≠ "admin" ∧ q.approved = false
        · rw [if_pos hc, if_neg (by simp [hupid, ho])]
        · rw [if_neg hc]
    · intro hn
      have h1 : q.approved = false := by
        cases hqa : q.approved
        · rfl
        · exact absurd (Or.inl hqa) hn
      have h2 : u.role ≠ "admin" := fun h => hn (Or.inr ⟨u, rfl, Or.inl h⟩)
      have h3 : up._id ≠ u._id := fun h => hn (Or.inr ⟨u, rfl, Or.inr (by rw [← h, hupid])⟩)
      rw [if_pos ⟨h2, h1⟩, if_pos h3]

theorem getQuestionById_read_policy_witness :
    getQuestionById sampleStore (some alice) "000000000000000000000066" =
      ⟨200, .question (populate sampleStore cropRotation)⟩ ∧
    (getQuestionById sampleStore (some bob) "000000000000000000000066").status = 403 ∧
    getQuestionById sampleStore (some bob) "0000000000000000000000ff" =
      ⟨404, .message "Question not found"⟩ ∧
    getQuestionById sampleStore (some bob) "66" =
      ⟨500, .message "Failed to fetch question"⟩ :=
  have h := ((getQuestionById_read_policy sampleStore (some alice) "000000000000000000000066"
    (by decide)).2 102 (by decide)).2 cropRotation (by decide)
  have h' := ((getQuestionById_read_policy sampleStore (some bob) "000000000000000000000066"
    (by decide)).2 102 (by decide)).2 cropRotation (by decide)
  ⟨h.1 (Or.inr ⟨alice, rfl, Or.inr (by decide)⟩), h'.2 (by
    rintro (h | ⟨u, hu, h⟩)
    · exact absurd h (by decide)
    · cases hu
      revert h
      decide),
    ((getQuestionById_read_policy sampleStore (some bob) "0000000000000000000000ff"
      (by decide)).2 255 (by decide)).1 (by decide),
    (getQuestionById_read_policy sampleStore (some bob) "66" (by decide)).1 (by decide)⟩

/-! ## JavaScript numbers -/

theorem bitLengthAux_spec (fuel n : Nat) (h : n ≤ fuel) :
    n < 2 ^ bitLengthAux fuel n ∧ (n ≠ 0 → 2 ^ (bitLengthAux fuel n - 1) ≤ n) := by
  induction fuel generalizing n with
  | zero =>
    have : n = 0 := by omega
    subst this
    simp [bitLengthAux]
  | succ fuel ih =>
    unfold bitLengthAux
    by_cases hn : n = 0
    · subst hn
      simp
    · rw [if_neg hn]
      obtain ⟨h1, h2⟩ := ih (n / 2) (by omega)
      constructor
      · rw [pow_succ]
        omega
      · intro _
        rw [Nat.add_sub_cancel]
        by_cases h0 : n / 2 = 0
        · have : bitLengthAux fuel (n / 2) = 0 := by
            rw [h0]
            cases fuel <;> simp [bitLengthAux]
          rw [this]
          simp
          omega
        · have h3 := h2 h0
          have hpos : 1 ≤ bitLengthAux fuel (n / 2) := by
            by_contra hc
            have : bitLengthAux fuel (n / 2) = 0 := by omega
            rw [this] at h1
            simp at h1
            exact h0 h1
          have : 2 ^ bitLengthAux fuel (n / 2) = 2 ^ (bitLengthAux fuel (n / 2) - 1) * 2 := by
            rw [← pow_succ]
            congr 1
            omega
          rw [this]
          omega

theorem lt_two_pow_bitLength (n : Nat) : n < 2 ^ bitLength n :=
  (bitLengthAux_spec n n le_rfl).1

theorem two_pow_bitLength_le (n : Nat) (h : n ≠ 0) : 2 ^ (bitLength n - 1) ≤ n :=
  (bitLengthAux_spec n n le_rfl).2 h

theorem bitLength_le_iff (n k : Nat) : bitLength n ≤ k ↔ n < 2 ^ k := by
  constructor
  · intro h
    exact lt_of_lt_of_le (lt_two_pow_bitLength n) (Nat.pow_le_pow_right (by norm_num) h)
  · intro h
    by_contra hc
    have hk : k ≤ bitLength n - 1 := by omega
    have hn : n ≠ 0 := by
      rintro rfl
      simp [bitLength, bitLengthAux] at hc
    have := two_pow_bitLength_le n hn
    have h2 : 2 ^ k ≤ 2 ^ (bitLength n - 1) := Nat.pow_le_pow_right (by norm_num) hk
    omega

theorem roundHalfEven_bounds (a b : Nat) (hb : 0 < b) :
    a / b ≤ roundHalfEven a b ∧ roundHalfEven a b ≤ a / b + 1 ∧
    2 * (roundHalfEven a b * b) ≤ 2 * a + b ∧ 2 * a ≤ 2 * (roundHalfEven a b * b) + b := by
  have hdm := Nat.div_add_mod a b
  have hlt := Nat.mod_lt a hb
  have hmul : b * (a / b) = a / b * b := Nat.mul_comm _ _
  have hsucc : (a / b + 1) * b = a / b * b + b := by ring
  unfold roundHalfEven
  split_ifs
  · refine ⟨le_rfl, by omega, ?_, ?_⟩ <;> omega
  · refine ⟨by omega, le_rfl, ?_, ?_⟩ <;> rw [hsucc] <;> omega
  · refine ⟨le_rfl, by omega, ?_, ?_⟩ <;> omega
  · refine ⟨by omega, le_rfl, ?_, ?_⟩ <;> rw [hsucc] <;> omega


theorem roundNat_small (n : Nat) (h : n ≤ 2 ^ 53) : roundNat n = some n := by
  unfold roundNat
  rw [if_pos h]

theorem roundNat_large (n : Nat) (h1 : 2 ^ 53 < n) (h2 : n < 2 ^ 62) :
    ∃ v, roundNat n = some v ∧ 2 ^ 53 ≤ v ∧ v < 2 ^ 63 := by
  have hb1 : ¬ bitLength n ≤ 53 := by
    rw [bitLength_le_iff]
    omega
  have hb2 : bitLength n ≤ 62 := (bitLength_le_iff n 62).2 h2
  obtain ⟨e, he⟩ : ∃ e, bitLength n = e + 53 := ⟨bitLength n - 53, by omega⟩
  have he1 : 1 ≤ e := by omega
  have he9 : e ≤ 9 := by omega
  have hn0 : n ≠ 0 := by
    rintro rfl
    simp at h1
  have hlo := two_pow_bitLength_le n hn0
  have hhi := lt_two_pow_bitLength n
  rw [he] at hlo hhi
  have hlo' : 2 ^ 52 * 2 ^ e ≤ n := by
    rw [← pow_add]
    have : e + 53 - 1 = 52 + e := by omega
    rw [this] at hlo
    exact hlo
  have hhi' : n < 2 ^ 53 * 2 ^ e := by
    rw [← pow_add]
    have : e + 53 = 53 + e := by omega
    rw [this] at hhi
    exact hhi
  have hpos : 0 < 2 ^ e := Nat.two_pow_pos _
  obtain ⟨hq1, hq2, -, -⟩ := roundHalfEven_bounds n (2 ^ e) hpos
  have hqlo : 2 ^ 52 ≤ n / 2 ^ e := (Nat.le_div_iff_mul_le hpos).2 hlo'
  have hqhi : n / 2 ^ e < 2 ^ 53 := (Nat.div_lt_iff_lt_mul hpos).2 hhi'
  have hvlo : 2 ^ 53 ≤ roundHalfEven n (2 ^ e) * 2 ^ e := by
    calc 2 ^ 53 = 2 ^ 52 * 2 ^ 1 := by norm_num
      _ ≤ 2 ^ 52 * 2 ^ e := Nat.mul_le_mul_left _ (Nat.pow_le_pow_right (by norm_num) he1)
      _ ≤ roundHalfEven n (2 ^ e) * 2 ^ e := Nat.mul_le_mul_right _ (le_trans hqlo hq1)
  have hvhi : roundHalfEven n (2 ^ e) * 2 ^ e < 2 ^ 63 := by
    calc roundHalfEven n (2 ^ e) * 2 ^ e ≤ 2 ^ 53 * 2 ^ e := Nat.mul_le_mul_right _ (by omega)
      _ ≤ 2 ^ 53 * 2 ^ 9 := Nat.mul_le_mul_left _ (Nat.pow_le_pow_right (by norm_num) he9)
      _ < 2 ^ 63 := by norm_num
  refine ⟨roundHalfEven n (2 ^ e) * 2 ^ e, ?_, hvlo, hvhi⟩
  unfold roundNat
  rw [if_neg (by omega)]
  have hsub : bitLength n - 53 = e := by omega
  simp only [hsub]
  have h63 : bitLength (roundHalfEven n (2 ^ e) * 2 ^ e) ≤ 63 := (bitLength_le_iff _ 63).2 hvhi
  rw [if_pos (by omega)]

/-- Rounding a quotient of whole numbers to a double and taking the ceiling is
the exact ceiling, for a numerator below 2^53. -/
theorem ceilOf_roundQuot (t l : Nat) (ht : 1 ≤ t) (ht53 : t < 2 ^ 53) (hl : 1 ≤ l) :
    (ceilOf (roundQuot t l) - 1) * l < t ∧ t ≤ ceilOf (roundQuot t l) * l := by
  have hbt : bitLength t ≤ 53 := (bitLength_le_iff t 53).2 ht53
  have hbt1 : 1 ≤ bitLength t := by
    by_contra hc
    have h0 : bitLength t ≤ 0 := by omega
    rw [bitLength_le_iff] at h0
    simp at h0
    omega
  have hbl1 : 1 ≤ bitLength l := by
    by_contra hc
    have h0 : bitLength l ≤ 0 := by omega
    rw [bitLength_le_iff] at h0
    simp at h0
    omega
  obtain ⟨D, hD⟩ : ∃ D : Nat, D + bitLength t = 53 + bitLength l := ⟨53 + bitLength l - bitLength t, by omega⟩
  have hD1 : 1 ≤ D := by omega
  have hd0 : (53 : Int) + (bitLength l : Int) - (bitLength t : Int) = (D : Int) := by omega
  have htlo := two_pow_bitLength_le t (by omega)
  have hthi := lt_two_pow_bitLength t
  have hllo := two_pow_bitLength_le l (by omega)
  have hlhi := lt_two_pow_bitLength l
  -- normalisation at D
  have e1 : 2 ^ (bitLength t - 1) * 2 ^ D = 2 ^ 52 * 2 ^ bitLength l := by
    rw [← pow_add, ← pow_add]
    congr 1
    omega
  have n1 : 2 ^ 52 * l < t * 2 ^ D := by
    calc 2 ^ 52 * l < 2 ^ 52 * 2 ^ bitLength l := (Nat.mul_lt_mul_left (by norm_num)).2 hlhi
      _ = 2 ^ (bitLength t - 1) * 2 ^ D := e1.symm
      _ ≤ t * 2 ^ D := Nat.mul_le_mul_right _ htlo
  -- the scale that is chosen
  obtain ⟨S, hS, hN1⟩ : ∃ S : Nat, (roundQuot t l) = (roundHalfEven (t * 2 ^ S) l, (S : Int)) ∧
      2 ^ 52 * l ≤ t * 2 ^ S := by
    unfold roundQuot
    simp only [hd0]
    have hneg : (-(D : Int)).toNat = 0 := by omega
    have htn : (D : Int).toNat = D := Int.toNat_natCast D
    rw [hneg, htn]
    by_cases hc : 2 ^ 53 * (l * 2 ^ 0) ≤ t * 2 ^ D
    · rw [if_pos hc]
      refine ⟨D - 1, ?_, ?_⟩
      · have h1 : ((D : Int) - 1).toNat = D - 1 := by omega
        have h2 : (-((D : Int) - 1)).toNat = 0 := by omega
        have h3 : ((D : Int) - 1) = ((D - 1 : Nat) : Int) := by omega
        rw [h1, h2, h3]
        simp
      · have : 2 ^ D = 2 ^ (D - 1) * 2 := by
          rw [← pow_succ]
          congr 1
          omega
        rw [this] at hc
        have h53 : (2 : Nat) ^ 53 = 2 ^ 52 * 2 := by norm_num
        rw [h53] at hc
        simp only [pow_zero, mul_one] at hc
        have : 2 ^ 52 * l * 2 ≤ t * 2 ^ (D - 1) * 2 := by
          calc 2 ^ 52 * l * 2 = 2 ^ 52 * 2 * l := by ring
            _ ≤ t * (2 ^ (D - 1) * 2) := hc
            _ = t * 2 ^ (D - 1) * 2 := by ring
        omega
    · rw [if_neg hc]
      refine ⟨D, ?_, n1.le⟩
      rw [hneg, htn]
      simp
  rw [hS]
  set U := 2 ^ S with hU
  have hUpos : 0 < U := Nat.two_pow_pos _
  obtain ⟨-, -, hr1, hr2⟩ := roundHalfEven_bounds (t * U) l hl
  set m := roundHalfEven (t * U) l with hm
  have hB : l < 2 * U := by
    have h1 : 2 ^ 52 * l < 2 ^ 53 * U := lt_of_le_of_lt hN1 ((Nat.mul_lt_mul_right hUpos).2 ht53)
    have h53 : (2 : Nat) ^ 53 = 2 ^ 52 * 2 := by norm_num
    rw [h53, Nat.mul_assoc] at h1
    exact Nat.lt_of_mul_lt_mul_left h1
  have hceil : ceilOf (m, (S : Int)) = (m + U - 1) / U := by
    unfold ceilOf
    have h1 : (-(S : Int)).toNat = 0 := by omega
    have h2 : (S : Int).toNat = S := Int.toNat_natCast S
    simp only [h1, h2, pow_zero, mul_one]
  rw [hceil]
  set r := (m + U - 1) / U with hr
  have hm1 : 1 ≤ m := by
    by_contra hc
    have hm0 : m = 0 := by omega
    rw [hm0] at hr2
    have : 2 * (1 * U) ≤ 2 * (t * U) := Nat.mul_le_mul_left _ (Nat.mul_le_mul_right _ ht)
    simp at hr2
    omega
  have hrU1 : m ≤ r * U := by
    have := Nat.lt_div_mul_add (a := m + U - 1) hUpos
    rw [← hr] at this
    omega
  have hrU2 : r * U < m + U := by
    have := Nat.div_mul_le_self (m + U - 1) U
    rw [← hr] at this
    omega
  have hr1' : 1 ≤ r := by
    by_contra hc
    have : r = 0 := by omega
    rw [this] at hrU1
    omega
  constructor
  · -- (r - 1) * l < t
    by_contra hc
    have hc' : t ≤ (r - 1) * l := by omega
    have h1 : (r - 1) * U + 1 ≤ m := by
      have : (r - 1) * U + U = r * U := by
        have : r = (r - 1) + 1 := by omega
        conv_rhs => rw [this]
        ring
      omega
    have h2 : 2 * (((r - 1) * U + 1) * l) ≤ 2 * (m * l) :=
      Nat.mul_le_mul_left _ (Nat.mul_le_mul_right _ h1)
    have h3 : 2 * (t * U) ≤ 2 * ((r - 1) * l * U) :=
      Nat.mul_le_mul_left _ (Nat.mul_le_mul_right _ hc')
    have e : ((r - 1) * U + 1) * l = (r - 1) * l * U + l := by ring
    rw [e] at h2
    omega
  · -- t ≤ r * l
    by_contra hc
    have hc' : r * l + 1 ≤ t := by omega
    have h1 : 2 * ((r * l + 1) * U) ≤ 2 * (t * U) :=
      Nat.mul_le_mul_left _ (Nat.mul_le_mul_right _ hc')
    have h2 : 2 * (m * l) ≤ 2 * (r * U * l) :=
      Nat.mul_le_mul_left _ (Nat.mul_le_mul_right _ hrU1)
    have e1 : (r * l + 1) * U = r * U * l + U := by ring
    rw [e1] at h1
    omega

/-- `Math.ceil(total / limit)` is the ceiling of the quotient for a total
below 2^53 and a limit of at least 1. -/
theorem jsCeilDiv_eq_ceil (total L : Nat) (ht : total < 2 ^ 53) (hL : 1 ≤ L) :
    jsCeilDiv total (L : Int) = some ⌈(total : ℚ) / (L : ℚ)⌉ := by
  unfold jsCeilDiv
  rw [roundNat_small total ht.le]
  dsimp only
  rw [if_neg (by omega)]
  by_cases h0 : total = 0
  · subst h0
    simp
  · rw [if_neg h0, if_pos (by omega), Int.natAbs_ofNat]
    obtain ⟨h1, h2⟩ := ceilOf_roundQuot total L (by omega) ht hL
    set r := ceilOf (roundQuot total L) with hr
    have hr1 : 1 ≤ r := by
      by_contra hc
      have : r = 0 := by omega
      rw [this] at h2
      omega
    have hLq : (0 : ℚ) < (L : ℚ) := by exact_mod_cast hL
    congr 1
    symm
    rw [Int.ceil_eq_iff]
    push_cast
    constructor
    · rw [lt_div_iff₀ hLq]
      have : (((r - 1) * L : Nat) : ℚ) < (total : ℚ) := by exact_mod_cast h1
      push_cast [Nat.cast_sub hr1] at this
      linarith
    · rw [div_le_iff₀ hLq]
      exact_mod_cast h2

theorem roundInt_natCast (n : Nat) (h : n ≤ 2 ^ 53) : roundInt (n : Int) = .int n := by
  unfold roundInt
  rw [Int.natAbs_ofNat, roundNat_small n h]
  simp

/-! ## `getQuestions`: the predicate and the page -/

theorem mem_matching {env : Env} {s : Store} {f : QuestionFilter} {q : Question} :
    q ∈ matching env s f ↔ q ∈ s.questions ∧ f.matches env q = true := by
  unfold matching sortByCreatedAtDesc
  rw [(List.perm_insertionSort _ _).mem_iff, List.mem_filter]

theorem findPage_sublist {env : Env} {s : Store} {f : QuestionFilter} {skip : JsNum}
    {limit : Int} {qs : List Question} (h : findPage env s f skip limit = some qs) :
    qs.Sublist (matching env s f) := by
  unfold findPage at h
  split at h
  · split at h
    · cases h
    · simp only [Option.some.injEq] at h
      subst h
      split
      · exact List.drop_sublist _ _
      · exact (List.take_sublist _ _).trans (List.drop_sublist _ _)
  · cases h

theorem mem_findPage {env : Env} {s : Store} {f : QuestionFilter} {skip : JsNum} {limit : Int}
    {qs : List Question} (h : findPage env s f skip limit = some qs) {q : Question}
    (hq : q ∈ qs) : q ∈ matching env s f :=
  (findPage_sublist h).subset hq

/-- A listing response comes from a predicate that was built and a page that
was fetched with it. -/
theorem getQuestions_listing {env : Env} {s : Store} {user : Option User} {p : ListParams}
    {items : List PopulatedQuestion} {pg : Pagination}
    (h : (getQuestions env s user p).body = .listing items pg) :
    ∃ f qs skip limit, listQuery env s user p = some f ∧
      findPage env s f skip limit = some qs ∧ items = qs.map (populate s) := by
  unfold getQuestions at h
  split at h
  · cases h
  · rename_i f hf
    split at h
    · dsimp only at h
      split at h
      · cases h
      · rename_i qs hqs
        simp only [Payload.listing.injEq] at h
        exact ⟨f, qs, _, _, hf, hqs, h.1.symm⟩
    · cases h

/-- What each step of the predicate's construction does when it does not
throw. -/
theorem courseFilter_some {env : Env} {s : Store} {course : Option QueryValue}
    {q q' : QuestionFilter} (h : courseFilter env s course q = some q') :
    (present course = false ∧ q' = q) ∨
    ∃ pattern ids, course = some (.str pattern) ∧ pattern ≠ "" ∧
      resolveCourseIds env s pattern = some ids ∧ q' = { q with course_id := some ids } := by
  unfold courseFilter at h
  split at h
  · rename_i hp
    split at h
    · rename_i pattern
      obtain ⟨ids, hids, rfl⟩ := Option.map_eq_some'.1 h
      exact Or.inr ⟨pattern, ids, rfl, by simpa [present] using hp, hids, rfl⟩
    · cases h
  · rename_i hp
    cases h
    exact Or.inl ⟨by simpa using hp, rfl⟩

theorem yearFilter_some {year : Option QueryValue} {q q' : QuestionFilter}
    (h : yearFilter year q = some q') : q' = q ∨ ∃ n, q' = { q with year := some n } := by
  unfold yearFilter at h
  split at h
  · split at h
    · cases h
    · cases h
      exact Or.inr ⟨_, rfl⟩
  · cases h
    exact Or.inl rfl

theorem tagsFilter_some {tags : Option QueryValue} {q q' : QuestionFilter}
    (h : tagsFilter tags q = some q') :
    (present tags = false ∧ q' = q) ∨
    ∃ t, tags = some (.str t) ∧ t ≠ "" ∧ q' = { q with tags := some (tagArray t) } := by
  unfold tagsFilter at h
  split at h
  · rename_i hp
    split at h
    · rename_i t
      cases h
      exact Or.inr ⟨t, rfl, by simpa [present] using hp, rfl⟩
    · cases h
  · rename_i hp
    cases h
    exact Or.inl ⟨by simpa using hp, rfl⟩

theorem textFilter_some {search : Option QueryValue} {q q' : QuestionFilter}
    (h : textFilter search q = some q') :
    (present search = false ∧ q' = q) ∨
    ∃ t, search = some (.str t) ∧ t ≠ "" ∧ q' = { q with text := some t } := by
  unfold textFilter at h
  split at h
  · rename_i hp
    split at h
    · rename_i t
      cases h
      exact Or.inr ⟨t, rfl, by simpa [present] using hp, rfl⟩
    · cases h
  · rename_i hp
    cases h
    exact Or.inl ⟨by simpa using hp, rfl⟩

/-- The steps by which a predicate of `getQuestions` was built. -/
theorem listQuery_steps {env : Env} {s : Store} {user : Option User} {p : ListParams}
    {f : QuestionFilter} (h : listQuery env s user p = some f) :
    ∃ q1 q2 q3 q4 q5 q6,
      q1 = (if user.any (fun u => u.role = "admin") then
        (⟨none, none, none, none, none, none, none⟩ : QuestionFilter)
        else ⟨some true, none, none, none, none, none, none⟩) ∧
      courseFilter env s p.course q1 = some q2 ∧
      yearFilter p.year q2 = some q3 ∧
      q4 = (if present p.exam_type then { q3 with exam_type := p.exam_type } else q3) ∧
      q5 = (if present p.question_type then { q4 with question_type := p.question_type }
        else q4) ∧
      tagsFilter p.tags q5 = some q6 ∧
      textFilter p.q q6 = some f := by
  unfold listQuery at h
  dsimp only at h
  obtain ⟨q2, h2, h⟩ := Option.bind_eq_some.1 h
  obtain ⟨q3, h3, h⟩ := Option.bind_eq_some.1 h
  obtain ⟨q6, h6, h7⟩ := Option.bind_eq_some.1 h
  refine ⟨_, q2, q3, _, _, q6, ?_, h2, h3, rfl, rfl, h6, h7⟩
  split <;> rfl

/-- The `approved` key of the predicate depends on the actor alone: absent
for an admin, `true` for everybody else. -/
theorem listQuery_approved {env : Env} {s : Store} {user : Option User} {p : ListParams}
    {f : QuestionFilter} (h : listQuery env s user p = some f) :
    f.approved = if user.any (fun u => u.role = "admin") then none else some true := by
  obtain ⟨q1, q2, q3, q4, q5, q6, h1, h2, h3, h4, h5, h6, h7⟩ := listQuery_steps h
  have e1 : q1.approved = if user.any (fun u => u.role = "admin") then none else some true := by
    rw [h1]
    split <;> rfl
  have e2 : q2.approved = q1.approved := by
    rcases courseFilter_some h2 with ⟨-, rfl⟩ | ⟨_, _, -, -, -, rfl⟩ <;> rfl
  have e3 : q3.approved = q2.approved := by
    rcases yearFilter_some h3 with rfl | ⟨_, rfl⟩ <;> rfl
  have e4 : q4.approved = q3.approved := by
    rw [h4]
    split <;> rfl
  have e5 : q5.approved = q4.approved := by
    rw [h5]
    split <;> rfl
  have e6 : q6.approved = q5.approved := by
    rcases tagsFilter_some h6 with ⟨-, rfl⟩ | ⟨_, -, -, rfl⟩ <;> rfl
  have e7 : f.approved = q6.approved := by
    rcases textFilter_some h7 with ⟨-, rfl⟩ | ⟨_, -, -, rfl⟩ <;> rfl
  rw [e7, e6, e5, e4, e3, e2, e1]

/-- C3. For an anonymous or non-admin actor and any parameters, the predicate
handed to the store carries `approved = true` as a conjunct next to all other
filters, and every question of the returned list is approved. -/
theorem listing_nonadmin_only_approved (env : Env) (s : Store) (user : Option User)
    (p : ListParams) (hna : ∀ u, user = some u → u.role ≠ "admin") :
    (∀ f, listQuery env s user p = some f →
      f.approved = some true ∧
      ∀ q, f.matches env q =
        (q.approved && ({ f with approved := none } : QuestionFilter).matches env q)) ∧
    (∀ items pg, (getQuestions env s user p).body = .listing items pg →
      ∀ x ∈ items, x.doc.approved = true) := by
  have hany : user.any (fun u => u.role = "admin") = false := by
    cases user with
    | none => rfl
    | some u => simpa using hna u rfl
  have key : ∀ f, listQuery env s user p = some f → f.approved = some true := by
    intro f hf
    rw [listQuery_approved hf, hany]
    rfl
  refine ⟨fun f hf => ⟨key f hf, fun q => ?_⟩, fun items pg h x hx => ?_⟩
  · simp [QuestionFilter.matches, key f hf, Bool.and_assoc]
  · obtain ⟨f, qs, skip, limit, hf, hqs, rfl⟩ := getQuestions_listing h
    obtain ⟨q, hq, rfl⟩ := List.mem_map.1 hx
    have hm := (mem_matching.1 (mem_findPage hqs hq)).2
    simp only [QuestionFilter.matches, key f hf, Option.all_some, Bool.and_eq_true,
      decide_eq_true_eq] at hm
    exact hm.1.1.1.1.1.1

theorem listing_nonadmin_only_approved_witness :
    (populate sampleStore irrigation).doc.approved = true ∧
    (populate sampleStore soilTexture).doc.approved = true :=
  have h := (listing_nonadmin_only_approved sampleEnv sampleStore (some alice) noParams
    (by intro u hu; cases hu; decide)).2
    [populate sampleStore irrigation, populate sampleStore soilTexture] ⟨2, 1, 10, some 1⟩
    (by decide)
  ⟨h _ (List.mem_cons_self _ _), h _ (List.mem_cons_of_mem _ (List.mem_cons_self _ _))⟩

/-! ## The route `GET /` -/

theorem runMiddleware_check (env : Env) (rules : List (Env → ListParams → Option String))
    (s : Store) (req : Req) :
    ∃ errs, runMiddleware env (rules.map check) s req =
      .next s { req with validationErrors := errs } := by
  induction rules generalizing req with
  | nil => exact ⟨req.validationErrors, rfl⟩
  | cons r rules ih =>
    simp only [List.map_cons, runMiddleware, check]
    split
    · rename_i s' req' h
      split at h
      · cases h
        exact ih req
      · cases h
        obtain ⟨errs, he⟩ := ih { req with validationErrors := req.validationErrors ++ [_] }
        exact ⟨errs, he⟩
    · rename_i s' res h
      split at h <;> cases h

/-- The chain of `GET /` hands every request to `getQuestions` with the
`req.user` it started with: no middleware of the chain sets it, and none
answers in the handler's place. -/
theorem listRoute_eq (env : Env) (s : Store) (req : Req) :
    listRoute env s req = (s, getQuestions env s req.user req.query) := by
  obtain ⟨errs, h⟩ := runMiddleware_check env listValidators s req
  simp only [listRoute, runRoute, listChain, h]

theorem getQuestions_status (env : Env) (s : Store) (user : Option User) (p : ListParams) :
    (getQuestions env s user p).status = 200 ∨ (getQuestions env s user p).status = 500 := by
  unfold getQuestions
  split
  · simp
  · split
    · dsimp only
      split <;> simp
    · simp

/-- C4, on the code: the admin's request carries a token that `authenticate`
resolves to an admin, but the chain of `GET /` does not contain
`authenticate`, so `getQuestions` runs with no `req.user`, keeps the
`approved` filter and leaves the pending question out; called with the admin
as `req.user` it returns the pending question as well. -/
theorem listRoute_admin_misses_pending :
    authenticate sampleEnv sampleStore adminListRequest =
      .next sampleStore { adminListRequest with user := some root } ∧
    root.role = "admin" ∧
    listRoute sampleEnv sampleStore adminListRequest =
      (sampleStore, ⟨200, .listing [populate sampleStore irrigation,
        populate sampleStore soilTexture] ⟨2, 1, 10, some 1⟩⟩) ∧
    getQuestions sampleEnv sampleStore (some root) noParams =
      ⟨200, .listing [populate sampleStore irrigation, populate sampleStore cropRotation,
        populate sampleStore soilTexture] ⟨3, 1, 10, some 1⟩⟩ := by
  refine ⟨by decide, by decide, ?_, by decide⟩
  rw [listRoute_eq]
  decide

/-- C5, on the code: the validation chains of `GET /` record their messages
and call `next()`; nothing reads the messages, so a request with an
`exam_type` outside the enum is answered 200 with the value used as a filter,
a `limit` of 1000 is answered 200 with 1000 as the page size, and a `page` of
0 reaches the store and is answered 500. -/
theorem listRoute_runs_invalid_requests :
    runMiddleware sampleEnv listChain sampleStore bogusExamTypeRequest =
      .next sampleStore { bogusExamTypeRequest with validationErrors := ["Invalid exam type"] } ∧
    listQuery sampleEnv sampleStore none bogusExamTypeRequest.query =
      some ⟨some true, none, none, some "bogus", none, none, none⟩ ∧
    (listRoute sampleEnv sampleStore bogusExamTypeRequest).2 =
      ⟨200, .listing [] ⟨0, 1, 10, some 0⟩⟩ ∧
    runMiddleware sampleEnv listChain sampleStore hugeLimitRequest =
      .next sampleStore
        { hugeLimitRequest with validationErrors := ["Limit must be between 1 and 100"] } ∧
    (listRoute sampleEnv sampleStore hugeLimitRequest).2 =
      ⟨200, .listing [populate sampleStore irrigation, populate sampleStore soilTexture]
        ⟨2, 1, 1000, some 1⟩⟩ ∧
    (listRoute sampleEnv sampleStore pageZeroRequest).2 =
      ⟨500, .message "Failed to fetch questions"⟩ := by
  refine ⟨by decide, by decide, ?_, by decide, ?_, ?_⟩ <;>
  · rw [listRoute_eq]
    decide

/-- The route `GET /` never answers 400. -/
theorem listRoute_never_400 (env : Env) (s : Store) (req : Req) :
    (listRoute env s req).2.status ≠ 400 := by
  rw [listRoute_eq]
  rcases getQuestions_status env s req.user req.query with h | h <;> simp [h]

/-! ## Pagination -/

theorem countDocuments_eq (env : Env) (s : Store) (f : QuestionFilter) :
    countDocuments env s f = (matching env s f).length := by
  unfold countDocuments matching sortByCreatedAtDesc
  exact (List.perm_insertionSort _ _).length_eq.symm

/-- The number value of a product below 2^62: the product itself up to
2^53, and beyond that a whole number of at least 2^53 that fits 64 bits. -/
theorem roundInt_natCast_lt (n : Nat) (h : n < 2 ^ 62) :
    ∃ v : Nat, roundInt (n : Int) = .int v ∧ v < 2 ^ 63 ∧ (n ≤ 2 ^ 53 → v = n) ∧
      (2 ^ 53 < n → 2 ^ 53 ≤ v) := by
  by_cases hn : n ≤ 2 ^ 53
  · exact ⟨n, roundInt_natCast n hn, by omega, fun _ => rfl, fun h' => absurd hn (by omega)⟩
  · obtain ⟨v, hv, h1, h2⟩ := roundNat_large n (by omega) h
    refine ⟨v, ?_, h2, fun h' => absurd h' hn, fun _ => h1⟩
    unfold roundInt
    rw [Int.natAbs_ofNat, hv]
    simp

/-- The answer of `getQuestions` for a predicate that was built, a page from
1 to 2^53, a limit from 1 to 100 and fewer than 2^53 matching questions. -/
theorem getQuestions_paged (env : Env) (s : Store) (user : Option User) (p : ListParams)
    (f : QuestionFilter) (P L : Nat) (hf : listQuery env s user p = some f)
    (hP : p.page.getD 1 = (P : Int)) (hL : p.limit.getD 10 = (L : Int))
    (hP1 : 1 ≤ P) (hP53 : P ≤ 2 ^ 53) (hL1 : 1 ≤ L) (hL100 : L ≤ 100)
    (hM : (matching env s f).length < 2 ^ 53) :
    getQuestions env s user p =
      ⟨200, .listing ((((matching env s f).drop ((P - 1) * L)).take L).map (populate s))
        ⟨(matching env s f).length, P, L,
          some ⌈((matching env s f).length : ℚ) / (L : ℚ)⌉⟩⟩ := by
  have hskip : ((P : Int) - 1) = ((P - 1 : Nat) : Int) := by omega
  have hprod : ((P - 1 : Nat) : Int) * (L : Int) = (((P - 1) * L : Nat) : Int) := by
    push_cast
    ring
  have hbound : (P - 1) * L < 2 ^ 62 := by
    calc (P - 1) * L ≤ 2 ^ 53 * 100 := Nat.mul_le_mul (by omega) hL100
      _ < 2 ^ 62 := by norm_num
  obtain ⟨v, hv, hv63, hv1, hv2⟩ := roundInt_natCast_lt ((P - 1) * L) hbound
  have hdrop : (matching env s f).drop v = (matching env s f).drop ((P - 1) * L) := by
    by_cases hn : (P - 1) * L ≤ 2 ^ 53
    · rw [hv1 hn]
    · have := hv2 (by omega)
      rw [List.drop_eq_nil_of_le (by omega), List.drop_eq_nil_of_le (by omega)]
  unfold getQuestions
  rw [hf]
  dsimp only
  rw [hP, hL, roundInt_natCast P hP53, roundInt_natCast L (by omega)]
  dsimp only
  rw [hskip, roundInt_natCast (P - 1) (by omega)]
  have hmul : (JsNum.int ((P - 1 : Nat) : Int)).mul (.int (L : Int)) = .int (v : Int) := by
    show roundInt (((P - 1 : Nat) : Int) * (L : Int)) = _
    rw [hprod, hv]
  rw [hmul]
  have hfind : findPage env s f (.int (v : Int)) (L : Int) =
      some (((matching env s f).drop ((P - 1) * L)).take L) := by
    unfold findPage
    dsimp only
    rw [if_neg (by omega), if_neg (by omega), Int.toNat_natCast, Int.natAbs_ofNat, hdrop]
  rw [hfind]
  dsimp only
  rw [countDocuments_eq, jsCeilDiv_eq_ceil _ _ hM hL1]

/-- C6, at concrete requests: the page `2^53 + 1` is a valid page, and the
answer echoes `2^53`, the double nearest to it; and a request with a valid
page and limit whose course is `(`, or whose year is `abc`, or whose `tags`
parameter is repeated, is answered 500 with no pagination at all. -/
theorem listing_pagination_outside_doubles :
    getQuestions sampleEnv sampleStore none { noParams with page := some 9007199254740993 } =
      ⟨200, .listing [] ⟨2, 9007199254740992, 10, some 1⟩⟩ ∧
    getQuestions sampleEnv sampleStore none
        { noParams with course := some "(", page := some 1, limit := some 10 } =
      ⟨500, .message "Failed to fetch questions"⟩ ∧
    getQuestions sampleEnv sampleStore none
        { noParams with year := some "abc", page := some 1, limit := some 10 } =
      ⟨500, .message "Failed to fetch questions"⟩ ∧
    getQuestions sampleEnv sampleStore none
        { noParams with tags := some (.list ["a", "b"]), page := some 1, limit := some 10 } =
      ⟨500, .message "Failed to fetch questions"⟩ := by
  decide

/-- C6, amended. With a page `P` from 1 to 2^53 and a limit `L` from 1 to 100
(defaults 1 and 10), a predicate that the handler builds, and `M` the
matching questions, newest first, fewer than 2^53 of them: the answer is 200,
its `i`-th question is `M[(P-1)*L + i]` for `i < L` and there is no other,
`total = |M|`, `page` and `limit` echo the request, `pages = ⌈|M| / L⌉`, and
a page beyond `pages` is empty. -/
theorem listing_pagination (env : Env) (s : Store) (user : Option User) (p : ListParams)
    (f : QuestionFilter) (P L : Nat) (hf : listQuery env s user p = some f)
    (hP : p.page.getD 1 = (P : Int)) (hL : p.limit.getD 10 = (L : Int))
    (hP1 : 1 ≤ P) (hP53 : P ≤ 2 ^ 53) (hL1 : 1 ≤ L) (hL100 : L ≤ 100)
    (hM : (matching env s f).length < 2 ^ 53) :
    ∃ items,
      getQuestions env s user p =
        ⟨200, .listing items ⟨(matching env s f).length, P, L,
          some ⌈((matching env s f).length : ℚ) / (L : ℚ)⌉⟩⟩ ∧
      (∀ i : Nat, items[i]? =
        if i < L then ((matching env s f)[(P - 1) * L + i]?).map (populate s) else none) ∧
      (⌈((matching env s f).length : ℚ) / (L : ℚ)⌉ < (P : Int) → items = []) := by
  refine ⟨(((matching env s f).drop ((P - 1) * L)).take L).map (populate s),
    getQuestions_paged env s user p f P L hf hP hL hP1 hP53 hL1 hL100 hM, ?_, ?_⟩
  · intro i
    rw [List.getElem?_map, List.getElem?_take, List.getElem?_drop]
    split <;> simp
  · intro hlt
    rw [Int.ceil_lt_iff] at hlt
    have hLq : (0 : ℚ) < (L : ℚ) := by exact_mod_cast hL1
    rw [div_le_iff₀ hLq] at hlt
    have hle : (matching env s f).length ≤ (P - 1) * L := by
      have : ((matching env s f).length : ℚ) ≤ (((P - 1) * L : Nat) : ℚ) := by
        push_cast [Nat.cast_sub hP1]
        push_cast at hlt
        linarith
      exact_mod_cast this
    rw [List.drop_eq_nil_of_le hle]
    simp

theorem listing_pagination_witness :
    ∃ items,
      getQuestions sampleEnv sampleStore none { noParams with page := some 2, limit := some 1 } =
        ⟨200, .listing items ⟨2, 2, 1, some ⌈((2 : Nat) : ℚ) / ((1 : Nat) : ℚ)⌉⟩⟩ ∧
      (∀ i : Nat, items[i]? =
        if i < 1 then ([irrigation, soilTexture][(2 - 1) * 1 + i]?).map (populate sampleStore)
        else none) ∧
      (⌈((2 : Nat) : ℚ) / ((1 : Nat) : ℚ)⌉ < ((2 : Nat) : Int) → items = []) :=
  listing_pagination sampleEnv sampleStore none { noParams with page := some 2, limit := some 1 }
    ⟨some true, none, none, none, none, none, none⟩ 2 1 (by decide) (by decide) (by decide)
    (by decide) (by decide) (by decide) (by decide) (by decide)

/-! ## Order of a listing -/

theorem matching_sorted (env : Env) (s : Store) (f : QuestionFilter) :
    (matching env s f).Pairwise NewestFirst := by
  haveI : IsTotal Question (fun a b => b.createdAt ≤ a.createdAt) :=
    ⟨fun a b => le_total b.createdAt a.createdAt⟩
  haveI : IsTrans Question (fun a b => b.createdAt ≤ a.createdAt) :=
    ⟨fun _ _ _ h1 h2 => le_trans h2 h1⟩
  exact List.sorted_insertionSort (fun a b : Question => b.createdAt ≤ a.createdAt) _

theorem listQuery_text {env : Env} {s : Store} {user : Option User} {p : ListParams}
    {f : QuestionFilter} {search : String} (h : listQuery env s user p = some f)
    (hq : p.q = some (.str search)) (hne : search ≠ "") : f.text = some search := by
  obtain ⟨q1, q2, q3, q4, q5, q6, -, -, -, -, -, -, h7⟩ := listQuery_steps h
  rcases textFilter_some h7 with ⟨hp, -⟩ | ⟨t, ht, -, rfl⟩
  · rw [hq] at hp
    simp [present, hne] at hp
  · rw [hq] at ht
    cases ht
    rfl

/-- C7, at a concrete request: for the search `soil` the listing puts the
newer question with score 1 before the older question with score 4, which is
not the relevance order. -/
theorem listing_search_not_by_relevance :
    getQuestions sampleEnv sampleStore none { noParams with q := some "soil" } =
      ⟨200, .listing [populate sampleStore irrigation, populate sampleStore soilTexture]
        ⟨2, 1, 10, some 1⟩⟩ ∧
    sampleEnv.textScore "soil" irrigation.title irrigation.body = 1 ∧
    sampleEnv.textScore "soil" soilTexture.title soilTexture.body = 4 ∧
    ¬ List.Pairwise (SpecRelevanceOrder sampleEnv "soil") [irrigation, soilTexture] := by
  decide

/-- C7, amended. Every listing, with or without `q`, is ordered by
`createdAt` descending; when `q` is given, every returned question matches
the text search. -/
theorem listing_order_newest_first (env : Env) (s : Store) (user : Option User)
    (p : ListParams) (items : List PopulatedQuestion) (pg : Pagination)
    (h : (getQuestions env s user p).body = .listing items pg) :
    (items.map fun x => x.doc).Pairwise NewestFirst ∧
    (∀ search : String, p.q = some (.str search) → search ≠ "" →
      ∀ x ∈ items, 0 < env.textScore search x.doc.title x.doc.body) := by
  obtain ⟨f, qs, skip, limit, hf, hqs, rfl⟩ := getQuestions_listing h
  have hdoc : (qs.map (populate s)).map (fun x => x.doc) = qs := by
    simp [Function.comp_def, populate]
  constructor
  · rw [hdoc]
    exact (matching_sorted env s f).sublist (findPage_sublist hqs)
  · intro search hq hne x hx
    obtain ⟨q, hqmem, rfl⟩ := List.mem_map.1 hx
    have hm := (mem_matching.1 (mem_findPage hqs hqmem)).2
    have ht := listQuery_text hf hq hne
    simp only [QuestionFilter.matches, ht, Option.all_some, Bool.and_eq_true,
      decide_eq_true_eq] at hm
    simpa [populate] using hm.2

theorem listing_order_newest_first_witness :
    ([populate sampleStore irrigation, populate sampleStore soilTexture].map
      fun x => x.doc).Pairwise NewestFirst ∧
    0 < sampleEnv.textScore "soil" (populate sampleStore irrigation).doc.title
      (populate sampleStore irrigation).doc.body ∧
    0 < sampleEnv.textScore "soil" (populate sampleStore soilTexture).doc.title
      (populate sampleStore soilTexture).doc.body :=
  have h := listing_order_newest_first sampleEnv sampleStore none
    { noParams with q := some "soil" }
    [populate sampleStore irrigation, populate sampleStore soilTexture] ⟨2, 1, 10, some 1⟩
    (by decide)
  ⟨h.1, h.2 "soil" rfl (by decide) _ (List.mem_cons_self _ _),
    h.2 "soil" rfl (by decide) _ (List.mem_cons_of_mem _ (List.mem_cons_self _ _))⟩

/-! ## The tag filter -/

theorem splitAux_ne_nil (sep : Char) (acc cs : List Char) : splitAux sep acc cs ≠ [] := by
  induction cs generalizing acc with
  | nil => simp [splitAux]
  | cons c cs ih =>
    simp only [splitAux]
    split
    · simp
    · exact ih _

theorem intercalate_splitAux (sep : Char) (acc cs : List Char) :
    List.intercalate [sep] (splitAux sep acc cs) = acc.reverse ++ cs := by
  induction cs generalizing acc with
  | nil => simp [splitAux, List.intercalate]
  | cons c cs ih =>
    simp only [splitAux]
    split
    · rename_i hc
      have h0 := ih []
      cases hs : splitAux sep [] cs with
      | nil => exact absurd hs (splitAux_ne_nil sep [] cs)
      | cons y l =>
        rw [hs] at h0
        have : List.intercalate [sep] (acc.reverse :: y :: l) =
            acc.reverse ++ [sep] ++ List.intercalate [sep] (y :: l) := by
          simp [List.intercalate, List.intersperse]
        rw [this, h0, hc]
        simp
    · rw [ih]
      simp

theorem not_mem_splitAux (sep : Char) (acc cs : List Char) (hacc : sep ∉ acc) :
    ∀ seg ∈ splitAux sep acc cs, sep ∉ seg := by
  induction cs generalizing acc with
  | nil =>
    intro seg hseg
    simp only [splitAux, List.mem_singleton] at hseg
    subst hseg
    simpa using hacc
  | cons c cs ih =>
    intro seg hseg
    simp only [splitAux] at hseg
    split at hseg
    · rcases List.mem_cons.1 hseg with h | h
      · subst h
        simpa using hacc
      · exact ih [] (by simp) seg h
    · rename_i hc
      refine ih (c :: acc) ?_ seg hseg
      simp only [List.mem_cons, not_or]
      exact ⟨fun h => hc h.symm, hacc⟩

/-- The segments of `splitOn`, joined by the separator, give the string back,
and no segment contains the separator. -/
theorem splitOn_spec (sep : Char) (cs : List Char) :
    List.intercalate [sep] (splitOn sep cs) = cs ∧ ∀ seg ∈ splitOn sep cs, sep ∉ seg :=
  ⟨by simpa using intercalate_splitAux sep [] cs, not_mem_splitAux sep [] cs (by simp)⟩

/-- What `jsTrim` removes is white space on both sides, and what it leaves
neither starts nor ends with white space. -/
theorem jsTrim_spec (cs : List Char) :
    (∃ pre post, cs = pre ++ jsTrim cs ++ post ∧
      (∀ c ∈ pre, isJsSpace c = true) ∧ (∀ c ∈ post, isJsSpace c = true)) ∧
    (∀ c, (jsTrim cs).head? = some c → isJsSpace c = false) ∧
    (∀ c, (jsTrim cs).getLast? = some c → isJsSpace c = false) := by
  have hlast : ∀ c, (jsTrim cs).getLast? = some c → isJsSpace c = false := by
    intro c hc
    unfold jsTrim at hc
    rw [List.getLast?_reverse] at hc
    have := List.head?_dropWhile_not isJsSpace (cs.dropWhile isJsSpace).reverse
    rw [hc] at this
    exact this
  have hsplit : cs.dropWhile isJsSpace =
      jsTrim cs ++ ((cs.dropWhile isJsSpace).reverse.takeWhile isJsSpace).reverse := by
    have := List.takeWhile_append_dropWhile isJsSpace (cs.dropWhile isJsSpace).reverse
    have h2 := congrArg List.reverse this
    rw [List.reverse_append, List.reverse_reverse] at h2
    exact h2.symm
  refine ⟨⟨cs.takeWhile isJsSpace,
      ((cs.dropWhile isJsSpace).reverse.takeWhile isJsSpace).reverse, ?_, ?_, ?_⟩, ?_, hlast⟩
  · rw [List.append_assoc, ← hsplit, List.takeWhile_append_dropWhile]
  · exact fun c hc => List.mem_takeWhile_imp hc
  · exact fun c hc => List.mem_takeWhile_imp (List.mem_reverse.1 hc)
  · intro c hc
    have hne : jsTrim cs ≠ [] := by
      intro h
      rw [h] at hc
      cases hc
    have := List.head?_dropWhile_not isJsSpace cs
    rw [hsplit, List.head?_append_of_ne_nil _ hne, hc] at this
    exact this

theorem listQuery_tags {env : Env} {s : Store} {user : Option User} {p : ListParams}
    {f : QuestionFilter} {tags : String} (h : listQuery env s user p = some f)
    (hp : p.tags = some (.str tags)) (hne : tags ≠ "") : f.tags = some (tagArray tags) := by
  obtain ⟨q1, q2, q3, q4, q5, q6, -, -, -, -, -, h6, h7⟩ := listQuery_steps h
  have e6 : q6.tags = some (tagArray tags) := by
    rcases tagsFilter_some h6 with ⟨hpr, -⟩ | ⟨t, ht, -, rfl⟩
    · rw [hp] at hpr
      simp [present, hne] at hpr
    · rw [hp] at ht
      cases ht
      rfl
  rcases textFilter_some h7 with ⟨-, rfl⟩ | ⟨_, -, -, rfl⟩ <;> exact e6

/-- C8, at a concrete request: an empty `tags` string builds no tag filter,
so a question tagged `x` is returned although it shares no element with the
split of the empty string, the list holding the empty string. -/
theorem empty_tags_string_is_no_filter :
    getQuestions sampleEnv sampleStore none { noParams with tags := some "" } =
      ⟨200, .listing [populate sampleStore irrigation, populate sampleStore soilTexture]
        ⟨2, 1, 10, some 1⟩⟩ ∧
    listQuery sampleEnv sampleStore none { noParams with tags := some "" } =
      some ⟨some true, none, none, none, none, none, none⟩ ∧
    tagArray "" = [""] ∧
    ¬ ∃ t ∈ irrigation.tags, t ∈ tagArray "" := by
  decide

/-- C8, amended. For a non-empty `tags` string the filter set is the list of
the comma-separated segments of the string, each trimmed of surrounding white
space, and a question passes the tag filter exactly when one of its tags is
in that list. -/
theorem tags_filter_or_semantics (env : Env) (s : Store) (user : Option User)
    (p : ListParams) (tags : String) (f : QuestionFilter)
    (hp : p.tags = some tags) (hne : tags ≠ "") (hf : listQuery env s user p = some f) :
    f.tags = some (tagArray tags) ∧
    (tagArray tags).map String.toList = (splitOn ',' tags.toList).map jsTrim ∧
    (List.intercalate [','] (splitOn ',' tags.toList) = tags.toList ∧
      ∀ seg ∈ splitOn ',' tags.toList, ',' ∉ seg) ∧
    (∀ seg, (∃ pre post, seg = pre ++ jsTrim seg ++ post ∧
        (∀ c ∈ pre, isJsSpace c = true) ∧ (∀ c ∈ post, isJsSpace c = true)) ∧
      (∀ c, (jsTrim seg).head? = some c → isJsSpace c = false) ∧
      (∀ c, (jsTrim seg).getLast? = some c → isJsSpace c = false)) ∧
    (∀ q, f.matches env q = true ↔
      (∃ t ∈ q.tags, t ∈ tagArray tags) ∧
        ({ f with tags := none } : QuestionFilter).matches env q = true) := by
  have ht : f.tags = some (tagArray tags) := listQuery_tags hf hp hne
  refine ⟨ht, ?_, splitOn_spec ',' tags.toList, jsTrim_spec, fun q => ?_⟩
  · simp [tagArray, Function.comp_def]
  · simp only [QuestionFilter.matches, ht, Option.all_some, Option.all_none, Bool.and_eq_true,
      Bool.and_true, List.any_eq_true, decide_eq_true_eq]
    tauto

theorem tags_filter_or_semantics_witness :
    (some ⟨some true, none, none, none, none, some ["a", "b"], none⟩ : Option QuestionFilter) =
      some ⟨some true, none, none, none, none, some (tagArray "a, b"), none⟩ ∧
    (∃ t ∈ soilTexture.tags, t ∈ tagArray "a, b") ∧
    ¬ (∃ t ∈ cropRotation.tags, t ∈ tagArray "a, b") ∧
    ((⟨some true, none, none, none, none, some ["a", "b"], none⟩ : QuestionFilter).matches
      sampleEnv soilTexture = true ↔
      (∃ t ∈ soilTexture.tags, t ∈ tagArray "a, b") ∧
        (⟨some true, none, none, none, none, none, none⟩ : QuestionFilter).matches
          sampleEnv soilTexture = true) :=
  ⟨by decide, by decide, by decide,
    (tags_filter_or_semantics sampleEnv sampleStore none { noParams with tags := some "a, b" }
      "a, b" ⟨some true, none, none, none, none, some ["a", "b"], none⟩ rfl (by decide)
      (by decide)).2.2.2.2 soilTexture⟩

/-! ## The course filter -/

/-- A non-empty course string whose lookup succeeds puts the ids found under
the key `course_id`, and no later step changes the key. -/
theorem listQuery_course {env : Env} {s : Store} {user : Option User} {p : ListParams}
    {f : QuestionFilter} {course : String} (h : listQuery env s user p = some f)
    (hc : p.course = some (.str course)) (hne : course ≠ "") :
    ∃ ids, resolveCourseIds env s course = some ids ∧ f.course_id = some ids := by
  obtain ⟨q1, q2, q3, q4, q5, q6, -, h2, h3, h4, h5, h6, h7⟩ := listQuery_steps h
  obtain ⟨ids, hids, e2⟩ : ∃ ids, resolveCourseIds env s course = some ids ∧
      q2.course_id = some ids := by
    rcases courseFilter_some h2 with ⟨hpr, -⟩ | ⟨c, ids, hc', -, hids, rfl⟩
    · rw [hc] at hpr
      simp [present, hne] at hpr
    · rw [hc] at hc'
      cases hc'
      exact ⟨ids, hids, rfl⟩
  have e3 : q3.course_id = q2.course_id := by
    rcases yearFilter_some h3 with rfl | ⟨_, rfl⟩ <;> rfl
  have e4 : q4.course_id = q3.course_id := by
    rw [h4]
    split <;> rfl
  have e5 : q5.course_id = q4.course_id := by
    rw [h5]
    split <;> rfl
  have e6 : q6.course_id = q5.course_id := by
    rcases tagsFilter_some h6 with ⟨-, rfl⟩ | ⟨_, -, -, rfl⟩ <;> rfl
  have e7 : f.course_id = q6.course_id := by
    rcases textFilter_some h7 with ⟨-, rfl⟩ | ⟨_, -, -, rfl⟩ <;> rfl
  exact ⟨ids, hids, by rw [e7, e6, e5, e4, e3, e2]⟩

/-- Without a course parameter, or with an empty one, the predicate has no
key `course_id`. -/
theorem listQuery_no_course {env : Env} {s : Store} {user : Option User} {p : ListParams}
    {f : QuestionFilter} (h : listQuery env s user p = some f)
    (hc : present p.course = false) : f.course_id = none := by
  obtain ⟨q1, q2, q3, q4, q5, q6, h1, h2, h3, h4, h5, h6, h7⟩ := listQuery_steps h
  have e1 : q1.course_id = none := by
    rw [h1]
    split <;> rfl
  have e2 : q2.course_id = q1.course_id := by
    rcases courseFilter_some h2 with ⟨-, rfl⟩ | ⟨c, ids, hc', hne, -, -⟩
    · rfl
    · rw [hc'] at hc
      simp [present, hne] at hc
  have e3 : q3.course_id = q2.course_id := by
    rcases yearFilter_some h3 with rfl | ⟨_, rfl⟩ <;> rfl
  have e4 : q4.course_id = q3.course_id := by
    rw [h4]
    split <;> rfl
  have e5 : q5.course_id = q4.course_id := by
    rw [h5]
    split <;> rfl
  have e6 : q6.course_id = q5.course_id := by
    rcases tagsFilter_some h6 with ⟨-, rfl⟩ | ⟨_, -, -, rfl⟩ <;> rfl
  have e7 : f.course_id = q6.course_id := by
    rcases textFilter_some h7 with ⟨-, rfl⟩ | ⟨_, -, -, rfl⟩ <;> rfl
  rw [e7, e6, e5, e4, e3, e2, e1]

/-- A course string that the database rejects as a pattern leaves no
predicate: the lookup throws. -/
theorem listQuery_course_rejected {env : Env} {s : Store} (user : Option User) {p : ListParams}
    {course : String} (hc : p.course = some (.str course)) (hne : course ≠ "")
    (hr : env.regex course = none) : listQuery env s user p = none := by
  have hcf : ∀ q, courseFilter env s p.course q = none := by
    intro q
    unfold courseFilter
    rw [hc, if_pos (by simp [present, hne])]
    simp [resolveCourseIds, hr]
  unfold listQuery
  dsimp only
  rw [hcf]
  rfl

/-- With a course string and no other parameter that can throw, the
predicate is built as soon as the database accepts the pattern. -/
theorem listQuery_course_built {env : Env} {s : Store} (user : Option User) {p : ListParams}
    {course : String} {m : String → Bool} (hc : p.course = some (.str course))
    (hr : env.regex course = some m) (hy : p.year = none) (ht : p.tags = none)
    (hq : p.q = none) : (listQuery env s user p).isSome = true := by
  by_cases hne : course = "" <;>
    simp [listQuery, courseFilter, yearFilter, tagsFilter, textFilter, resolveCourseIds,
      present, hne, hc, hy, ht, hq, hr]

theorem exportQuery_course {env : Env} {s : Store} {p : ExportParams} {f : QuestionFilter}
    {course : String} (h : exportQuery env s p = some f)
    (hc : p.course = some (.str course)) (hne : course ≠ "") :
    ∃ ids, resolveCourseIds env s course = some ids ∧ f.course_id = some ids := by
  unfold exportQuery at h
  dsimp only at h
  obtain ⟨q1, h1, h2⟩ := Option.bind_eq_some.1 h
  obtain ⟨ids, hids, e1⟩ : ∃ ids, resolveCourseIds env s course = some ids ∧
      q1.course_id = some ids := by
    rcases courseFilter_some h1 with ⟨hpr, -⟩ | ⟨c, ids, hc', -, hids, rfl⟩
    · rw [hc] at hpr
      simp [present, hne] at hpr
    · rw [hc] at hc'
      cases hc'
      exact ⟨ids, hids, rfl⟩
  have e2 : f.course_id = q1.course_id := by
    rcases yearFilter_some h2 with rfl | ⟨_, rfl⟩ <;> rfl
  exact ⟨ids, hids, by rw [e2, e1]⟩

theorem exportQuery_course_rejected {env : Env} {s : Store} {p : ExportParams}
    {course : String} (hc : p.course = some (.str course)) (hne : course ≠ "")
    (hr : env.regex course = none) : exportQuery env s p = none := by
  unfold exportQuery courseFilter
  dsimp only
  rw [hc, if_pos (by simp [present, hne])]
  simp [resolveCourseIds, hr]

theorem exportQuery_no_course {env : Env} {s : Store} {p : ExportParams} {f : QuestionFilter}
    (h : exportQuery env s p = some f) (hc : present p.course = false) :
    f.course_id = none := by
  unfold exportQuery at h
  dsimp only at h
  obtain ⟨q1, h1, h2⟩ := Option.bind_eq_some.1 h
  have e1 : q1.course_id = none := by
    rcases courseFilter_some h1 with ⟨-, rfl⟩ | ⟨c, ids, hc', hne, -, -⟩
    · rfl
    · rw [hc'] at hc
      simp [present, hne] at hc
  have e2 : f.course_id = q1.course_id := by
    rcases yearFilter_some h2 with rfl | ⟨_, rfl⟩ <;> rfl
  rw [e2, e1]

theorem exportQuery_course_built {env : Env} {s : Store} {p : ExportParams}
    {course : String} {m : String → Bool} (hc : p.course = some (.str course))
    (hr : env.regex course = some m) (hy : p.year = none) :
    (exportQuery env s p).isSome = true := by
  by_cases hne : course = "" <;>
    simp [exportQuery, courseFilter, yearFilter, resolveCourseIds, present, hne, hc, hy, hr]

/-- A predicate is built exactly when no step throws: the course, when given
and not empty, is one string that the database accepts as a pattern; the
year, when given and not empty, parses to a number; `tags` and `q` are not
repeated. -/
theorem listQuery_isSome_iff (env : Env) (s : Store) (user : Option User) (p : ListParams) :
    (listQuery env s user p).isSome = true ↔
      (present p.course = true →
        ∃ course, p.course = some (.str course) ∧ (env.regex course).isSome = true) ∧
      (present p.year = true →
        jsParseInt ((p.year.map QueryValue.toString).getD "") ≠ .nan) ∧
      (∀ items, p.tags ≠ some (.list items)) ∧
      (∀ items, p.q ≠ some (.list items)) := by
  have hcourse : ∀ q, (courseFilter env s p.course q).isSome = true ↔
      (present p.course = true →
        ∃ course, p.course = some (.str course) ∧ (env.regex course).isSome = true) := by
    intro q
    unfold courseFilter
    rcases hp : p.course with _ | ⟨c⟩ | ⟨l⟩
    · simp [present]
    · by_cases hne : c = ""
      · simp [present, hne]
      · simp [present, hne, resolveCourseIds]
    · simp [present]
  have hyear : ∀ q, (yearFilter p.year q).isSome = true ↔
      (present p.year = true →
        jsParseInt ((p.year.map QueryValue.toString).getD "") ≠ .nan) := by
    intro q
    unfold yearFilter
    split
    · rename_i hpr
      simp only [hpr, forall_const]
      split
      · rename_i hn
        simp [hn]
      · rename_i hn
        simp only [Option.isSome_some, true_iff]
        exact fun h => hn h
    · rename_i hpr
      simp [hpr]
  have htags : ∀ q, (tagsFilter p.tags q).isSome = true ↔
      ∀ items, p.tags ≠ some (.list items) := by
    intro q
    unfold tagsFilter
    rcases hp : p.tags with _ | ⟨c⟩ | ⟨l⟩
    · simp [present]
    · by_cases hne : c = "" <;> simp [present, hne]
    · simp [present]
  have htext : ∀ q, (textFilter p.q q).isSome = true ↔
      ∀ items, p.q ≠ some (.list items) := by
    intro q
    unfold textFilter
    rcases hp : p.q with _ | ⟨c⟩ | ⟨l⟩
    · simp [present]
    · by_cases hne : c = "" <;> simp [present, hne]
    · simp [present]
  unfold listQuery
  dsimp only
  simp only [Option.isSome_iff_exists, Option.bind_eq_some] at *
  constructor
  · rintro ⟨f, q2, h2, q3, h3, q6, h6, h7⟩
    exact ⟨(hcourse _).1 ⟨q2, h2⟩, (hyear _).1 ⟨q3, h3⟩, (htags _).1 ⟨q6, h6⟩,
      (htext _).1 ⟨f, h7⟩⟩
  · rintro ⟨h2, h3, h6, h7⟩
    obtain ⟨q2, h2⟩ := (hcourse _).2 h2
    obtain ⟨q3, h3⟩ := (hyear q2).2 h3
    obtain ⟨q6, h6⟩ := (htags _).2 h6
    obtain ⟨f, h7⟩ := (htext q6).2 h7
    exact ⟨f, q2, h2, q3, h3, q6, h6, h7⟩

/-- C9, at concrete requests: by literal matching the string `(` is contained
in no course name or code, yet the database rejects it as a pattern and the
answer is the 500 of the handler's `catch`; with a course that matches
nothing, a year `abc`, a repeated `tags` parameter or a repeated `q`
parameter is answered 500 as well; `limit=0` gives `pages: null`, not 0; and
the page `2^53 + 1` is echoed as `2^53`. -/
theorem unmatched_course_can_be_error :
    specCourseIds Char.toLower sampleStore "(" = [] ∧
    resolveCourseIds sampleEnv sampleStore "(" = none ∧
    getQuestions sampleEnv sampleStore none { noParams with course := some "(" } =
      ⟨500, .message "Failed to fetch questions"⟩ ∧
    resolveCourseIds sampleEnv sampleStore "zoology" = some [] ∧
    getQuestions sampleEnv sampleStore none
        { noParams with course := some "zoology", year := some "abc" } =
      ⟨500, .message "Failed to fetch questions"⟩ ∧
    getQuestions sampleEnv sampleStore none
        { noParams with course := some "zoology", tags := some (.list ["a", "b"]) } =
      ⟨500, .message "Failed to fetch questions"⟩ ∧
    getQuestions sampleEnv sampleStore none
        { noParams with course := some "zoology", q := some (.list ["a", "b"]) } =
      ⟨500, .message "Failed to fetch questions"⟩ ∧
    getQuestions sampleEnv sampleStore none
        { noParams with course := some "zoology", limit := some 0 } =
      ⟨200, .listing [] ⟨0, 1, 0, none⟩⟩ ∧
    getQuestions sampleEnv sampleStore none
        { noParams with course := some "zoology", page := some 9007199254740993 } =
      ⟨200, .listing [] ⟨0, 9007199254740992, 10, some 0⟩⟩ := by
  decide

/-- C9, amended. When the course parameter is a non-empty string that the
database accepts as a pattern and that matches no course, the year, when
given and not empty, parses to a number, and `tags` and `q` are not repeated,
then, for a page from 1 to 2^53 and a limit from 1 to 100, whatever the values
of the filters and whatever the actor, the answer is 200 with an empty list,
`total = 0`, `pages = 0`, and `page` and `limit` echoed. -/
theorem listing_no_course_is_empty (env : Env) (s : Store) (user : Option User)
    (p : ListParams) (course : String) (P L : Nat)
    (hc : p.course = some (.str course)) (hne : course ≠ "")
    (hr : resolveCourseIds env s course = some [])
    (hy : present p.year = true →
      jsParseInt ((p.year.map QueryValue.toString).getD "") ≠ .nan)
    (ht : ∀ items, p.tags ≠ some (.list items)) (hq : ∀ items, p.q ≠ some (.list items))
    (hP : p.page.getD 1 = (P : Int)) (hL : p.limit.getD 10 = (L : Int))
    (hP1 : 1 ≤ P) (hP53 : P ≤ 2 ^ 53) (hL1 : 1 ≤ L) (hL100 : L ≤ 100) :
    getQuestions env s user p = ⟨200, .listing [] ⟨0, P, L, some 0⟩⟩ := by
  have hf : (listQuery env s user p).isSome = true := by
    rw [listQuery_isSome_iff]
    refine ⟨fun _ => ⟨course, hc, ?_⟩, hy, ht, hq⟩
    unfold resolveCourseIds at hr
    obtain ⟨m, hm, -⟩ := Option.map_eq_some'.1 hr
    rw [hm]
    rfl
  obtain ⟨f, hf⟩ := Option.isSome_iff_exists.1 hf
  obtain ⟨ids, hids, hfc⟩ := listQuery_course hf hc hne
  rw [hr] at hids
  cases hids
  have hM : matching env s f = [] := by
    apply List.eq_nil_iff_forall_not_mem.2
    intro q hq
    have hm := (mem_matching.1 hq).2
    simp [QuestionFilter.matches, hfc] at hm
  rw [getQuestions_paged env s user p f P L hf hP hL hP1 hP53 hL1 hL100 (by rw [hM]; simp), hM]
  simp

theorem listing_no_course_is_empty_witness :
    getQuestions sampleEnv sampleStore (some root) zoologyParams =
      ⟨200, .listing [] ⟨0, (1 : Nat), (5 : Nat), some 0⟩⟩ :=
  listing_no_course_is_empty sampleEnv sampleStore (some root) zoologyParams "zoology" 1 5
    rfl (by decide) (by decide) (by decide) (by simp [zoologyParams]) (by simp [zoologyParams])
    (by decide) (by decide) (by decide) (by decide) (by decide) (by decide)

/-! ## Patterns without metacharacters -/

theorem parseItem_plain (f : Frame) (stack : List Frame) (quant : Bool) (c : Char)
    (hc : c ∉ metaChars) :
    parseItem f stack quant c = some ⟨{ f with cur := .lit c :: f.cur }, stack, .item true⟩ := by
  simp only [metaChars, List.mem_cons, List.mem_singleton, List.not_mem_nil, or_false,
    not_or] at hc
  obtain ⟨h1, h2, h3, h4, h5, h6, h7, h8, h9, h10, h11, h12⟩ := hc
  unfold parseItem
  rw [if_neg h1, if_neg h9, if_neg h10, if_neg h5, if_neg (by simp [h6, h7, h8]),
    if_neg (by simp [h11, h12]), if_neg h4, if_neg h2, if_neg h3]

theorem parseAux_plain (cs : List Char) (hcs : ∀ c ∈ cs, c ∉ metaChars) (alts cur : List Regex)
    (quant : Bool) :
    parseAux cs ⟨⟨alts, cur⟩, [], .item quant⟩ =
      some (altOf (alts ++ [seqOf (cur.reverse ++ cs.map Regex.lit)])) := by
  induction cs generalizing cur quant with
  | nil => simp [parseAux, Frame.close]
  | cons c cs ih =>
    have hc := hcs c (List.mem_cons_self _ _)
    simp only [parseAux, parseStep, parseItem_plain _ _ _ c hc]
    rw [ih (fun d hd => hcs d (List.mem_cons_of_mem _ hd))]
    simp

/-- A pattern without metacharacters parses to the sequence of its letters. -/
theorem parseRegex_plain (cs : List Char) (hcs : ∀ c ∈ cs, c ∉ metaChars) :
    parseRegex cs = some (seqOf (cs.map Regex.lit)) := by
  unfold parseRegex
  rw [parseAux_plain cs hcs]
  simp [altOf]

theorem rems_seqOf_cons (r : Regex) (rs : List Regex) (p : Pos) :
    (seqOf (r :: rs)).rems p = (r.rems p).flatMap (seqOf rs).rems := by
  cases rs with
  | nil =>
    simp only [seqOf]
    have : (Regex.eps).rems = fun p => [p] := by
      funext p
      simp [Regex.rems]
    rw [this]
    simp
  | cons r' rs' => simp [seqOf, Regex.rems]

/-- A sequence of letters matches at a position exactly when it is, up to
case, a prefix of what remains. -/
theorem rems_lits (cs : List Char) (st : Bool) (w : List Char) :
    ((seqOf (cs.map Regex.lit)).rems (st, w)).isEmpty = false ↔
      cs.map Char.toLower <+: w.map Char.toLower := by
  induction cs generalizing st w with
  | nil => simp [seqOf, Regex.rems]
  | cons c cs ih =>
    rw [List.map_cons, rems_seqOf_cons]
    cases w with
    | nil => simp [Regex.rems]
    | cons d t =>
      simp only [Regex.rems, List.map_cons, List.cons_prefix_cons]
      by_cases hd : d.toLower = c.toLower
      · rw [if_pos hd]
        simp only [List.flatMap_cons, List.flatMap_nil, List.append_nil]
        rw [ih false t]
        exact ⟨fun h => ⟨hd.symm, h⟩, fun h => h.2⟩
      · rw [if_neg hd]
        simp only [List.flatMap_nil, List.isEmpty_nil, Bool.true_eq_false, false_iff, not_and]
        exact fun h => absurd h.symm hd

/-- Searching for a sequence of letters is the case-insensitive substring
test. -/
theorem searchFrom_lits (cs : List Char) (st : Bool) (w : List Char) :
    (seqOf (cs.map Regex.lit)).searchFrom st w = true ↔
      cs.map Char.toLower <:+: w.map Char.toLower := by
  induction w generalizing st with
  | nil =>
    simp only [Regex.searchFrom, Bool.not_eq_true', rems_lits, List.map_nil]
    exact ⟨fun h => h.isInfix, fun h => by rw [List.infix_nil] at h; rw [h]⟩
  | cons d t ih =>
    simp only [Regex.searchFrom, Bool.or_eq_true, Bool.not_eq_true', rems_lits, ih,
      List.map_cons]
    rw [List.infix_cons_iff]

/-- On a pattern without metacharacters the fragment engine is the
case-insensitive substring test. -/
theorem fragmentRegex_plain (pattern : String) (hp : ∀ c ∈ pattern.toList, c ∉ metaChars) :
    ∃ m, fragmentRegex pattern = some m ∧
      ∀ subject, m subject = true ↔ ContainsCaseless Char.toLower pattern subject := by
  refine ⟨fun subject => (seqOf (pattern.toList.map Regex.lit)).search subject.toList, ?_, ?_⟩
  · unfold fragmentRegex
    rw [parseRegex_plain _ hp]
    rfl
  · intro subject
    exact searchFrom_lits _ _ _

/-- The sample engine reads every pattern without metacharacters literally. -/
theorem fragmentRegex_reads_plain_literally (env : Env) (henv : env.regex = fragmentRegex)
    (pattern : String) (hp : ∀ c ∈ pattern.toList, c ∉ metaChars) :
    ReadsLiterally env Char.toLower pattern := by
  unfold ReadsLiterally
  rw [henv]
  exact fragmentRegex_plain pattern hp

/-- When the engine reads the string literally, the lookup finds the courses
that contain it. -/
theorem resolveCourseIds_literal (env : Env) (fold : Char → Char) (s : Store)
    (course : String) (henv : ReadsLiterally env fold course) :
    resolveCourseIds env s course = some (specCourseIds fold s course) := by
  obtain ⟨m, hm, hspec⟩ := henv
  unfold resolveCourseIds specCourseIds
  rw [hm]
  simp only [Option.map_some', Option.some.injEq]
  congr 1
  apply List.filter_congr
  intro c _
  rw [Bool.eq_iff_iff]
  simp [hspec]

/-- C10, at a concrete request: the string `.` is contained in the code of one
course only, but as a pattern it matches every course; the string `(` is a
literal substring of no course and as a pattern is rejected. -/
theorem course_string_read_as_pattern :
    specCourseIds Char.toLower sampleStore "." = [17] ∧
    resolveCourseIds sampleEnv sampleStore "." = some [16, 17] ∧
    (listQuery sampleEnv sampleStore none { noParams with course := some "." }).map
      (fun f => f.course_id) = some (some [16, 17]) ∧
    (exportQuery sampleEnv sampleStore ⟨some ".", none, none⟩).map
      (fun f => f.course_id) = some (some [16, 17]) ∧
    exportQuery sampleEnv sampleStore ⟨some "(", none, none⟩ = none := by
  decide

/-- C10, amended. For every regular-expression engine, store and non-empty
course string, in `getQuestions` and in `exportQuestions`: the key `course_id`
of the predicate holds exactly the ids of the courses whose name or code the
engine matches for the string as a pattern; a string the engine rejects is
answered 500; with no other parameter that can throw the predicate is built
whenever the pattern is accepted; an empty or absent course parameter sets no
key `course_id` in either handler; and whenever the engine reads the string as
literal text, as engines do with a string without metacharacters, the ids are
exactly those of the courses whose name or code contains it as a
case-insensitive literal substring. -/
theorem course_lookup_is_pattern_search (env : Env) (s : Store) :
    (∀ (user : Option User) (p : ListParams) (course : String),
      p.course = some (.str course) → course ≠ "" →
      (∀ f, listQuery env s user p = some f →
        ∃ m, env.regex course = some m ∧
          f.course_id =
            some ((s.courses.filter fun c => m c.name || m c.code).map fun c => c._id)) ∧
      (env.regex course = none →
        getQuestions env s user p = ⟨500, .message "Failed to fetch questions"⟩) ∧
      ((env.regex course).isSome = true → p.year = none → p.tags = none → p.q = none →
        (listQuery env s user p).isSome = true)) ∧
    (∀ (p : ExportParams) (course : String),
      p.course = some (.str course) → course ≠ "" →
      (∀ f, exportQuery env s p = some f →
        ∃ m, env.regex course = some m ∧
          f.course_id =
            some ((s.courses.filter fun c => m c.name || m c.code).map fun c => c._id)) ∧
      (env.regex course = none →
        exportQuestions env s p = ⟨500, .message "Failed to export questions"⟩) ∧
      ((env.regex course).isSome = true → p.year = none →
        (exportQuery env s p).isSome = true)) ∧
    (∀ (user : Option User) (p : ListParams) (f : QuestionFilter),
      present p.course = false → listQuery env s user p = some f → f.course_id = none) ∧
    (∀ (p : ExportParams) (f : QuestionFilter),
      present p.course = false → exportQuery env s p = some f → f.course_id = none) ∧
    (∀ (fold : Char → Char) (course : String), course ≠ "" → ReadsLiterally env fold course →
      (∀ (user : Option User) (p : ListParams) (f : QuestionFilter),
        p.course = some (.str course) → listQuery env s user p = some f →
        f.course_id = some (specCourseIds fold s course)) ∧
      (∀ (p : ExportParams) (f : QuestionFilter),
        p.course = some (.str course) → exportQuery env s p = some f →
        f.course_id = some (specCourseIds fold s course)) ∧
      (∀ id, id ∈ specCourseIds fold s course ↔
        ∃ c ∈ s.courses, c._id = id ∧
          (ContainsCaseless fold course c.name ∨ ContainsCaseless fold course c.code))) := by
  have hres : ∀ course ids, resolveCourseIds env s course = some ids →
      ∃ m, env.regex course = some m ∧
        ids = (s.courses.filter fun c => m c.name || m c.code).map fun c => c._id := by
    intro course ids h
    unfold resolveCourseIds at h
    obtain ⟨m, hm, rfl⟩ := Option.map_eq_some'.1 h
    exact ⟨m, hm, rfl⟩
  refine ⟨fun user p course hc hne => ⟨fun f hf => ?_, fun hr => ?_, fun hr hy ht hq => ?_⟩,
    fun p course hc hne => ⟨fun f hf => ?_, fun hr => ?_, fun hr hy => ?_⟩,
    fun user p f hc hf => listQuery_no_course hf hc,
    fun p f hc hf => exportQuery_no_course hf hc,
    fun fold course hne hlaw => ⟨fun user p f hc hf => ?_, fun p f hc hf => ?_,
      fun id => ?_⟩⟩
  · obtain ⟨ids, hids, hfc⟩ := listQuery_course hf hc hne
    obtain ⟨m, hm, rfl⟩ := hres course ids hids
    exact ⟨m, hm, hfc⟩
  · unfold getQuestions
    rw [listQuery_course_rejected user hc hne hr]
  · obtain ⟨m, hm⟩ := Option.isSome_iff_exists.1 hr
    exact listQuery_course_built user hc hm hy ht hq
  · obtain ⟨ids, hids, hfc⟩ := exportQuery_course hf hc hne
    obtain ⟨m, hm, rfl⟩ := hres course ids hids
    exact ⟨m, hm, hfc⟩
  · unfold exportQuestions
    rw [exportQuery_course_rejected hc hne hr]
  · obtain ⟨m, hm⟩ := Option.isSome_iff_exists.1 hr
    exact exportQuery_course_built hc hm hy
  · obtain ⟨ids, hids, hfc⟩ := listQuery_course hf hc hne
    rw [resolveCourseIds_literal env fold s course hlaw] at hids
    cases hids
    exact hfc
  · obtain ⟨ids, hids, hfc⟩ := exportQuery_course hf hc hne
    rw [resolveCourseIds_literal env fold s course hlaw] at hids
    cases hids
    exact hfc
  · simp only [specCourseIds, List.mem_map, List.mem_filter, decide_eq_true_eq]
    constructor
    · rintro ⟨c, ⟨hc, hm⟩, rfl⟩
      exact ⟨c, hc, rfl, hm⟩
    · rintro ⟨c, hc, rfl, hm⟩
      exact ⟨c, ⟨hc, hm⟩, rfl⟩

theorem course_lookup_is_pattern_search_witness :
    (⟨some true, some [16], none, none, none, none, none⟩ : QuestionFilter).course_id =
      some (specCourseIds Char.toLower sampleStore "ss1") ∧
    specCourseIds Char.toLower sampleStore "ss1" = [16] ∧
    (listQuery sampleEnv sampleStore none { noParams with course := some "ss1" }).isSome = true :=
  ⟨((course_lookup_is_pattern_search sampleEnv sampleStore).2.2.2.2 Char.toLower "ss1"
      (by decide) (fragmentRegex_reads_plain_literally sampleEnv rfl "ss1" (by decide))).1 none
      { noParams with course := some "ss1" } ⟨some true, some [16], none, none, none, none, none⟩
      rfl (by decide),
    by decide,
    ((course_lookup_is_pattern_search sampleEnv sampleStore).1 none
      { noParams with course := some "ss1" } "ss1" rfl (by decide)).2.2 (by decide) rfl rfl rfl⟩

/-! ## `createQuestion` -/

/-- C11, on the code: `xyz` references no course, and the route declares the
check `isMongoId` with the message `Valid course ID is required`; the chain
records the message and calls `next()`, `Course.findById` throws on the cast,
and the request is answered 500, not 400 (nothing is stored); so is an empty
`course_id`. A well-formed id of no course is answered 400. -/
theorem createQuestion_malformed_course_id_is_500 :
    castObjectId "xyz" = none ∧
    runMiddleware sampleEnv
        (authenticate :: (createValidators malformedCourseBody.fields).map check) sampleStore
        malformedCourseRequest.req =
      .next sampleStore
        ⟨some "Bearer token-alice", noParams, some alice, ["Valid course ID is required"]⟩ ∧
    dispatch sampleEnv sampleStore malformedCourseRequest =
      some (sampleStore, ⟨500, .message "Failed to create question"⟩) ∧
    createQuestion sampleEnv sampleStore alice malformedCourseBody =
      (sampleStore, ⟨500, .message "Failed to create question"⟩) ∧
    createQuestion sampleEnv sampleStore alice
        ⟨{ soilPhBody.fields with course_id := some "" }, none, none⟩ =
      (sampleStore, ⟨500, .message "Failed to create question"⟩) ∧
    createQuestion sampleEnv sampleStore alice
        ⟨{ soilPhBody.fields with course_id := some "0000000000000000000000ff" }, none, none⟩ =
      (sampleStore, ⟨400, .message "Invalid course ID"⟩) := by
  decide

/-- What `createQuestion` does for an authenticated actor: a `course_id` that
is absent or is the well-formed id of no course answers 400 and stores
nothing, one that is not an ObjectId string answers 500 and stores nothing;
otherwise either nothing is stored or exactly one question is appended, whose
`uploadedBy` is the actor's id and whose `approved` is false; the outcome does
not depend on the `uploadedBy` and `approved` keys of the body; and a body
that passes validation, with an existing course, is stored and answered 201. -/
theorem createQuestion_owner_and_pending (env : Env) (s : Store) (user : User)
    (body : QuestionBody) :
    ((body.fields.course_id = none ∨
        ∃ cid, body.fields.course_id.bind castObjectId = some cid ∧
          findCourseById s cid = none) →
      createQuestion env s user body = (s, ⟨400, .message "Invalid course ID"⟩)) ∧
    ((∃ c, body.fields.course_id = some c ∧ castObjectId c = none) →
      createQuestion env s user body = (s, ⟨500, .message "Failed to create question"⟩)) ∧
    (((createQuestion env s user body).1 = s ∧ (createQuestion env s user body).2.status ≠ 201) ∨
      ∃ q, (createQuestion env s user body).1 = { s with questions := s.questions ++ [q] } ∧
        q.uploadedBy = user._id ∧ q.approved = false ∧
        (createQuestion env s user body).2.status = 201) ∧
    (∀ uploadedBy approved,
      createQuestion env s user ⟨body.fields, uploadedBy, approved⟩ =
        createQuestion env s user body) ∧
    (∀ cid, body.fields.course_id.bind castObjectId = some cid →
      (findCourseById s cid).isSome = true → createValid body.fields = true →
      findQuestionById s env.newId = none →
      (createQuestion env s user body).1 =
        { s with questions := s.questions ++ [newQuestion env user body.fields cid] } ∧
      (createQuestion env s user body).2.status = 201) := by
  refine ⟨?_, ?_, ?_, fun _ _ => rfl, ?_⟩
  · rintro (h | ⟨cid, hc, hn⟩)
    · simp [createQuestion, h]
    · obtain ⟨c, hc1, hc2⟩ := Option.bind_eq_some.1 hc
      simp [createQuestion, hc1, hc2, hn]
  · rintro ⟨c, hc1, hc2⟩
    simp [createQuestion, hc1, hc2]
  · unfold createQuestion
    dsimp only
    split
    · exact Or.inl ⟨rfl, by simp⟩
    · split
      · exact Or.inl ⟨rfl, by simp⟩
      · split
        · exact Or.inl ⟨rfl, by simp⟩
        · split
          · exact Or.inr ⟨_, rfl, rfl, rfl, rfl⟩
          · exact Or.inl ⟨rfl, by simp⟩
  · intro cid hc hcourse hvalid hfresh
    obtain ⟨c, hc1, hc2⟩ := Option.bind_eq_some.1 hc
    obtain ⟨course, hcourse⟩ := Option.isSome_iff_exists.1 hcourse
    simp [createQuestion, hc1, hc2, hcourse, hvalid, hfresh]

theorem createQuestion_owner_and_pending_witness :
    (createQuestion sampleEnv sampleStore alice soilPhBody).1 =
      { sampleStore with questions := sampleStore.questions ++
        [newQuestion sampleEnv alice soilPhBody.fields 16] } ∧
    (createQuestion sampleEnv sampleStore alice soilPhBody).2.status = 201 ∧
    (newQuestion sampleEnv alice soilPhBody.fields 16).uploadedBy = 1 ∧
    (newQuestion sampleEnv alice soilPhBody.fields 16).approved = false :=
  ⟨((createQuestion_owner_and_pending sampleEnv sampleStore alice soilPhBody).2.2.2.2 16
      (by decide) (by decide) (by decide) (by decide)).1,
    ((createQuestion_owner_and_pending sampleEnv sampleStore alice soilPhBody).2.2.2.2 16
      (by decide) (by decide) (by decide) (by decide)).2, rfl, rfl⟩

/-! ## `updateQuestion`: what is written -/

theorem find?_replaceQuestion_self {id : ObjectId} {q q' : Question} {l : List Question}
    (h : l.find? (fun x => x._id = id) = some q) (hid : q'._id = id) :
    (replaceQuestion id q' l).find? (fun x => x._id = id) = some q' := by
  induction l with
  | nil => simp at h
  | cons a l ih =>
    simp only [replaceQuestion]
    by_cases ha : a._id = id
    · simp [ha, hid]
    · simp only [ha, if_false, List.find?_cons, decide_False] at h ⊢
      exact ih h

theorem find?_replaceQuestion_other {id id' : ObjectId} {q' : Question} (l : List Question)
    (hne : id' ≠ id) (hid : q'._id = id) :
    (replaceQuestion id q' l).find? (fun x => x._id = id') = l.find? (fun x => x._id = id') := by
  induction l with
  | nil => simp [replaceQuestion]
  | cons a l ih =>
    simp only [replaceQuestion]
    by_cases ha : a._id = id
    · have h1 : ¬ a._id = id' := fun h => hne (h ▸ ha)
      have h2 : ¬ q'._id = id' := fun h => hne (h ▸ hid)
      rw [if_pos ha]
      simp [List.find?_cons, h1, h2]
    · simp only [ha, if_false, List.find?_cons]
      rw [ih]

theorem castObjectId_empty : castObjectId "" = none := by decide

/-- The update is carried out when the present values pass the validators and
a present `course_id` is the id of a course. -/
theorem performUpdate_ok (s : Store) (now : Nat) (id : ObjectId) (q : Question)
    (b : QuestionUpdate) (hv : updateValid b = true)
    (hc : b.course_id = none ∨ ∃ cid, b.course_id.bind castObjectId = some cid ∧
      (findCourseById s cid).isSome = true) :
    performUpdate s now id q b =
      ({ s with questions :=
          replaceQuestion id (applyUpdate q b (b.course_id.bind castObjectId) now) s.questions },
        ⟨200, .question (populate
          { s with questions :=
            (replaceQuestion id (applyUpdate q b (b.course_id.bind castObjectId) now)
              s.questions) }
          (applyUpdate q b (b.course_id.bind castObjectId) now))⟩) := by
  unfold performUpdate
  rcases hc with hc | ⟨cid, hc, hcourse⟩
  · simp [hc, hv]
  · obtain ⟨c, hc1, hc2⟩ := Option.bind_eq_some.1 hc
    obtain ⟨course, hcourse⟩ := Option.isSome_iff_exists.1 hcourse
    have hne : c ≠ "" := by
      intro h
      rw [h, castObjectId_empty] at hc2
      cases hc2
    simp [hc1, hc2, hcourse, hv, hne]

/-- Otherwise nothing is written and the answer is not 200. -/
theorem performUpdate_fail (s : Store) (now : Nat) (id : ObjectId) (q : Question)
    (b : QuestionUpdate)
    (h : ¬ (updateValid b = true ∧ (b.course_id = none ∨
      ∃ cid, b.course_id.bind castObjectId = some cid ∧
        (findCourseById s cid).isSome = true))) :
    (performUpdate s now id q b).1 = s ∧ (performUpdate s now id q b).2.status ≠ 200 := by
  unfold performUpdate
  dsimp only
  split
  · rename_i hc
    split
    · rename_i hv
      exact absurd ⟨hv, Or.inl hc⟩ h
    · exact ⟨rfl, by simp⟩
  · rename_i c hc
    split
    · exact ⟨rfl, by simp⟩
    · split
      · exact ⟨rfl, by simp⟩
      · rename_i cid hcid
        split
        · exact ⟨rfl, by simp⟩
        · rename_i course hcourse
          split
          · rename_i hv
            exact absurd ⟨hv, Or.inr ⟨cid, by simp [hc, hcid], by simp [hcourse]⟩⟩ h
          · exact ⟨rfl, by simp⟩

theorem updateQuestion_permitted (s : Store) (now : Nat) (user : User) (idParam : String)
    (id : ObjectId) (q : Question) (b : QuestionUpdate)
    (hid : castObjectId idParam = some id) (hq : findQuestionById s id = some q)
    (hperm : user.role = "admin" ∨ (q.uploadedBy = user._id ∧ q.approved = false)) :
    updateQuestion s now user idParam b = performUpdate s now id q b := by
  simp only [updateQuestion, hid, hq]
  rcases hperm with h | ⟨h1, h2⟩
  · rw [if_neg (by simp [h]), if_neg (by simp [h])]
  · rw [if_neg (by simp [h1]), if_neg (by simp [h2])]

/-- C12, at concrete requests: the owner of a pending question sends a
`course_id` that is the id of no course, and an `exam_type` outside the enum;
both requests pass the access checks, neither is carried out, and the stored
question keeps its course and its exam type. -/
theorem updateQuestion_present_field_not_taken :
    alice.role ≠ "admin" ∧ cropRotation.uploadedBy = alice._id ∧ cropRotation.approved = false ∧
    updateQuestionBody sampleStore 100 alice "000000000000000000000066" unknownCourseBody =
      (sampleStore, ⟨400, .message "Invalid course ID"⟩) ∧
    castObjectId "0000000000000000000000ff" = some 255 ∧
    (findQuestionById sampleStore 102).map (fun q => q.course_id) = some 17 ∧
    updateQuestionBody sampleStore 100 alice "000000000000000000000066"
        ⟨{ emptyUpdate with exam_type := some "bogus" }, none, none⟩ =
      (sampleStore, ⟨500, .message "Failed to update question"⟩) := by
  decide

/-- C12, amended. A permitted `updateQuestion` request is carried out (200)
exactly when its present values pass the validators and a present `course_id`
is the id of a course; then each of the ten fields that is absent keeps its
stored value and each that is present takes the supplied one, while the
owner, the approval, the id and the creation time stay; a request that is not
carried out writes nothing; and an empty body is carried out and changes
`updatedAt` only. -/
theorem updateQuestion_partial_update (s : Store) (now : Nat) (user : User) (idParam : String)
    (id : ObjectId) (q : Question) (body : QuestionBody)
    (hid : castObjectId idParam = some id) (hq : findQuestionById s id = some q)
    (hperm : user.role = "admin" ∨ (q.uploadedBy = user._id ∧ q.approved = false)) :
    ((updateQuestionBody s now user idParam body).2.status = 200 ↔
      (updateValid body.fields = true ∧ (body.fields.course_id = none ∨
        ∃ cid, body.fields.course_id.bind castObjectId = some cid ∧
          (findCourseById s cid).isSome = true))) ∧
    ((updateQuestionBody s now user idParam body).2.status = 200 →
      ∃ q', findQuestionById (updateQuestionBody s now user idParam body).1 id = some q' ∧
        q'.title = body.fields.title.getD q.title ∧
        q'.body = body.fields.body.getD q.body ∧
        q'.course_id = (body.fields.course_id.bind castObjectId).getD q.course_id ∧
        q'.year = body.fields.year.getD q.year ∧
        q'.exam_type = body.fields.exam_type.getD q.exam_type ∧
        q'.question_type = body.fields.question_type.getD q.question_type ∧
        q'.difficulty = body.fields.difficulty.getD q.difficulty ∧
        q'.images = body.fields.images.getD q.images ∧
        q'.attachments = body.fields.attachments.getD q.attachments ∧
        q'.tags = body.fields.tags.getD q.tags ∧
        q'.uploadedBy = q.uploadedBy ∧ q'.approved = q.approved ∧
        q'._id = q._id ∧ q'.createdAt = q.createdAt) ∧
    ((updateQuestionBody s now user idParam body).2.status ≠ 200 →
      (updateQuestionBody s now user idParam body).1 = s) ∧
    (body.fields = emptyUpdate →
      (updateQuestionBody s now user idParam body).2.status = 200 ∧
      findQuestionById (updateQuestionBody s now user idParam body).1 id =
        some { q with updatedAt := now }) := by
  have hrun : updateQuestionBody s now user idParam body =
      performUpdate s now id q body.fields :=
    updateQuestion_permitted s now user idParam id q body.fields hid hq hperm
  have hqid : q._id = id := findQuestionById_id hq
  have hfind : ∀ q', q'._id = id →
      findQuestionById { s with questions := replaceQuestion id q' s.questions } id = some q' :=
    fun q' h => find?_replaceQuestion_self hq h
  rw [hrun]
  by_cases hc : updateValid body.fields = true ∧ (body.fields.course_id = none ∨
      ∃ cid, body.fields.course_id.bind castObjectId = some cid ∧
        (findCourseById s cid).isSome = true)
  · have hok := performUpdate_ok s now id q body.fields hc.1 hc.2
    refine ⟨⟨fun _ => hc, fun _ => by rw [hok]⟩, fun _ => ?_, fun h => ?_, fun he => ?_⟩
    · rw [hok]
      exact ⟨_, hfind _ hqid, rfl, rfl, rfl, rfl, rfl, rfl, rfl, rfl, rfl, rfl, rfl, rfl, rfl,
        rfl⟩
    · rw [hok] at h
      exact absurd rfl h
    · rw [hok]
      refine ⟨rfl, ?_⟩
      rw [he]
      exact hfind _ hqid
  · have hfail := performUpdate_fail s now id q body.fields hc
    refine ⟨⟨fun h => absurd h hfail.2, fun h => absurd h hc⟩, fun h => absurd h hfail.2,
      fun _ => hfail.1, fun he => ?_⟩
    exact absurd ⟨by rw [he]; rfl, Or.inl (by rw [he]; rfl)⟩ hc

theorem updateQuestion_partial_update_witness :
    (updateQuestionBody sampleStore 100 alice "000000000000000000000066" retitleBody).2.status =
      200 ∧
    ∃ q', findQuestionById
        (updateQuestionBody sampleStore 100 alice "000000000000000000000066" retitleBody).1
        102 = some q' ∧
      q'.title = "rotation of crops" ∧ q'.body = cropRotation.body ∧ q'.tags = ["c", "d"] ∧
      q'.uploadedBy = 1 ∧ q'.approved = false :=
  have h := updateQuestion_partial_update sampleStore 100 alice "000000000000000000000066" 102
    cropRotation retitleBody (by decide) (by decide) (Or.inr ⟨by decide, by decide⟩)
  have hok := h.1.2 ⟨by decide, Or.inl rfl⟩
  ⟨hok, (h.2.1 hok).imp fun _ hq' =>
    ⟨hq'.1, hq'.2.1, hq'.2.2.1, hq'.2.2.2.2.2.2.2.2.2.2.1, hq'.2.2.2.2.2.2.2.2.2.2.2.1,
      hq'.2.2.2.2.2.2.2.2.2.2.2.2.1⟩⟩

/-! ## What a call does to a stored question -/

theorem find?_removeQuestion_other {id id' : ObjectId} (l : List Question) (hne : id' ≠ id) :
    (removeQuestion id l).find? (fun x => x._id = id') = l.find? (fun x => x._id = id') := by
  induction l with
  | nil => simp [removeQuestion]
  | cons a l ih =>
    simp only [removeQuestion]
    by_cases ha : a._id = id
    · have h1 : ¬ a._id = id' := fun h => hne (h ▸ ha)
      rw [if_pos ha]
      simp [List.find?_cons, h1]
    · simp only [ha, if_false, List.find?_cons]
      rw [ih]

theorem find?_removeQuestion_self {id : ObjectId} (l : List Question)
    (hnd : (l.map fun q => q._id).Nodup) :
    (removeQuestion id l).find? (fun x => x._id = id) = none := by
  induction l with
  | nil => simp [removeQuestion]
  | cons a l ih =>
    rw [List.map_cons, List.nodup_cons] at hnd
    simp only [removeQuestion]
    by_cases ha : a._id = id
    · rw [if_pos ha, List.find?_eq_none]
      intro x hx hxid
      simp only [decide_eq_true_eq] at hxid
      exact hnd.1 (List.mem_map.2 ⟨x, hx, by rw [hxid, ha]⟩)
    · simp only [ha, if_false, List.find?_cons, decide_False]
      exact ih hnd.2

theorem updateQuestion_store (s : Store) (now : Nat) (user : User) (idParam : String)
    (b : QuestionUpdate) :
    (updateQuestion s now user idParam b).1 = s ∨
    ∃ id q cid, findQuestionById s id = some q ∧
      (updateQuestion s now user idParam b).1 =
        { s with questions := replaceQuestion id (applyUpdate q b cid now) s.questions } := by
  unfold updateQuestion
  split
  · exact Or.inl rfl
  · split
    · exact Or.inl rfl
    · rename_i id _ _ q hq
      split
      · exact Or.inl rfl
      · split
        · exact Or.inl rfl
        · unfold performUpdate
          dsimp only
          repeat' split
          all_goals first
            | exact Or.inl rfl
            | exact Or.inr ⟨id, q, _, hq, rfl⟩

theorem approveQuestion_store (s : Store) (now : Nat) (idParam : String) :
    (approveQuestion s now idParam).1 = s ∨
    ∃ id q, castObjectId idParam = some id ∧ findQuestionById s id = some q ∧
      (approveQuestion s now idParam).1 =
        { s with questions :=
          replaceQuestion id { q with approved := true, updatedAt := now } s.questions } := by
  unfold approveQuestion
  split
  · exact Or.inl rfl
  · rename_i id hid
    split
    · exact Or.inl rfl
    · rename_i q hq
      exact Or.inr ⟨id, q, hid, hq, rfl⟩

theorem deleteQuestion_store (s : Store) (user : User) (idParam : String) :
    (deleteQuestion s user idParam).1 = s ∨
    ∃ id, (deleteQuestion s user idParam).1 =
      { s with questions := removeQuestion id s.questions } := by
  unfold deleteQuestion
  repeat' split
  all_goals first
    | exact Or.inl rfl
    | exact Or.inr ⟨_, rfl⟩

theorem createQuestion_store (env : Env) (s : Store) (user : User) (body : QuestionBody) :
    (createQuestion env s user body).1 = s ∨
    ∃ cid, findQuestionById s env.newId = none ∧
      (createQuestion env s user body).1 =
        { s with questions := s.questions ++ [newQuestion env user body.fields cid] } := by
  unfold createQuestion
  dsimp only
  split
  · exact Or.inl rfl
  · split
    · exact Or.inl rfl
    · split
      · exact Or.inl rfl
      · split
        · rename_i h
          exact Or.inr ⟨_, h.2, rfl⟩
        · exact Or.inl rfl

/-- A stored question after a replacement of the document with id `id0` by a
document with the same id: it is the new document, or an untouched one. -/
theorem find?_after_replace {s : Store} {id0 id : ObjectId} {q0 q0' q' : Question}
    (h0 : findQuestionById s id0 = some q0) (hid0 : q0'._id = id0)
    (h' : findQuestionById { s with questions := replaceQuestion id0 q0' s.questions } id =
      some q') :
    (id = id0 ∧ q' = q0' ∧ findQuestionById s id = some q0) ∨
    (id ≠ id0 ∧ findQuestionById s id = some q') := by
  by_cases hid : id = id0
  · subst hid
    have := find?_replaceQuestion_self h0 hid0
    simp only [findQuestionById] at h' this
    rw [this] at h'
    exact Or.inl ⟨rfl, (Option.some.inj h').symm, h0⟩
  · right
    refine ⟨hid, ?_⟩
    simp only [findQuestionById] at h' ⊢
    rw [find?_replaceQuestion_other _ hid hid0] at h'
    exact h'

/-- What a call can do to the question found under an id: a question found
after the call either was there before, with the same owner, id and creation
time, and with the same approval unless the call is an approval and the
question is now approved; or it was created by the call, pending and owned by
the caller. -/
theorem questionCall_effect (s : Store) (call : QuestionCall) (hu : UniqueQuestionIds s)
    (id : ObjectId) (q' : Question) (h' : findQuestionById (call.run s) id = some q') :
    (∃ q, findQuestionById s id = some q ∧ q'.uploadedBy = q.uploadedBy ∧ q'._id = q._id ∧
      q'.createdAt = q.createdAt ∧
      (q'.approved = q.approved ∨
        ((∃ now idParam, call = .approve now idParam) ∧ q'.approved = true))) ∨
    (findQuestionById s id = none ∧
      ∃ env user body, call = .create env user body ∧ q'.uploadedBy = user._id ∧
        q'.approved = false) := by
  cases call with
  | create env user body =>
    simp only [QuestionCall.run] at h'
    rcases createQuestion_store env s user body with h | ⟨cid, hfresh, h⟩
    · rw [h] at h'
      exact Or.inl ⟨q', h', rfl, rfl, rfl, Or.inl rfl⟩
    · rw [h] at h'
      simp only [findQuestionById, List.find?_append] at h'
      cases hf : s.questions.find? (fun x => x._id = id) with
      | some q =>
        rw [hf] at h'
        have hqq : q = q' := Option.some.inj h'
        exact Or.inl ⟨q, hf, by rw [hqq], by rw [hqq], by rw [hqq], Or.inl (by rw [hqq])⟩
      | none =>
        rw [hf] at h'
        have h'' : List.find? (fun x => decide (x._id = id))
            [newQuestion env user body.fields cid] = some q' := h'
        have hq' := List.mem_of_find?_eq_some h''
        simp only [List.mem_singleton] at hq'
        subst hq'
        exact Or.inr ⟨hf, env, user, body, rfl, rfl, rfl⟩
  | update now user idParam body =>
    simp only [QuestionCall.run, updateQuestionBody] at h'
    rcases updateQuestion_store s now user idParam body.fields with h | ⟨id0, q0, cid, h0, h⟩
    · rw [h] at h'
      exact Or.inl ⟨q', h', rfl, rfl, rfl, Or.inl rfl⟩
    · rw [h] at h'
      have hid0 : (applyUpdate q0 body.fields cid now)._id = id0 :=
        (findQuestionById_id h0 : q0._id = id0)
      rcases find?_after_replace h0 hid0 h' with ⟨-, rfl, hq⟩ | ⟨-, hq⟩
      · exact Or.inl ⟨q0, hq, rfl, rfl, rfl, Or.inl rfl⟩
      · exact Or.inl ⟨q', hq, rfl, rfl, rfl, Or.inl rfl⟩
  | approve now idParam =>
    simp only [QuestionCall.run] at h'
    rcases approveQuestion_store s now idParam with h | ⟨id0, q0, -, h0, h⟩
    · rw [h] at h'
      exact Or.inl ⟨q', h', rfl, rfl, rfl, Or.inl rfl⟩
    · rw [h] at h'
      have hid0 : ({ q0 with approved := true, updatedAt := now } : Question)._id = id0 :=
        (findQuestionById_id h0 : q0._id = id0)
      rcases find?_after_replace h0 hid0 h' with ⟨-, rfl, hq⟩ | ⟨-, hq⟩
      · exact Or.inl ⟨q0, hq, rfl, rfl, rfl, Or.inr ⟨⟨now, idParam, rfl⟩, rfl⟩⟩
      · exact Or.inl ⟨q', hq, rfl, rfl, rfl, Or.inl rfl⟩
  | delete user idParam =>
    simp only [QuestionCall.run] at h'
    rcases deleteQuestion_store s user idParam with h | ⟨id0, h⟩
    · rw [h] at h'
      exact Or.inl ⟨q', h', rfl, rfl, rfl, Or.inl rfl⟩
    · rw [h] at h'
      simp only [findQuestionById] at h'
      by_cases hid : id = id0
      · subst hid
        rw [find?_removeQuestion_self _ hu] at h'
        cases h'
      · rw [find?_removeQuestion_other _ hid] at h'
        exact Or.inl ⟨q', h', rfl, rfl, rfl, Or.inl rfl⟩

/-! ## The approval flag and the owner -/

/-- C13. Over the four handlers that write questions: a question that a call
creates is pending; a call that changes the approval of a stored question is
an `approveQuestion` call and leaves it approved; no call takes a stored
question from approved to pending, whatever the body of an update; and
`approveQuestion` on a stored question leaves it approved. -/
theorem approved_one_way (s : Store) (call : QuestionCall) (hu : UniqueQuestionIds s) :
    (∀ id q', findQuestionById s id = none → findQuestionById (call.run s) id = some q' →
      q'.approved = false) ∧
    (∀ id q q', findQuestionById s id = some q → findQuestionById (call.run s) id = some q' →
      q'.approved ≠ q.approved →
      (∃ now idParam, call = .approve now idParam) ∧ q'.approved = true) ∧
    (∀ id q q', findQuestionById s id = some q → findQuestionById (call.run s) id = some q' →
      q.approved = true → q'.approved = true) ∧
    (∀ now idParam id q, castObjectId idParam = some id → findQuestionById s id = some q →
      ∃ q', findQuestionById ((QuestionCall.approve now idParam).run s) id = some q' ∧
        q'.approved = true) := by
  refine ⟨fun id q' hn h' => ?_, fun id q q' hq h' hne => ?_, fun id q q' hq h' ha => ?_,
    fun now idParam id q hid hq => ?_⟩
  · rcases questionCall_effect s call hu id q' h' with ⟨q, hq, -⟩ | ⟨-, -, -, -, -, -, h⟩
    · rw [hn] at hq
      cases hq
    · exact h
  · rcases questionCall_effect s call hu id q' h' with ⟨q0, hq0, -, -, -, h⟩ | ⟨hn, -⟩
    · rw [hq] at hq0
      cases hq0
      rcases h with h | h
      · exact absurd h hne
      · exact h
    · rw [hq] at hn
      cases hn
  · rcases questionCall_effect s call hu id q' h' with ⟨q0, hq0, -, -, -, h⟩ | ⟨hn, -⟩
    · rw [hq] at hq0
      cases hq0
      rcases h with h | h
      · rw [h, ha]
      · exact h.2
    · rw [hq] at hn
      cases hn
  · refine ⟨{ q with approved := true, updatedAt := now }, ?_, rfl⟩
    simp only [QuestionCall.run, approveQuestion, hid, hq]
    exact find?_replaceQuestion_self hq (findQuestionById_id hq : q._id = id)

theorem approved_one_way_witness :
    ∃ q', findQuestionById
        ((QuestionCall.update 100 root "000000000000000000000065" unapproveBody).run sampleStore)
        101 = some q' ∧ q'.approved = true :=
  ⟨{ soilTexture with updatedAt := 100 }, by decide,
    (approved_one_way sampleStore
      (.update 100 root "000000000000000000000065" unapproveBody) (by decide)).2.2.1 101
      soilTexture _ (by decide) (by decide) (by decide)⟩

theorem createQuestion_created (env : Env) (s : Store) (user : User) (body : QuestionBody)
    (h : (createQuestion env s user body).2.status = 201) :
    ∃ cid, findQuestionById s env.newId = none ∧
      (createQuestion env s user body).1 =
        { s with questions := s.questions ++ [newQuestion env user body.fields cid] } := by
  unfold createQuestion at h ⊢
  dsimp only at h ⊢
  split at h
  · simp at h
  · split at h
    · simp at h
    · split at h
      · simp at h
      · split at h
        · rename_i hv
          rw [if_pos hv]
          exact ⟨_, hv.2, rfl⟩
        · simp at h

/-- An update or an approval keeps a stored question stored, with its owner. -/
theorem updateOrApprove_keeps_owner (s : Store) (call : QuestionCall)
    (hc : call.isUpdateOrApprove = true) (id : ObjectId) (q : Question)
    (hq : findQuestionById s id = some q) :
    ∃ q', findQuestionById (call.run s) id = some q' ∧ q'.uploadedBy = q.uploadedBy := by
  have key : ∀ (id0 : ObjectId) (q0 q0' : Question), findQuestionById s id0 = some q0 →
      q0'._id = id0 → q0'.uploadedBy = q0.uploadedBy →
      ∃ q', findQuestionById { s with questions := replaceQuestion id0 q0' s.questions } id =
        some q' ∧ q'.uploadedBy = q.uploadedBy := by
    intro id0 q0 q0' h0 hid0 hown
    by_cases hid : id = id0
    · subst hid
      rw [hq] at h0
      cases h0
      exact ⟨q0', find?_replaceQuestion_self hq hid0, hown⟩
    · refine ⟨q, ?_, rfl⟩
      simp only [findQuestionById] at hq ⊢
      rw [find?_replaceQuestion_other _ hid hid0]
      exact hq
  cases call with
  | create env user body => cases hc
  | delete user idParam => cases hc
  | update now user idParam body =>
    simp only [QuestionCall.run, updateQuestionBody]
    rcases updateQuestion_store s now user idParam body.fields with h | ⟨id0, q0, cid, h0, h⟩
    · rw [h]
      exact ⟨q, hq, rfl⟩
    · rw [h]
      exact key id0 q0 _ h0 (findQuestionById_id h0 : q0._id = id0) rfl
  | approve now idParam =>
    simp only [QuestionCall.run]
    rcases approveQuestion_store s now idParam with h | ⟨id0, q0, -, h0, h⟩
    · rw [h]
      exact ⟨q, hq, rfl⟩
    · rw [h]
      exact key id0 q0 _ h0 (findQuestionById_id h0 : q0._id = id0) rfl

theorem updateOrApprove_sequence_keeps_owner (calls : List QuestionCall)
    (hc : ∀ c ∈ calls, c.isUpdateOrApprove = true) (s : Store) (id : ObjectId) (q : Question)
    (hq : findQuestionById s id = some q) :
    ∃ q', findQuestionById (calls.foldl QuestionCall.run s) id = some q' ∧
      q'.uploadedBy = q.uploadedBy := by
  induction calls generalizing s q with
  | nil => exact ⟨q, hq, rfl⟩
  | cons c cs ih =>
    obtain ⟨q1, hq1, hown1⟩ :=
      updateOrApprove_keeps_owner s c (hc c (List.mem_cons_self _ _)) id q hq
    obtain ⟨q2, hq2, hown2⟩ :=
      ih (fun d hd => hc d (List.mem_cons_of_mem _ hd)) (c.run s) q1 hq1
    exact ⟨q2, hq2, hown2.trans hown1⟩

/-- C14. A call of any of the four handlers leaves the `uploadedBy` of every
question that stays stored as it was; and after a question has been created
by an actor, whatever sequence of `updateQuestion` and `approveQuestion`
calls follows, with whatever bodies, the question is stored with the id of
that actor as `uploadedBy`. -/
theorem uploadedBy_immutable (s : Store) :
    (∀ call : QuestionCall, UniqueQuestionIds s → ∀ id q q',
      findQuestionById s id = some q → findQuestionById (call.run s) id = some q' →
      q'.uploadedBy = q.uploadedBy) ∧
    (∀ (env : Env) (user : User) (body : QuestionBody) (calls : List QuestionCall),
      (createQuestion env s user body).2.status = 201 →
      (∀ c ∈ calls, c.isUpdateOrApprove = true) →
      ∃ q, findQuestionById (calls.foldl QuestionCall.run (createQuestion env s user body).1)
          env.newId = some q ∧ q.uploadedBy = user._id) := by
  refine ⟨fun call hu id q q' hq h' => ?_, fun env user body calls h201 hc => ?_⟩
  · rcases questionCall_effect s call hu id q' h' with ⟨q0, hq0, h, -⟩ | ⟨hn, -⟩
    · rw [hq] at hq0
      cases hq0
      exact h
    · rw [hq] at hn
      cases hn
  · obtain ⟨cid, hfresh, hstore⟩ := createQuestion_created env s user body h201
    have hnew : findQuestionById (createQuestion env s user body).1 env.newId =
        some (newQuestion env user body.fields cid) := by
      rw [hstore]
      simp only [findQuestionById, List.find?_append] at hfresh ⊢
      rw [hfresh]
      simp [newQuestion]
    exact updateOrApprove_sequence_keeps_owner calls hc _ env.newId _ hnew

theorem uploadedBy_immutable_witness :
    ∃ q, findQuestionById
        ([QuestionCall.update 100 alice "000000000000000000000004" unapproveBody,
          QuestionCall.approve 101 "000000000000000000000004"].foldl QuestionCall.run
          (createQuestion sampleEnv sampleStore alice soilPhBody).1)
        sampleEnv.newId = some q ∧ q.uploadedBy = alice._id :=
  (uploadedBy_immutable sampleStore).2 sampleEnv alice soilPhBody
    [.update 100 alice "000000000000000000000004" unapproveBody,
      .approve 101 "000000000000000000000004"] (by decide) (by decide)

/-! ## Route order -/

/-- A `GET` request with a one-segment path is routed to `getQuestionById`,
whatever the segment: `/:id` is declared before `/export` and `/duplicates`. -/
theorem get_one_segment_routed_to_getQuestionById (r : HttpRequest) (seg : String)
    (hm : r.method = "GET") (hp : r.path = [seg]) (hseg : seg ≠ "") :
    routedHandler r = some .getQuestionById := by
  simp [routedHandler, questionRouter, findRoute, matchPath, hm, hp, hseg]

/-- C15, on the code: the admin's `POST /bulk-import` reaches
`bulkImportQuestions` and is answered 501, but the admin's `GET /duplicates`
and `GET /export` are captured by `GET /:id`, declared before them:
`getQuestionById` runs with `duplicates` and `export` as the id, the cast to
an ObjectId fails, and the answer is 500. -/
theorem idRoute_captures_export_and_duplicates :
    routedHandler bulkImportRequest = some .bulkImportQuestions ∧
    dispatch sampleEnv sampleStore bulkImportRequest =
      some (sampleStore, ⟨501, .message "Bulk import not implemented yet"⟩) ∧
    routedHandler duplicatesRequest = some .getQuestionById ∧
    dispatch sampleEnv sampleStore duplicatesRequest =
      some (sampleStore, ⟨500, .message "Failed to fetch question"⟩) ∧
    routedHandler exportRequest = some .getQuestionById ∧
    dispatch sampleEnv sampleStore exportRequest =
      some (sampleStore, ⟨500, .message "Failed to fetch question"⟩) := by
  decide

/-! ## The CSV export -/

/-- When the course and the uploader of every question are on record,
`formatCSV` gives one row per question, in order. -/
theorem formatCSV_of_refs (qs : List PopulatedQuestion)
    (h : ∀ q ∈ qs, q.course.isSome = true ∧ q.uploader.isSome = true) :
    ∃ rows, formatCSV qs = some rows ∧ rows.length = qs.length ∧
      rows.map (fun r => r.id) = qs.map (fun q => q.doc._id) ∧
      rows.map (fun r => r.tags) = qs.map (fun q => String.intercalate ";" q.doc.tags) ∧
      rows.map (fun r => some r.course_name) = qs.map (fun q => q.course.map fun c => c.name) ∧
      rows.map (fun r => some r.course_code) = qs.map (fun q => q.course.map fun c => c.code) ∧
      rows.map (fun r => some r.uploaded_by) =
        qs.map (fun q => q.uploader.map fun u => u.name) := by
  induction qs with
  | nil => exact ⟨[], rfl, rfl, rfl, rfl, rfl, rfl, rfl⟩
  | cons q qs ih =>
    obtain ⟨rows, hrows, hlen, h1, h2, h3, h4, h5⟩ :=
      ih (fun x hx => h x (List.mem_cons_of_mem _ hx))
    obtain ⟨hc, hu⟩ := h q (List.mem_cons_self _ _)
    obtain ⟨c, hc⟩ := Option.isSome_iff_exists.1 hc
    obtain ⟨u, hu⟩ := Option.isSome_iff_exists.1 hu
    obtain ⟨row, hrow⟩ : ∃ row, flattenQuestion q = some row := by
      simp [flattenQuestion, hc, hu]
    have hfields : row.id = q.doc._id ∧ row.tags = String.intercalate ";" q.doc.tags ∧
        row.course_name = c.name ∧ row.course_code = c.code ∧ row.uploaded_by = u.name := by
      simp only [flattenQuestion, hc, hu, Option.some.injEq] at hrow
      subst hrow
      exact ⟨rfl, rfl, rfl, rfl, rfl⟩
    obtain ⟨f1, f2, f3, f4, f5⟩ := hfields
    refine ⟨row :: rows, ?_, ?_, ?_, ?_, ?_, ?_, ?_⟩
    · simp only [formatCSV, hrow, hrows, Option.map_some']
    · simp [hlen]
    · simp [h1, f1]
    · simp [h2, f2]
    · simp [h3, hc, f3]
    · simp [h4, hc, f4]
    · simp [h5, hu, f5]

/-- C18, on the code: after `deleteCourse` has removed a course that
questions still reference, the populated `course_id` of those questions is
`null`, `formatCSV` throws on reading its `name`, and `exportQuestions` with
`format=csv` answers 500; on the store before the deletion it answers 200
with one row per question, and with `format=json` it answers 200 after the
deletion as well. -/
theorem exportQuestions_csv_fails_on_orphans :
    deleteCourse sampleStore "000000000000000000000011" =
      (orphanStore, ⟨200, .message "Course deleted successfully"⟩) ∧
    (populate orphanStore cropRotation).course = none ∧
    formatCSV (orphanStore.questions.map (populate orphanStore)) = none ∧
    exportQuestions sampleEnv orphanStore ⟨none, none, some "csv"⟩ =
      ⟨500, .message "Failed to export questions"⟩ ∧
    exportQuestions sampleEnv orphanStore ⟨none, none, none⟩ =
      ⟨500, .message "Failed to export questions"⟩ ∧
    (exportQuestions sampleEnv orphanStore ⟨none, none, some "json"⟩).status = 200 ∧
    (exportQuestions sampleEnv sampleStore ⟨none, none, some "csv"⟩).status = 200 ∧
    ((formatCSV (sampleStore.questions.map (populate sampleStore))).map fun rows =>
      rows.map fun r => (r.course_code, r.uploaded_by, r.tags)) =
      some [("SS101", "Alice", "b;c"), ("AG2.1", "Alice", "c"), ("AG2.1", "Bob", "x")] := by
  decide

/-! ## Course codes -/

theorem mem_replaceCourse {id : ObjectId} {c' x : Course} {l : List Course}
    (h : x ∈ replaceCourse id c' l) : x = c' ∨ x ∈ l := by
  induction l with
  | nil => simp [replaceCourse] at h
  | cons a l ih =>
    simp only [replaceCourse] at h
    split at h
    · rcases List.mem_cons.1 h with h | h
      · exact Or.inl h
      · exact Or.inr (List.mem_cons_of_mem _ h)
    · rcases List.mem_cons.1 h with h | h
      · exact Or.inr (h ▸ List.mem_cons_self _ _)
      · exact (ih h).imp (fun e => e) (List.mem_cons_of_mem _)

theorem map_id_replaceCourse {id : ObjectId} (c' : Course) (l : List Course)
    (hid : c'._id = id) :
    (replaceCourse id c' l).map (fun c => c._id) = l.map (fun c => c._id) := by
  induction l with
  | nil => rfl
  | cons a l ih =>
    simp only [replaceCourse]
    split
    · rename_i ha
      simp [hid, ha]
    · simp [ih]

/-- Replacing the course with id `id` keeps the codes pairwise different when
no course with another id holds the new code. -/
theorem nodup_codes_replaceCourse {id : ObjectId} {c' : Course} (l : List Course)
    (hids : (l.map fun c => c._id).Nodup) (hcodes : (l.map fun c => c.code).Nodup)
    (hk : ∀ x ∈ l, x.code = c'.code → x._id = id) :
    ((replaceCourse id c' l).map fun c => c.code).Nodup := by
  induction l with
  | nil => simp [replaceCourse]
  | cons a l ih =>
    rw [List.map_cons, List.nodup_cons] at hids hcodes
    simp only [replaceCourse]
    split
    · rename_i ha
      rw [List.map_cons, List.nodup_cons]
      refine ⟨?_, hcodes.2⟩
      intro hmem
      obtain ⟨x, hx, hxc⟩ := List.mem_map.1 hmem
      have hxid := hk x (List.mem_cons_of_mem _ hx) hxc
      exact hids.1 (List.mem_map.2 ⟨x, hx, by rw [hxid, ha]⟩)
    · rename_i ha
      rw [List.map_cons, List.nodup_cons]
      refine ⟨?_, ih hids.2 hcodes.2 (fun x hx => hk x (List.mem_cons_of_mem _ hx))⟩
      intro hmem
      obtain ⟨x, hx, hxc⟩ := List.mem_map.1 hmem
      rcases mem_replaceCourse hx with rfl | hx
      · exact ha (hk a (List.mem_cons_self _ _) hxc.symm)
      · exact hcodes.1 (List.mem_map.2 ⟨x, hx, hxc⟩)

theorem findCourseById_mem {s : Store} {id : ObjectId} {c : Course}
    (h : findCourseById s id = some c) : c ∈ s.courses ∧ c._id = id :=
  ⟨List.mem_of_find?_eq_some h, by simpa using List.find?_some h⟩

/-- `createCourse` keeps the invariant of the course collection. -/
theorem createCourse_invariant (env : Env) (s : Store) (b : CourseBody)
    (hs : CourseInvariant s) : CourseInvariant (createCourse env s b).1 := by
  unfold createCourse
  split
  · exact hs
  · rename_i hdup
    dsimp only
    split
    · rename_i hv
      obtain ⟨hname, hcode, hfresh⟩ := hv
      obtain ⟨hids, hcodes, hne⟩ := hs
      cases hbc : b.code with
      | none => simp [hbc] at hcode
      | some code =>
        cases hbn : b.name with
        | none => simp [hbn] at hname
        | some name =>
          simp only [hbc, Option.any_some, decide_eq_true_eq] at hcode
          simp only [hbn, Option.any_some, decide_eq_true_eq] at hname
          simp only [hbc, Option.some_bind, List.find?_eq_none, decide_eq_true_eq] at hdup
          simp only [findCourseById, List.find?_eq_none, decide_eq_true_eq] at hfresh
          refine ⟨?_, ?_, ?_⟩
          · simp only [List.map_append, List.map_cons, List.map_nil]
            rw [List.nodup_append]
            refine ⟨hids, List.nodup_singleton _, ?_⟩
            intro a ha hb
            simp only [List.mem_singleton] at hb
            obtain ⟨x, hx, rfl⟩ := List.mem_map.1 ha
            exact hfresh x hx hb
          · simp only [UniqueCodes, List.map_append, List.map_cons, List.map_nil]
            rw [List.nodup_append]
            refine ⟨hcodes, List.nodup_singleton _, ?_⟩
            intro a ha hb
            simp only [List.mem_singleton, Option.getD_some] at hb
            obtain ⟨x, hx, rfl⟩ := List.mem_map.1 ha
            exact hdup x hx hb
          · intro c hc
            rcases List.mem_append.1 hc with hc | hc
            · exact hne c hc
            · simp only [List.mem_singleton] at hc
              subst hc
              exact ⟨by simpa using hname, by simpa using hcode⟩
    · exact hs

/-- `updateCourse` keeps the invariant of the course collection. -/
theorem updateCourse_invariant (env : Env) (s : Store) (idParam : String) (b : CourseBody)
    (hs : CourseInvariant s) : CourseInvariant (updateCourse env s idParam b).1 := by
  unfold updateCourse
  split
  · exact hs
  · rename_i id hid
    dsimp only
    split
    · exact hs
    · rename_i hdup
      split
      · rename_i hv
        split
        · exact hs
        · rename_i c hc
          obtain ⟨hcmem, hcid⟩ := findCourseById_mem hc
          obtain ⟨hids, hcodes, hne⟩ := hs
          have hinj : ∀ x ∈ s.courses, x.code = c.code → x._id = id := by
            intro x hx hxc
            have := List.inj_on_of_nodup_map hcodes hx hcmem hxc
            rw [this, hcid]
          have hk : ∀ x ∈ s.courses, x.code = (applyCourseUpdate c b env.now).code →
              x._id = id := by
            intro x hx hxc
            cases hbc : b.code with
            | none =>
              simp only [applyCourseUpdate, hbc, Option.getD_none] at hxc
              exact hinj x hx hxc
            | some code =>
              simp only [applyCourseUpdate, hbc, Option.getD_some] at hxc
              have hcne : code ≠ "" := by
                have := hv.2
                simpa [hbc] using this
              have ht : truthy b.code = true := by simp [truthy, hbc, hcne]
              rw [if_pos ht, hbc, List.find?_eq_none] at hdup
              have := hdup x hx
              simp only [Option.getD_some, decide_eq_true_eq, not_and, not_not] at this
              exact this hxc
          refine ⟨?_, ?_, ?_⟩
          · show ((replaceCourse id _ s.courses).map fun c => c._id).Nodup
            rw [map_id_replaceCourse (applyCourseUpdate c b env.now) _ hcid]
            exact hids
          · exact nodup_codes_replaceCourse s.courses hids hcodes hk
          · intro x hx
            rcases mem_replaceCourse hx with rfl | hx
            · obtain ⟨hn, hcd⟩ := hne c hcmem
              constructor
              · cases hbn : b.name with
                | none => simpa [applyCourseUpdate, hbn] using hn
                | some name =>
                  have := hv.1
                  simpa [applyCourseUpdate, hbn] using this
              · cases hbc : b.code with
                | none => simpa [applyCourseUpdate, hbc] using hcd
                | some code =>
                  have := hv.2
                  simpa [applyCourseUpdate, hbc] using this
            · exact hne x hx
      · exact hs

theorem courseCalls_invariant (calls : List CourseCall) (s : Store) (hs : CourseInvariant s) :
    CourseInvariant (calls.foldl CourseCall.run s) := by
  induction calls generalizing s with
  | nil => exact hs
  | cons c cs ih =>
    apply ih
    cases c with
    | create env b => exact createCourse_invariant env s b hs
    | update env idParam b => exact updateCourse_invariant env s idParam b hs

/-- C16. From a store in which the course collection satisfies its schema
and indexes: after every sequence of `createCourse` and `updateCourse` calls
the codes are pairwise different; `createCourse` with a code that a stored
course holds answers 400 `Course code already exists` and changes nothing;
`updateCourse` answers the same 400 when a course with another id holds the
new code; and `updateCourse` with the course's own code is carried out and
answered 200. -/
theorem course_codes_stay_unique (s : Store) (hs : CourseInvariant s) :
    (∀ calls : List CourseCall, UniqueCodes (calls.foldl CourseCall.run s)) ∧
    (∀ env b code, b.code = some code → (∃ c ∈ s.courses, c.code = code) →
      createCourse env s b = (s, ⟨400, .message "Course code already exists"⟩)) ∧
    (∀ env idParam id b code, castObjectId idParam = some id → b.code = some code →
      (∃ c ∈ s.courses, c.code = code ∧ c._id ≠ id) →
      updateCourse env s idParam b = (s, ⟨400, .message "Course code already exists"⟩)) ∧
    (∀ env idParam id c b, castObjectId idParam = some id → findCourseById s id = some c →
      b.code = some c.code → (b.name.all fun t => t ≠ "") = true →
      updateCourse env s idParam b =
        ({ s with courses := replaceCourse id (applyCourseUpdate c b env.now) s.courses },
          ⟨200, .course (applyCourseUpdate c b env.now)⟩) ∧
      (applyCourseUpdate c b env.now).code = c.code) := by
  refine ⟨fun calls => (courseCalls_invariant calls s hs).2.1, ?_, ?_, ?_⟩
  · rintro env b code hb ⟨c, hc, hcc⟩
    unfold createCourse
    have : (s.courses.find? fun x => decide (x.code = code)).isSome = true := by
      rw [List.find?_isSome]
      exact ⟨c, hc, by simpa using hcc⟩
    obtain ⟨x, hx⟩ := Option.isSome_iff_exists.1 this
    simp [hb, hx]
  · rintro env idParam id b code hid hb ⟨c, hc, hcc, hcid⟩
    have hne : code ≠ "" := hcc ▸ (hs.2.2 c hc).2
    have ht : truthy b.code = true := by simp [truthy, hb, hne]
    have : (s.courses.find? fun x => decide (x.code = b.code.getD "" ∧ x._id ≠ id)).isSome =
        true := by
      rw [List.find?_isSome]
      exact ⟨c, hc, by simp [hb, hcc, hcid]⟩
    obtain ⟨x, hx⟩ := Option.isSome_iff_exists.1 this
    unfold updateCourse
    simp only [hid, ht, if_true, hx]
  · intro env idParam id c b hid hc hb hname
    obtain ⟨hcmem, hcid⟩ := findCourseById_mem hc
    have hne : c.code ≠ "" := (hs.2.2 c hcmem).2
    have ht : truthy b.code = true := by simp [truthy, hb, hne]
    have hnone : (s.courses.find? fun x => decide (x.code = b.code.getD "" ∧ x._id ≠ id)) =
        none := by
      rw [List.find?_eq_none]
      intro x hx
      simp only [hb, Option.getD_some, decide_eq_true_eq, not_and, not_not]
      intro hxc
      have := List.inj_on_of_nodup_map hs.2.1 hx hcmem hxc
      rw [this, hcid]
    have hcode : (b.code.all fun t => t ≠ "") = true := by simp [hb, hne]
    constructor
    · unfold updateCourse
      simp only [hid, ht, if_true, hnone, hname, hcode, and_self, hc]
    · simp [applyCourseUpdate, hb]

theorem course_codes_stay_unique_witness :
    createCourse sampleEnv sampleStore duplicateCodeBody =
      (sampleStore, ⟨400, .message "Course code already exists"⟩) ∧
    (updateCourse sampleEnv sampleStore "000000000000000000000010" renameBody).2.status = 200 ∧
    UniqueCodes ([CourseCall.create sampleEnv duplicateCodeBody,
      CourseCall.update sampleEnv "000000000000000000000010" renameBody].foldl
        CourseCall.run sampleStore) :=
  have h := course_codes_stay_unique sampleStore (by decide)
  ⟨h.2.1 sampleEnv duplicateCodeBody "SS101" rfl ⟨soilScience, by decide, rfl⟩,
    by
      rw [(h.2.2.2 sampleEnv "000000000000000000000010" 16 soilScience renameBody
        (by decide) (by decide) rfl (by decide)).1],
    h.1 _⟩

/-! ## Roles -/

/-- When `authenticate` lets a request through, either the store is as it was
and `req.user` is a stored record, or one record was appended, with role
`user`, for an identity that had none. -/
theorem authenticate_next (env : Env) (s s' : Store) (req req' : Req)
    (h : authenticate env s req = .next s' req') :
    (s' = s ∧ ∃ u ∈ s.users, req' = { req with user := some u } ∧
      ∃ tok d, env.verifyToken tok = some d ∧
        (s.users.find? fun v => v.firebaseUid = d.uid) = some u) ∨
    (∃ u, s' = { s with users := s.users ++ [u] } ∧ u.role = "user" ∧
      req' = { req with user := some u } ∧
      ∃ tok d, env.verifyToken tok = some d ∧ u.firebaseUid = d.uid ∧
        (s.users.find? fun v => v.firebaseUid = d.uid) = none) := by
  unfold authenticate at h
  dsimp only at h
  split at h
  · cases h
  · split at h
    · cases h
    · split at h
      · cases h
      · rename_i d hd
        obtain ⟨tok, -, htok⟩ := Option.bind_eq_some.1 hd
        split at h
        · rename_i u hu
          cases h
          exact Or.inl ⟨rfl, u, List.mem_of_find?_eq_some hu, rfl, tok, d, htok, hu⟩
        · rename_i hu
          split at h
          · cases h
            exact Or.inr ⟨_, rfl, rfl, rfl, tok, d, htok, rfl, hu⟩
          · cases h

theorem authenticate_done (env : Env) (s s' : Store) (req : Req) (res : Response)
    (h : authenticate env s req = .done s' res) : s' = s := by
  unfold authenticate at h
  dsimp only at h
  repeat' split at h
  all_goals cases h
  all_goals rfl

/-- A second call for the same request finds the record of the first. -/
theorem authenticate_twice (env env2 : Env) (s s' : Store) (req req' : Req)
    (h : authenticate env s req = .next s' req') (henv : env2.verifyToken = env.verifyToken) :
    authenticate env2 s' req = .next s' req' := by
  unfold authenticate at h ⊢
  dsimp only at h ⊢
  rw [henv]
  cases ha : req.authorization with
  | none =>
    rw [ha] at h
    cases h
  | some hdr =>
    rw [ha] at h
    dsimp only at h ⊢
    by_cases hh : hdr = "" ∨ ¬ "Bearer ".toList.isPrefixOf hdr.toList
    · rw [if_pos hh] at h
      cases h
    · rw [if_neg hh] at h ⊢
      generalize (Option.map String.mk ((splitOn ' ' hdr.toList).get? 1)).bind
        env.verifyToken = dv at h ⊢
      cases dv with
      | none => cases h
      | some d =>
        dsimp only at h ⊢
        cases hu : s.users.find? (fun u => decide (u.firebaseUid = d.uid)) with
        | some u =>
          rw [hu] at h
          cases h
          simp only [hu]
        | none =>
          rw [hu] at h
          dsimp only at h
          split at h
          · cases h
            simp only [List.find?_append, hu, Option.none_or]
            simp [List.find?_cons]
          · cases h

theorem map_identityOf_replaceUser {id : ObjectId} {u u' : User} (l : List User)
    (h : l.find? (fun x => x._id = id) = some u) (hk : identityOf u' = identityOf u) :
    (replaceUser id u' l).map identityOf = l.map identityOf := by
  induction l with
  | nil => simp at h
  | cons a l ih =>
    simp only [replaceUser]
    by_cases ha : a._id = id
    · simp only [List.find?_cons, ha, decide_True, Option.some.injEq] at h
      subst h
      simp [ha, hk]
    · simp only [List.find?_cons, ha, decide_False] at h
      simp [ha, ih h]

theorem updateProfile_identities (env : Env) (s : Store) (user : User) (b : ProfileBody) :
    (updateProfile env s user b).1.users.map identityOf = s.users.map identityOf := by
  unfold updateProfile
  split
  · split
    · rfl
    · rename_i u hu
      exact map_identityOf_replaceUser s.users hu rfl
  · rfl

/-- Roles through the HTTP surface. `authenticate` either leaves the store as
it was and hands on the stored record of the token's identity, or appends one
record with role `user` for the token's identity, which had none, and a
request it answers itself changes nothing; a second call for the same request
finds the record of the first and adds nothing; and the handler and the route
of `PUT /auth/me` leave the id, role and `firebaseUid` of every stored record
as they were, whatever the body, the route adding at most the record that
`authenticate` creates, with role `user`. -/
theorem role_never_escalated (env : Env) (s : Store) (req : Req) :
    (∀ s' req', authenticate env s req = .next s' req' →
      (s' = s ∧ ∃ u ∈ s.users, req'.user = some u ∧
        ∃ tok d, env.verifyToken tok = some d ∧ u.firebaseUid = d.uid) ∨
      (∃ u, s' = { s with users := s.users ++ [u] } ∧ u.role = "user" ∧
        req'.user = some u ∧ (∀ v ∈ s.users, v.firebaseUid ≠ u.firebaseUid) ∧
        ∃ tok d, env.verifyToken tok = some d ∧ u.firebaseUid = d.uid)) ∧
    (∀ s' res, authenticate env s req = .done s' res → s' = s) ∧
    (∀ s' req' env2, authenticate env s req = .next s' req' →
      env2.verifyToken = env.verifyToken → authenticate env2 s' req = .next s' req') ∧
    (∀ user b, (updateProfile env s user b).1.users.map identityOf = s.users.map identityOf) ∧
    (∀ b, ∃ extra, (putMeRoute env s req b).1.users.map identityOf =
        s.users.map identityOf ++ extra ∧
      ∀ k ∈ extra, k.2.1 = "user") := by
  refine ⟨fun s' req' h => ?_, fun s' res h => authenticate_done env s s' req res h,
    fun s' req' env2 h henv => authenticate_twice env env2 s s' req req' h henv,
    fun user b => updateProfile_identities env s user b, fun b => ?_⟩
  · rcases authenticate_next env s s' req req' h with ⟨hs, u, hu, hreq, tok, d, hd, hfind⟩ |
      ⟨u, hs, hrole, hreq, tok, d, hd, huid, hnone⟩
    · refine Or.inl ⟨hs, u, hu, by rw [hreq], tok, d, hd, ?_⟩
      simpa using List.find?_some hfind
    · refine Or.inr ⟨u, hs, hrole, by rw [hreq], fun v hv => ?_, tok, d, hd, huid⟩
      rw [List.find?_eq_none] at hnone
      have := hnone v hv
      simp only [decide_eq_true_eq] at this
      rw [huid]
      exact this
  · unfold putMeRoute
    cases hauth : authenticate env s req with
    | done s' res =>
      have := authenticate_done env s s' req res hauth
      exact ⟨[], by simp [this], by simp⟩
    | next s' req' =>
      have hmid : ∃ extra, s'.users.map identityOf = s.users.map identityOf ++ extra ∧
          ∀ k ∈ extra, k.2.1 = "user" := by
        rcases authenticate_next env s s' req req' hauth with ⟨hs, -⟩ | ⟨u, hs, hrole, -⟩
        · exact ⟨[], by simp [hs], by simp⟩
        · exact ⟨[identityOf u], by simp [hs], by simp [identityOf, hrole]⟩
      obtain ⟨extra, hextra, hrole⟩ := hmid
      dsimp only
      split
      · exact ⟨extra, hextra, hrole⟩
      · exact ⟨extra, by rw [updateProfile_identities, hextra], hrole⟩

/-- The first request of a new identity whose token carries a name: a record
with role `user` is created, and a profile update that sends `role: admin`
leaves it a `user`. -/
theorem authenticate_new_identity :
    authenticate newcomerEnv sampleStore ⟨some "Bearer token-dana", noParams, none, []⟩ =
      .next { sampleStore with users := sampleStore.users ++ [dana] }
        ⟨some "Bearer token-dana", noParams, some dana, []⟩ ∧
    ((putMeRoute newcomerEnv sampleStore ⟨some "Bearer token-dana", noParams, none, []⟩
      ⟨some "Dana K", none, none, none, some "admin", some "uid-root"⟩).1.users.map
        identityOf) =
      sampleStore.users.map identityOf ++ [(4, "user", "uid-dana")] := by
  decide

/-- C17, on the code: Erin's token verifies and her identity has no record,
so `authenticate` is to create one (auth.js, line 27); the token carries no
name, the record is built with `name: ''`, `save()` fails the `required`
validator of `name`, and the `catch` answers 401 `Invalid or expired token`:
no record is created, and the profile route answers the same 401. -/
theorem authenticate_creates_no_record_without_name :
    newcomerEnv.verifyToken "token-erin" = some ⟨"uid-erin", some "erin@example.org", none⟩ ∧
    (sampleStore.users.find? fun u => u.firebaseUid = "uid-erin") = none ∧
    authenticate newcomerEnv sampleStore ⟨some "Bearer token-erin", noParams, none, []⟩ =
      .done sampleStore ⟨401, .message "Invalid or expired token"⟩ ∧
    (putMeRoute newcomerEnv sampleStore ⟨some "Bearer token-erin", noParams, none, []⟩
      ⟨some "Erin", none, none, none, none, none⟩) =
      (sampleStore, ⟨401, .message "Invalid or expired token"⟩) := by
  decide

end AgriQB
